import Mathlib

/-!
# Peanut console: a shallow embedding of `console/console.go`

The Go package keeps its session in package-level variables (`listPage`,
`listLimit`, `filter`) and talks to three collaborators: the terminal
(`input`), the clock (`time.Now`) and the SQL store.  The embedding makes all
of them explicit fields of one record, `Sys`, and every function of the
source that touches them becomes a function from `Sys` to `Sys`.
-/

deriving instance DecidableEq for Except

namespace Peanut

/-! ## Constants -/

def STATUS_NONE : Int := 0
def STATUS_IN_PROGRESS : Int := 1
def STATUS_FINISHED : Int := 2
def STATUS_CANCELLED : Int := 3

def PGE_CONSOLE : Int := 1
def PGE_LIST_TASKS : Int := 2

def CMD_GOTO_CREATE_TASK : Int := 1
def CMD_GOTO_DELETE_TASK : Int := 2
def CMD_GOTO_UPDATE_TASK : Int := 3
def CMD_GOTO_PGE_LIST_TASKS : Int := 4
def CMD_GOTO_CONSOLE : Int := 5
def CMD_LIST_TASK : Int := 6
def CMD_LIST_TAKS_NEXT_PAGE : Int := 7
def CMD_LIST_TAKS_PREV_PAGE : Int := 8
def CMD_CREATE_TASK : Int := 9
def CMD_LIST_TAKS_FILTER_NAME : Int := 10
def CMD_LIST_TAKS_FILTER_STATUS : Int := 11
def CMD_LIST_TAKS_FILTER_CURR_WEEK : Int := 12
def CMD_LIST_TAKS_FILTER_CURR_MONTH : Int := 13

def CMD_IGNORE : Int := -1
def CMD_EXIT : Int := -2

/-! ## Machine integers -/

/-- Largest value of Go's `int` on a 64-bit platform. -/
def maxInt : Int := 9223372036854775807

/-- Smallest value of Go's `int` on a 64-bit platform. -/
def minInt : Int := -9223372036854775808

/-- Two's-complement wrap-around of a mathematical integer into Go's 64-bit `int`. -/
def wrapInt (x : Int) : Int := (x + 9223372036854775808) % 18446744073709551616 - 9223372036854775808

/-! ## Commands -/

/-- The `Command` struct.  Its `Payload any` field is never written nor read
by the package, so only `Cmd` is kept. -/
structure Command where
  Cmd : Int
deriving DecidableEq, Repr

/-- Source: `parseCmd` (console.go:127-162). -/
def parseCmd (in_page : Int) (input : String) : Command :=
  if in_page = PGE_CONSOLE then
    if input = "0" then ⟨CMD_EXIT⟩
    else if input = "1" then ⟨CMD_GOTO_PGE_LIST_TASKS⟩
    else if input = "2" then ⟨CMD_CREATE_TASK⟩
    else if input = "3" then ⟨CMD_GOTO_UPDATE_TASK⟩
    else if input = "4" then ⟨CMD_GOTO_DELETE_TASK⟩
    else ⟨CMD_IGNORE⟩
  else if in_page = PGE_LIST_TASKS then
    if input = "0" then ⟨CMD_GOTO_CONSOLE⟩
    else if input = "1" then ⟨CMD_LIST_TAKS_PREV_PAGE⟩
    else if input = "2" then ⟨CMD_LIST_TAKS_NEXT_PAGE⟩
    else if input = "3" then ⟨CMD_LIST_TAKS_FILTER_NAME⟩
    else if input = "4" then ⟨CMD_LIST_TAKS_FILTER_STATUS⟩
    else if input = "5" then ⟨CMD_LIST_TAKS_FILTER_CURR_WEEK⟩
    else if input = "6" then ⟨CMD_LIST_TAKS_FILTER_CURR_MONTH⟩
    else ⟨CMD_GOTO_PGE_LIST_TASKS⟩
  else ⟨CMD_IGNORE⟩

/-! ## Time (a model of the parts of Go's `time` package the program uses)

A `Time` is a wall-clock reading in a location: nanoseconds since
0001-01-01 00:00:00 on the clock of that location, and the location, whose
offset from UTC may change (daylight saving).  The calendar fields of a time
(`Date`, `Day`, `Weekday`, the clock) are those of its wall-clock reading, as
Go computes them from the instant and the offset in force. -/

/-- A `*time.Location`: the offset from UTC in seconds before the first
transition, and the transitions in ascending order, each with the Unix second
it happens at and the offset in force from then on.  After the last
transition its offset stays in force (the rule a zone file may carry for the
years after its table is not modelled). -/
structure Location where
  first : Int
  tx : List (Int × Int)
deriving DecidableEq, Repr

/-- `time.UTC`. -/
def Location.UTC : Location := ⟨0, []⟩

/-- The bounds `alpha` and `omega` of `zoneinfo.go`: the beginning and the end of time. -/
def alpha : Int := -9223372036854775808

def omega : Int := 9223372036854775807

/-- The search of `Location.lookup` for the zone in force at `sec`, from the
zone in force before the transitions still to come. -/
def Location.lookupFrom (offset start : Int) : List (Int × Int) → Int → Int × Int × Int
  | [], _ => (offset, start, omega)
  | (lim, off) :: rest, sec =>
    if sec < lim then (offset, start, lim) else Location.lookupFrom off lim rest sec

/-- `Location.lookup` (zoneinfo.go): the offset in force at the Unix second
`sec` and the bounds `start ≤ sec < end` of the span it is in force for. -/
def Location.lookup (l : Location) (sec : Int) : Int × Int × Int :=
  Location.lookupFrom l.first alpha l.tx sec

structure Time where
  ns : Int
  loc : Location
deriving DecidableEq, Repr

def nsPerDay : Int := 86400000000000

def nsPerSecond : Int := 1000000000

/-- Seconds from 0001-01-01 00:00:00 to 1970-01-01 00:00:00. -/
def unixEpoch : Int := 62135596800

/-- `Time.IsZero`: the time is the instant January 1, year 1, 00:00:00 UTC,
whose reading on the clock of a location is the offset in force then. -/
def Time.IsZero (t : Time) : Bool := t.ns == (t.loc.lookup (-unixEpoch)).1 * nsPerSecond

/-- Day number of a time: whole days since 0001-01-01 (floor). -/
def Time.days (t : Time) : Int := t.ns / nsPerDay

/-- Nanoseconds since midnight. -/
def Time.nsOfDay (t : Time) : Int := t.ns % nsPerDay

/-- `Time.Weekday`: 0 is Sunday.  0001-01-01 was a Monday. -/
def Time.Weekday (t : Time) : Int := (t.days + 1) % 7

def isLeap (year : Int) : Bool :=
  year % 4 == 0 && (year % 100 != 0 || year % 400 == 0)

/-- Days before the start of each month of a non-leap year (the table
`daysBefore`, indexed from 0). -/
def daysBefore (month : Int) : Int :=
  if month = 0 then 0 else if month = 1 then 31 else if month = 2 then 59
  else if month = 3 then 90 else if month = 4 then 120 else if month = 5 then 151
  else if month = 6 then 181 else if month = 7 then 212 else if month = 8 then 243
  else if month = 9 then 273 else if month = 10 then 304 else if month = 11 then 334
  else 365

/-- The first half of `absDate` of Go's `time` package: the year of a day
number and the day within that year (from 0), by 400-, 100-, 4- and 1-year
cycles. -/
def absYday (days : Int) : Int × Int :=
  let n400 := days / 146097
  let d := days % 146097
  let n := d / 36524
  let n100 := n - n / 4
  let d := d - 36524 * n100
  let n4 := d / 1461
  let d := d - 1461 * n4
  let n := d / 365
  let n1 := n - n / 4
  (1 + 400 * n400 + 100 * n100 + 4 * n4 + n1, d - 365 * n1)

/-- The second half of `absDate`: month and day of the month of a day of the
year, the month by an estimate of 31 days a month. -/
def monthDay (leap : Bool) (yday : Int) : Int × Int :=
  if leap && yday == 31 + 29 - 1 then (2, 29)
  else
    let day := if leap && yday > 31 + 29 - 1 then yday - 1 else yday
    let month := day / 31
    let endd := daysBefore (month + 1)
    if day >= endd then (month + 2, day - endd + 1)
    else (month + 1, day - daysBefore month + 1)

/-- `absDate`: the civil date `(year, month, day)` of a day number. -/
def absDate (days : Int) : Int × Int × Int :=
  let (year, yday) := absYday days
  let (month, day) := monthDay (isLeap year) yday
  (year, month, day)

/-- `Time.Date`. -/
def Time.Date (t : Time) : Int × Int × Int := absDate t.days

/-- `Time.Day`: the day of the month. -/
def Time.Day (t : Time) : Int := t.Date.2.2

/-- Days from 0001-01-01 to January 1 of `year` (`daysSinceEpoch`). -/
def daysSinceEpoch (year : Int) : Int :=
  let y := year - 1
  let n400 := y / 400
  let y := y % 400
  let n100 := y / 100
  let y := y % 100
  let n4 := y / 4
  let y := y % 4
  146097 * n400 + 36524 * n100 + 1461 * n4 + 365 * y

/-- Days from January 1 to the given day of the given month (1..12); the day
is not range-checked but counted on from the first of the month. -/
def yearDay (leap : Bool) (month day : Int) : Int :=
  daysBefore (month - 1) + (if leap && month ≥ 3 then 1 else 0) + (day - 1)

/-- `time.Date(year, month, day, hour, min, sec, nsec, loc)` for a clock
reading given as nanoseconds since midnight: the month is normalised into
1..12, the day is counted on from the first of the month, which is how Go
normalises October 32.  The wall-clock reading asked for is first taken as if
it were UTC (`unix`); the offset in force there is subtracted, and when that
leaves the span of the zone found, the offset in force at the instant reached
is subtracted instead.  The result is the instant so found, read on the clock
of `loc`: it is the reading asked for unless that reading falls where the
offset changes. -/
def goDateIn (loc : Location) (year month day nsOfDay : Int) : Time :=
  let m := month - 1
  let year := year + m / 12
  let m := m % 12
  let wall := (daysSinceEpoch year + yearDay (isLeap year) (m + 1) day) * nsPerDay + nsOfDay
  let unix := wall / nsPerSecond - unixEpoch
  let (offset, start, endd) := loc.lookup unix
  let instant :=
    if offset ≠ 0 then
      let utc := unix - offset
      let offset := if utc < start ∨ utc ≥ endd then (loc.lookup utc).1 else offset
      unix - offset
    else unix
  ⟨wall + (instant - unix + (loc.lookup instant).1) * nsPerSecond, loc⟩

/-- `time.Date(..., time.UTC)`, which is what `time.Parse` builds its result
with for a layout that names no zone. -/
def goDate (year month day nsOfDay : Int) : Time :=
  goDateIn Location.UTC year month day nsOfDay

/-- `Time.AddDate`. -/
def Time.AddDate (t : Time) (years months days : Int) : Time :=
  let (year, month, day) := t.Date
  goDateIn t.loc (year + years) (month + months) (day + days) t.nsOfDay

/-- Days in a month (`daysIn`). -/
def daysIn (month year : Int) : Int :=
  if month == 2 && isLeap year then 29 else daysBefore month - daysBefore (month - 1)

/-! ## Strings (a model of the parts of Go's `strings` package the program uses) -/

/-- `unicode.IsSpace`: the code points with Unicode's White_Space property. -/
def isSpace (c : Char) : Bool :=
  let n := c.toNat
  (9 ≤ n && n ≤ 13) || n == 32 || n == 133 || n == 160 || n == 5760 ||
  (8192 ≤ n && n ≤ 8202) || n == 8232 || n == 8233 || n == 8239 || n == 8287 || n == 12288

/-- `strings.TrimSpace`. -/
def trimSpace (s : String) : String :=
  String.mk (((s.toList.dropWhile isSpace).reverse.dropWhile isSpace).reverse)

/-- `unicode.ToUpper` on the code points whose upper case is an ASCII letter:
the ASCII lower-case letters, dotless i (U+0131) and long s (U+017F).  Every
other code point is left as it is: its upper case is no ASCII character, so
it cannot turn a string into one of the ASCII names `parseStatus` compares
against. -/
def upperRune (c : Char) : Char :=
  if c.toNat == 305 then 'I' else if c.toNat == 383 then 'S' else c.toUpper

/-- `strings.ToUpper` (see `upperRune`). -/
def toUpper (s : String) : String := String.mk (s.toList.map upperRune)

/-! ## Data model -/

/-- The `Task` struct; a nil `*time.Time` is `none`. -/
structure Task where
  Id : Int
  Name : String
  Status : Int
  Ctime : Time
  ActualStart : Option Time
  ExpectedEnd : Option Time
  ActualEnd : Option Time
deriving DecidableEq, Repr

/-- The `ListTaskFilter` struct. -/
structure ListTaskFilter where
  Name : String
  Status : Int
  CtimeOpen : Time
  CtimeClose : Time
  ActualStartOpen : Time
  ActualStartClose : Time
  ExpectedEndOpen : Time
  ExpectedEndClose : Time
  ActualEndOpen : Time
  ActualEndClose : Time
deriving DecidableEq, Repr

/-- The zero value `ListTaskFilter{}`. -/
def ListTaskFilter.zero : ListTaskFilter :=
  ⟨"", 0, ⟨0, Location.UTC⟩, ⟨0, Location.UTC⟩, ⟨0, Location.UTC⟩, ⟨0, Location.UTC⟩,
    ⟨0, Location.UTC⟩, ⟨0, Location.UTC⟩, ⟨0, Location.UTC⟩, ⟨0, Location.UTC⟩⟩

/-! ## The store (a model of the SQL database behind `sqlite.GetSqlite()`)

The table `task` is a list of rows.  A statement is built the way the source
builds it, clause by clause, and the store evaluates it with SQL's meaning:
`WHERE` clauses are AND-ed, a comparison with a NULL column is not true,
`ORDER BY id desc`, then `OFFSET`, then `LIMIT`.  Whether a statement fails
is the store's choice: `faults` scripts the outcome of the statements to
come (`none`, or a script that has run out, is success). -/

/-- The timestamp columns of table `task`. -/
inductive Col where
  | ctime | actual_start | expected_end | actual_end
deriving DecidableEq, Repr

/-- The `WHERE` fragments the program uses, with their bound argument. -/
inductive Cond where
  /-- `name like ?` -/
  | nameLike (pattern : String)
  /-- `status = ?` -/
  | statusEq (v : Int)
  /-- `<column> >= ?` -/
  | ge (c : Col) (v : Time)
  /-- `<column> <= ?` -/
  | le (c : Col) (v : Time)
deriving DecidableEq, Repr

/-- A statement under construction (gorm's `*gorm.DB` chain). -/
structure Tx where
  table : String
  columns : String
  offset : Option Int
  limit : Option Int
  order : Option String
  wheres : List Cond
deriving DecidableEq, Repr

def Tx.Table (name : String) : Tx := ⟨name, "", none, none, none, []⟩
def Tx.Select (tx : Tx) (cols : String) : Tx := { tx with columns := cols }
def Tx.Offset (tx : Tx) (n : Int) : Tx := { tx with offset := some n }
def Tx.Limit (tx : Tx) (n : Int) : Tx := { tx with limit := some n }
def Tx.Order (tx : Tx) (o : String) : Tx := { tx with order := some o }
def Tx.Where (tx : Tx) (c : Cond) : Tx := { tx with wheres := tx.wheres ++ [c] }

/-- ASCII case folding, the only folding SQLite's `LIKE` does. -/
def asciiFold (c : Char) : Char := c.toLower

/-- Does some suffix of the text satisfy `f`? -/
def anySuffix (f : List Char → Bool) : List Char → Bool
  | [] => f []
  | c :: cs => f (c :: cs) || anySuffix f cs

/-- SQLite's `LIKE`: `%` matches any run of characters, `_` any one
character, anything else itself up to ASCII case. -/
def likeMatch : List Char → List Char → Bool
  | [], text => text.isEmpty
  | p :: ps, text =>
    if p = '%' then anySuffix (likeMatch ps) text
    else match text with
      | [] => false
      | c :: cs => (p = '_' || asciiFold p = asciiFold c) && likeMatch ps cs

/-- The value of a timestamp column in a row; `none` is NULL. -/
def Task.col (t : Task) : Col → Option Time
  | .ctime => some t.Ctime
  | .actual_start => t.ActualStart
  | .expected_end => t.ExpectedEnd
  | .actual_end => t.ActualEnd

/-- Is the condition true of the row? -/
def Cond.holds (t : Task) : Cond → Bool
  | .nameLike p => likeMatch p.toList t.Name.toList
  | .statusEq v => t.Status == v
  | .ge c v => match t.col c with
    | some x => decide (v.ns ≤ x.ns)
    | none => false
  | .le c v => match t.col c with
    | some x => decide (x.ns ≤ v.ns)
    | none => false

structure Store where
  rows : List Task
  faults : List (Option String)
deriving DecidableEq, Repr

/-- The outcome the store has chosen for the next statement. -/
def Store.step (db : Store) : Option String × Store :=
  match db.faults with
  | [] => (none, db)
  | f :: fs => (f, { db with faults := fs })

/-- The rows of the table that satisfy every `WHERE` clause of the statement. -/
def Tx.selected (tx : Tx) (rows : List Task) : List Task :=
  rows.filter (fun t => tx.wheres.all (Cond.holds t))

/-- `ORDER BY id desc` when the statement asks for it. -/
def Tx.ordered (tx : Tx) (rows : List Task) : List Task :=
  match tx.order with
  | some _ => rows.insertionSort (fun a b => b.Id ≤ a.Id)
  | none => rows

/-- `OFFSET` and `LIMIT`: a negative offset skips nothing, a negative limit
is no limit. -/
def Tx.window (tx : Tx) (rows : List Task) : List Task :=
  let rows := match tx.offset with
    | some n => rows.drop n.toNat
    | none => rows
  match tx.limit with
  | some n => if n < 0 then rows else rows.take n.toNat
  | none => rows

/-- `tx.Scan(&tasks)`: runs the `SELECT`. -/
def Store.Scan (db : Store) (tx : Tx) : Except String (List Task) × Store :=
  match db.step with
  | (some e, db) => (.error e, db)
  | (none, db) => (.ok (tx.window (tx.ordered (tx.selected db.rows))), db)

/-- `tx.Count(&total)`: runs `SELECT count(*)` with the statement's `WHERE` clauses. -/
def Store.Count (db : Store) (tx : Tx) : Except String Int × Store :=
  match db.step with
  | (some e, db) => (.error e, db)
  | (none, db) => (.ok (tx.selected db.rows).length, db)

/-- The identifier `AUTOINCREMENT` gives the next row: one more than the largest so far. -/
def Store.nextId (db : Store) : Int :=
  (db.rows.map Task.Id).foldl max 0 + 1

/-- `Table("task").Omit("Id").Create(&t)`: inserts the row, the store choosing the identifier. -/
def Store.Create (db : Store) (t : Task) : Option String × Store :=
  match db.step with
  | (some e, db) => (some e, db)
  | (none, db) => (none, { db with rows := db.rows ++ [{ t with Id := db.nextId }] })

/-! ## `listTasks` -/

/-- The page statement of `listTasks` (console.go:319-349). -/
def listTasksPageTx (page limit : Int) (filter : ListTaskFilter) : Tx :=
  let tx := ((((Tx.Table "task").Select "*").Offset
    (wrapInt (wrapInt (page - 1) * limit))).Limit limit).Order "id desc"
  let tx := if filter.Name ≠ "" then tx.Where (.nameLike ("%" ++ filter.Name ++ "%")) else tx
  let tx := if filter.Status > 0 then tx.Where (.statusEq filter.Status) else tx
  let tx := if !filter.ActualStartOpen.IsZero then
    tx.Where (.ge .actual_start filter.ActualStartOpen) else tx
  let tx := if !filter.ActualStartClose.IsZero then
    tx.Where (.le .actual_start filter.ActualStartClose) else tx
  let tx := if !filter.ActualEndOpen.IsZero then
    tx.Where (.ge .actual_end filter.ActualEndOpen) else tx
  let tx := if !filter.ActualEndClose.IsZero then
    tx.Where (.le .actual_end filter.ActualEndClose) else tx
  let tx := if !filter.ExpectedEndOpen.IsZero then
    tx.Where (.ge .expected_end filter.ExpectedEndOpen) else tx
  let tx := if !filter.ExpectedEndClose.IsZero then
    tx.Where (.le .expected_end filter.ExpectedEndClose) else tx
  tx

/-- The count statement of `listTasks` (console.go:357-383). -/
def listTasksCountTx (filter : ListTaskFilter) : Tx :=
  let tx := Tx.Table "task"
  let tx := if filter.Name ≠ "" then tx.Where (.nameLike ("%" ++ filter.Name ++ "%")) else tx
  let tx := if filter.Status > 0 then tx.Where (.statusEq filter.Status) else tx
  let tx := if !filter.ActualStartOpen.IsZero then
    tx.Where (.ge .actual_start filter.ActualStartOpen) else tx
  let tx := if !filter.ActualStartClose.IsZero then
    tx.Where (.le .actual_start filter.ActualStartClose) else tx
  let tx := if !filter.ActualEndOpen.IsZero then
    tx.Where (.ge .actual_end filter.ActualEndOpen) else tx
  let tx := if !filter.ActualEndClose.IsZero then
    tx.Where (.le .actual_end filter.ActualEndClose) else tx
  let tx := if !filter.ExpectedEndOpen.IsZero then
    tx.Where (.ge .expected_end filter.ExpectedEndOpen) else tx
  let tx := if !filter.ExpectedEndClose.IsZero then
    tx.Where (.le .expected_end filter.ExpectedEndClose) else tx
  tx

/-- Source: `listTasks` (console.go:317-390).  Returns the rows and the total,
or the error, together with the store after the statements ran. -/
def listTasks (db : Store) (page limit : Int) (filter : ListTaskFilter) :
    Except String (List Task × Int) × Store :=
  match db.Scan (listTasksPageTx page limit filter) with
  | (.error e, db) => (.error ("failed to list tasks, " ++ e), db)
  | (.ok tasks, db) =>
    match db.Count (listTasksCountTx filter) with
    | (.error e, db) => (.error ("failed to list tasks, " ++ e), db)
    | (.ok total, db) => (.ok (tasks, total), db)

/-- What the `WHERE` clauses of `listTasks` come to for one row: the name
matches the pattern `%Name%` unless Name is empty, the status is the filter's
unless that is not above 0, and each of the six bounds on actual start,
actual end and expected end holds unless it is the zero time.  A row whose
column is NULL fails a bound on it. -/
def ListTaskFilter.selects (f : ListTaskFilter) (t : Task) : Bool :=
  (f.Name = "" || likeMatch ("%" ++ f.Name ++ "%").toList t.Name.toList) &&
  (!(f.Status > 0) || t.Status == f.Status) &&
  (f.ActualStartOpen.IsZero || (Cond.ge .actual_start f.ActualStartOpen).holds t) &&
  (f.ActualStartClose.IsZero || (Cond.le .actual_start f.ActualStartClose).holds t) &&
  (f.ActualEndOpen.IsZero || (Cond.ge .actual_end f.ActualEndOpen).holds t) &&
  (f.ActualEndClose.IsZero || (Cond.le .actual_end f.ActualEndClose).holds t) &&
  (f.ExpectedEndOpen.IsZero || (Cond.ge .expected_end f.ExpectedEndOpen).holds t) &&
  (f.ExpectedEndClose.IsZero || (Cond.le .expected_end f.ExpectedEndClose).holds t)

/-! ## The session -/

/-- What the program did, in order: the lines it logged and the calls the
claims speak about. -/
inductive Event where
  | log (msg : String)
  | listTasks (page limit : Int) (filter : ListTaskFilter)
  | printTasks (page limit : Int) (tasks : List Task) (filter : ListTaskFilter) (total : Int)
  | saveTask (t : Task)
deriving DecidableEq, Repr

/-- The package-level variables `listPage`, `listLimit`, `filter` and the
world around them: the store, what the terminal will deliver (one entry per
read: a line in line mode, a key in raw mode; when the list runs out the read
fails), the clock (`clock n` is what the n-th call of `time.Now` returns) and
the trace of what happened so far. -/
structure Sys where
  listPage : Int
  listLimit : Int
  filter : ListTaskFilter
  db : Store
  stdin : List String
  clock : Nat → Time
  tick : Nat
  trace : List Event

/-- `log.Print`. -/
def Sys.log (s : Sys) (msg : String) : Sys := { s with trace := s.trace ++ [.log msg] }

/-- `time.Now()`. -/
def Sys.Now (s : Sys) : Time × Sys := (s.clock s.tick, { s with tick := s.tick + 1 })

/-- The read loop of `input` (console.go:212-238): one read per round, the
text trimmed, again while `required` and the text is empty.  `none` is a
failed read. -/
def readInput (required : Bool) : List String → Option (String × List String)
  | [] => none
  | l :: rest =>
    let text := trimSpace l
    if required && text == "" then readInput required rest else some (text, rest)

/-- Source: `input` (console.go:203-244).  `none` is `log.Fatalf` after a
failed read: the process ends.  Both modes trim what one read delivered, so
`multiInput` only says what an entry of `stdin` is. -/
def input (msg : String) (_multiInput : Bool) (required : Bool) (s : Sys) : Option String × Sys :=
  let s := if msg ≠ "" then s.log msg else s
  match readInput required s.stdin with
  | none => (none, { s.log "failed to read from console, EOF" with stdin := [] })
  | some (text, rest) => (some (trimSpace text), { s with stdin := rest })

/-- Source: `parseStatus` (console.go:404-416). -/
def parseStatus (s : String) (dflt : Int) : Int :=
  let s := toUpper s
  if s = "IN_PROGRESS" then STATUS_IN_PROGRESS
  else if s = "FINISHED" then STATUS_FINISHED
  else if s = "CANCELLED" then STATUS_CANCELLED
  else dflt

/-! ## Parsing times (a model of `time.Parse` for the layouts of `timeFormats`) -/

def timeFormats : List String :=
  ["2006-01-02 15:04:05", "2006/01/02 15:04:05", "2006-01-02", "2006/01/02"]

def digitVal (c : Char) : Int := (c.toNat : Int) - 48

/-- `getnum`: a one- or two-digit number; with `fixed` it must have two digits. -/
def getnum (s : List Char) (fixed : Bool) : Option (Int × List Char) :=
  match s with
  | [] => none
  | [a] => if !a.isDigit || fixed then none else some (digitVal a, [])
  | a :: b :: rest =>
    if !a.isDigit then none
    else if !b.isDigit then (if fixed then none else some (digitVal a, b :: rest))
    else some (digitVal a * 10 + digitVal b, rest)

/-- The year field `2006`: exactly four digits. -/
def getyear (s : List Char) : Option (Int × List Char) :=
  match s with
  | a :: b :: c :: d :: rest =>
    if a.isDigit && b.isDigit && c.isDigit && d.isDigit then
      some (digitVal a * 1000 + digitVal b * 100 + digitVal c * 10 + digitVal d, rest)
    else none
  | _ => none

/-- `skip` for a one-character literal of the layout: a space of the layout
stands for any run of spaces of the value (none at its end), any other
character for itself. -/
def skipChar (c : Char) (s : List Char) : Option (List Char) :=
  if c = ' ' then
    match s with
    | [] => some []
    | x :: _ => if x ≠ ' ' then none else some (s.dropWhile (· = ' '))
  else
    match s with
    | [] => none
    | x :: rest => if x = c then some rest else none

/-- The fractional second `time.Parse` accepts right after the seconds field
though the layout has none: a period or comma and digits, of which the first
nine count.  Returns the nanoseconds and the rest. -/
def getfrac (s : List Char) : Int × List Char :=
  match s with
  | p :: d :: rest =>
    if (p = '.' || p = ',') && d.isDigit then
      let ds := (d :: rest).takeWhile Char.isDigit
      let kept := ds.take 9
      let ns := kept.foldl (fun acc c => acc * 10 + digitVal c) 0
      (ns * 10 ^ (9 - kept.length), (d :: rest).dropWhile Char.isDigit)
    else (0, s)
  | _ => (0, s)

/-- The date part `2006<sep>01<sep>02`. -/
def parseDatePart (sep : Char) (s : List Char) : Option ((Int × Int × Int) × List Char) := do
  let (year, s) ← getyear s
  let s ← skipChar sep s
  let (month, s) ← getnum s true
  if month ≤ 0 || 12 < month then none
  let s ← skipChar sep s
  let (day, s) ← getnum s true
  some ((year, month, day), s)

/-- The clock part ` 15:04:05`, as nanoseconds since midnight. -/
def parseClockPart (s : List Char) : Option (Int × List Char) := do
  let s ← skipChar ' ' s
  let (hour, s) ← getnum s false
  if 24 ≤ hour then none
  let s ← skipChar ':' s
  let (min, s) ← getnum s true
  if 60 ≤ min then none
  let s ← skipChar ':' s
  let (sec, s) ← getnum s true
  if 60 ≤ sec then none
  let (nsec, s) := getfrac s
  some (((hour * 60 + min) * 60 + sec) * 1000000000 + nsec, s)

/-- `time.Parse(layout, value)` for the four layouts of `timeFormats` (no
other layout is modelled); `none` is a parse error. -/
def timeParse (layout value : String) : Option Time := do
  let (sep, clock) ←
    if layout = "2006-01-02 15:04:05" then some ('-', true)
    else if layout = "2006/01/02 15:04:05" then some ('/', true)
    else if layout = "2006-01-02" then some ('-', false)
    else if layout = "2006/01/02" then some ('/', false)
    else none
  let ((year, month, day), s) ← parseDatePart sep value.toList
  let (nsOfDay, s) ← if clock then parseClockPart s else some (0, s)
  if !s.isEmpty then none
  if day < 1 || day > daysIn month year then none
  some (goDate year month day nsOfDay)

/-- Source: `parseTime` (console.go:457-472). -/
def parseTime (s : String) (sys : Sys) : Option Time × Sys :=
  if s = "" then (none, sys)
  else
    match timeFormats.findSome? (fun f => timeParse f s) with
    | some pt => (some pt, sys)
    | none =>
      let (t, sys) := sys.Now
      (some t, sys)

/-! ## The commands -/

/-- Source: `saveTask` (console.go:122-125). -/
def saveTask (t : Task) (s : Sys) : Option String × Sys :=
  let (e, db) := s.db.Create t
  (e, { s with db := db, trace := s.trace ++ [.saveTask t] })

/-- Source: `taskFromInput` (console.go:474-484).  `none` when a read failed
and the process ended. -/
def taskFromInput (s : Sys) : Option (Bool × Task) × Sys :=
  let ok := true
  match input "Name:" true true s with
  | (none, s) => (none, s)
  | (some name, s) =>
  match input "Status [IN_PROGRESS | FINISHED | CANCELLED]:" true false s with
  | (none, s) => (none, s)
  | (some status, s) =>
  let (ctime, s) := s.Now
  match input "Actual Start:" true false s with
  | (none, s) => (none, s)
  | (some a, s) =>
  let (actualStart, s) := parseTime a s
  match input "Expected End:" true false s with
  | (none, s) => (none, s)
  | (some b, s) =>
  let (expectedEnd, s) := parseTime b s
  match input "Actual End:" true false s with
  | (none, s) => (none, s)
  | (some c, s) =>
  let (actualEnd, s) := parseTime c s
  (some (ok, ⟨0, name, parseStatus status STATUS_IN_PROGRESS, ctime,
    actualStart, expectedEnd, actualEnd⟩), s)

/-- Source: `weekBegin` (console.go:486-496). -/
def weekBegin (s : Sys) : Time × Sys :=
  let (now, s) := s.Now
  let weekday := now.Weekday
  if weekday < 1 then (now.AddDate 0 0 (-6), s)
  else if weekday = 1 then (now, s)
  else (now.AddDate 0 0 (-(weekday - 1)), s)

/-- Source: `monthBegin` (console.go:498-505). -/
def monthBegin (s : Sys) : Time × Sys :=
  let (now, s) := s.Now
  let day := now.Day
  if day = 1 then (now, s)
  else (now.AddDate 0 0 (-day + 1), s)

/-- A call of `printTasks` (console.go:294-315), recorded with its arguments;
the lines it prints are not part of the session state. -/
def printTasks (page limit : Int) (tasks : List Task) (filter : ListTaskFilter) (total : Int)
    (s : Sys) : Sys :=
  { s with trace := s.trace ++ [.printTasks page limit tasks filter total] }

/-- A call of `listTasks` on the session's store, recorded with its arguments. -/
def callListTasks (page limit : Int) (filter : ListTaskFilter) (s : Sys) :
    Except String (List Task × Int) × Sys :=
  let (r, db) := listTasks s.db page limit filter
  (r, { s with db := db, trace := s.trace ++ [.listTasks page limit filter] })

/-- How a call of `execute` ends: it returns a page and an error (`none` is
nil), or the process ends with an exit code. -/
inductive Outcome where
  | ret (page : Int) (err : Option String) (s : Sys)
  | exit (code : Int) (s : Sys)

/-- The session state a call ended in. -/
def Outcome.sys : Outcome → Sys
  | .ret _ _ s => s
  | .exit _ s => s

/-- Source: `execute` (console.go:507-579). -/
def execute (in_page : Int) (c : Command) (s : Sys) : Outcome :=
  if c.Cmd = CMD_GOTO_CONSOLE then
    .ret PGE_CONSOLE none { s with filter := ListTaskFilter.zero }
  else if c.Cmd = CMD_EXIT then
    .exit 0 (s.log "Bye!")
  else if c.Cmd = CMD_GOTO_PGE_LIST_TASKS then
    match callListTasks s.listPage s.listLimit s.filter s with
    | (.ok (l, c), s) => .ret PGE_LIST_TASKS none (printTasks s.listPage s.listLimit l s.filter c s)
    | (.error e, s) => .ret PGE_LIST_TASKS (some e) s
  else if c.Cmd = CMD_LIST_TAKS_NEXT_PAGE then
    match callListTasks (wrapInt (s.listPage + 1)) s.listLimit s.filter s with
    | (.ok (l, c), s) =>
      let s := printTasks s.listPage s.listLimit l s.filter c s
      let s := if l.length > 0 then { s with listPage := wrapInt (s.listPage + 1) } else s
      .ret PGE_LIST_TASKS none s
    | (.error e, s) => .ret PGE_LIST_TASKS (some e) s
  else if c.Cmd = CMD_LIST_TAKS_PREV_PAGE then
    let s := if s.listPage > 1 then { s with listPage := wrapInt (s.listPage - 1) } else s
    match callListTasks s.listPage s.listLimit s.filter s with
    | (.ok (l, c), s) => .ret PGE_LIST_TASKS none (printTasks s.listPage s.listLimit l s.filter c s)
    | (.error e, s) => .ret PGE_LIST_TASKS (some e) s
  else if c.Cmd = CMD_LIST_TAKS_FILTER_NAME then
    match input "Filtering by name" true false s with
    | (none, s) => .exit 1 s
    | (some name, s) =>
    let s := { s with filter := { s.filter with Name := name } }
    match callListTasks s.listPage s.listLimit s.filter s with
    | (.ok (l, c), s) => .ret PGE_LIST_TASKS none (printTasks s.listPage s.listLimit l s.filter c s)
    | (.error e, s) => .ret PGE_LIST_TASKS (some e) s
  else if c.Cmd = CMD_LIST_TAKS_FILTER_STATUS then
    match input "Filter by status [IN_PROGRESS | FINISHED | CANCELLED]:" true false s with
    | (none, s) => .exit 1 s
    | (some status, s) =>
    let s := { s with filter := { s.filter with Status := parseStatus status STATUS_NONE } }
    match callListTasks s.listPage s.listLimit s.filter s with
    | (.ok (l, c), s) => .ret PGE_LIST_TASKS none (printTasks s.listPage s.listLimit l s.filter c s)
    | (.error e, s) => .ret PGE_LIST_TASKS (some e) s
  else if c.Cmd = CMD_LIST_TAKS_FILTER_CURR_WEEK then
    let (t, s) := weekBegin s
    let s := { s with filter := { s.filter with ActualStartOpen := t } }
    match callListTasks s.listPage s.listLimit s.filter s with
    | (.ok (l, c), s) => .ret PGE_LIST_TASKS none (printTasks s.listPage s.listLimit l s.filter c s)
    | (.error e, s) => .ret PGE_LIST_TASKS (some e) s
  else if c.Cmd = CMD_LIST_TAKS_FILTER_CURR_MONTH then
    let (t, s) := monthBegin s
    let s := { s with filter := { s.filter with ActualStartOpen := t } }
    match callListTasks s.listPage s.listLimit s.filter s with
    | (.ok (l, c), s) => .ret PGE_LIST_TASKS none (printTasks s.listPage s.listLimit l s.filter c s)
    | (.error e, s) => .ret PGE_LIST_TASKS (some e) s
  else if c.Cmd = CMD_CREATE_TASK then
    match taskFromInput s with
    | (none, s) => .exit 1 s
    | (some (ok, t), s) =>
      let s := if ok then
          match saveTask t s with
          | (some _, s) => s.log "Failed to saveTask, <nil>"
          | (none, s) => s
        else s
      .ret in_page none s
  else
    .ret in_page none s

/-! ## The session loop -/

/-- Source: `joinOptions` (console.go:164-170). -/
def joinOptions (title : String) (options : List String) : String :=
  options.enum.foldl (fun msg (p : Nat × String) => msg ++ " " ++ toString p.1 ++ ". " ++ p.2 ++ "\n")
    (title ++ "\n\n") ++ "\n"

/-- Source: `nextMsg` (console.go:172-194): the menu of a page; the second
component, `listenMultiple`, is always false. -/
def nextMsg (in_page : Int) : String × Bool :=
  if in_page = PGE_CONSOLE then
    (joinOptions "What to do next?"
      ["Exit", "List Tasks", "Create Task", "Update Task", "Delete Task"], false)
  else if in_page = PGE_LIST_TASKS then
    (joinOptions "What to do next?"
      ["Exit", "Prev Page", "Next Page", "Filter Name", "Filter Status", "Filter Current Week",
        "Filter Current Month"], false)
  else ("", false)

/-- Source: `isExit` (console.go:581-583). -/
def isExit (cmd : Command) : Bool := cmd.Cmd == CMD_EXIT

/-- The type `ConsoleLifecycleCallback`, a `func() error`: what it does to
the session, and the error it returns (`none` is nil). -/
abbrev ConsoleLifecycleCallback := Sys → Option String × Sys

/-- Source: `_invokeCallbacks` (console.go:621-628). -/
def _invokeCallbacks : List ConsoleLifecycleCallback → Sys → Option String × Sys
  | [], s => (none, s)
  | callback :: callbacks, s =>
    match callback s with
    | (some e, s) => (some e, s)
    | (none, s) => _invokeCallbacks callbacks s

/-- Source: `runOnBootstrap`, `runOnShutdown` (console.go:630-636): a callback
is registered at the end of the list. -/
def runOn (registered : List ConsoleLifecycleCallback) (f : ConsoleLifecycleCallback) :
    List ConsoleLifecycleCallback := registered ++ [f]

/-- `sqlite.GetSqlite().Exec(...)` of a `CREATE ... IF NOT EXISTS` statement:
the rows stay, the store may fail it. -/
def Store.Exec (db : Store) : Option String × Store := db.step

/-- The bootstrap callback `init` registers (console.go:91-114): it creates
the table, then the index. -/
def schemaCallback : ConsoleLifecycleCallback := fun s =>
  match s.db.Exec with
  | (some e, db) => (some ("failed to execute schema, " ++ e), { s with db := db })
  | (none, db) =>
    match db.Exec with
    | (some e, db) => (some ("failed to create index, " ++ e), { s with db := db })
    | (none, db) => (none, { s with db := db }.log "Schema Executed")

/-- The shutdown callback `init` registers (console.go:116-119). -/
def byeCallback : ConsoleLifecycleCallback := fun s => (none, s.log "Bye!")

/-- The list `onBootstrap` once `init` has run. -/
def onBootstrap : List ConsoleLifecycleCallback := runOn [] schemaCallback

/-- The list `onShutdown` once `init` has run. -/
def onShutdown : List ConsoleLifecycleCallback := runOn [] byeCallback

/-- How the `for` loop of `LaunchConsole` ends: by `break`, by `return` of
the wrapped error, or with the process. -/
inductive LoopEnd where
  | broke (s : Sys)
  | failed (err : String) (s : Sys)
  | exited (code : Int) (s : Sys)

/-- The `for` loop of `LaunchConsole` (console.go:594-605).  Every round reads
from the terminal, so a loop over a terminal that delivers n entries makes at
most n + 1 rounds; `none` is a loop cut short by too small a `fuel`. -/
def sessionLoop : Nat → Int → Sys → Option LoopEnd
  | 0, _, _ => none
  | fuel + 1, page, s =>
    let (msg, multi) := nextMsg page
    match input ("\n" ++ msg) multi true s with
    | (none, s) => some (.exited 1 s)
    | (some text, s) =>
      let cmd := parseCmd page text
      if isExit cmd then some (.broke s)
      else
        match execute page cmd s with
        | .exit code s => some (.exited code s)
        | .ret _ (some e) s => some (.failed ("failed to execute command, " ++ e) s)
        | .ret page none s => sessionLoop fuel page s

/-- How `LaunchConsole` ends: it returns an error (`none` is nil), or the
process ends with an exit code. -/
inductive Launched where
  | returned (err : Option String) (s : Sys)
  | exited (code : Int) (s : Sys)

/-- The error `LaunchConsole` returned; `none` also when the process ended. -/
def Launched.err : Launched → Option String
  | .returned e _ => e
  | .exited _ _ => none

/-- The session state `LaunchConsole` ended in. -/
def Launched.sys : Launched → Sys
  | .returned _ s => s
  | .exited _ s => s

/-- Has `LaunchConsole` returned (rather than the process ended)? -/
def Launched.isReturn : Launched → Bool
  | .returned _ _ => true
  | .exited _ _ => false

/-- Source: `LaunchConsole` (console.go:585-611), over the registered
callbacks and the configured version string. -/
def LaunchConsole (version : String) (bootstrap shutdown : List ConsoleLifecycleCallback)
    (s : Sys) : Option Launched :=
  match _invokeCallbacks bootstrap s with
  | (some e, s) => some (.returned (some e) s)
  | (none, s) =>
    let s := s.log ("Peanut " ++ version ++ " launched")
    match sessionLoop (s.stdin.length + 1) PGE_CONSOLE s with
    | none => none
    | some (.exited code s) => some (.exited code s)
    | some (.failed e s) => some (.returned (some e) s)
    | some (.broke s) =>
      match _invokeCallbacks shutdown s with
      | (some e, s) => some (.returned (some e) s)
      | (none, s) => some (.returned none s)

/-- The package-level variables as the `var` block initialises them
(console.go:45-48), in a given world. -/
def initSys (db : Store) (stdin : List String) (clock : Nat → Time) : Sys :=
  ⟨1, 10, ListTaskFilter.zero, db, stdin, clock, 0, []⟩

/-- A run of commands, each executed on a page of its own choice, from a
session state; once the process has ended nothing more is executed. -/
def runCommands : List (Int × Command) → Sys → Sys
  | [], s => s
  | (page, c) :: rest, s =>
    match execute page c s with
    | .ret _ _ s => runCommands rest s
    | .exit _ s => s

/-- The commands that list: go to list, next page, previous page and the four filters. -/
def listCommands : List Int :=
  [CMD_GOTO_PGE_LIST_TASKS, CMD_LIST_TAKS_NEXT_PAGE, CMD_LIST_TAKS_PREV_PAGE,
    CMD_LIST_TAKS_FILTER_NAME, CMD_LIST_TAKS_FILTER_STATUS, CMD_LIST_TAKS_FILTER_CURR_WEEK,
    CMD_LIST_TAKS_FILTER_CURR_MONTH]

/-- The error with which the store will fail the next list query, if it will:
the error of its page statement, or else of its count statement. -/
def Store.queryFault (db : Store) : Option String :=
  match db.faults with
  | some e :: _ => some e
  | none :: some e :: _ => some e
  | _ => none

/-- A step that only reads: page number, page size, filter and store are as
before, the terminal has delivered some of its entries, and the trace has
grown by log lines only. -/
def Sys.onlyRead (s s' : Sys) : Prop :=
  s'.listPage = s.listPage ∧ s'.listLimit = s.listLimit ∧ s'.filter = s.filter ∧
  s'.db = s.db ∧ s'.stdin.length ≤ s.stdin.length ∧
  ∃ logs : List String, s'.trace = s.trace ++ logs.map Event.log

/-- The invariant of the page counter after `k` commands: the stored page
number is between 1 and 1 + k, the page size is 10, and every list query
recorded was for a page between 1 and 1 + k with page size 10. -/
def Sys.pagesFromOne (k : Nat) (s : Sys) : Prop :=
  1 ≤ s.listPage ∧ s.listPage ≤ 1 + (k : Int) ∧ s.listLimit = 10 ∧
  ∀ page limit f, Event.listTasks page limit f ∈ s.trace →
    1 ≤ page ∧ page ≤ 1 + (k : Int) ∧ limit = 10

/-- Equal ignoring letter case, as `parseStatus` compares: equal after Go's
upper-casing of both sides. -/
def sameIgnoringCase (a b : String) : Bool := toUpper a == toUpper b

/-! ## Rendering a table -/

/-- Source: `strWidth` (console.go:199-201): the number of code points of the string. -/
def strWidth (s : String) : Int := s.length

/-- Source: `sjoin` (console.go:392-398): `token` appended `cnt` times, nothing for `cnt ≤ 0`. -/
def sjoin (cnt : Int) (token : String) : String :=
  (List.replicate cnt.toNat token).foldl (fun s t => s ++ t) ""

/-- Source: `spaces` (console.go:400-402). -/
def spaces (cnt : Int) : String := sjoin cnt " "

/-- Source: `max` (console.go:450-455), named apart from the `max` of Lean. -/
def intMax (a b : Int) : Int := if a ≥ b then a else b

/-- The loop `for i := range cols { indent[i] = max(indent[i], strWidth(r[i])) }`
of `printRows` for one row `r`, walking the columns and the row side by side.
`none` is the index-out-of-range panic for a row shorter than the columns. -/
def widen : List Int → List String → Option (List Int)
  | [], _ => some []
  | _ :: _, [] => none
  | w :: ws, cell :: cells => (widen ws cells).map (fun ws => intMax w (strWidth cell) :: ws)

/-- The two loops of `printRows` that fill `indent` (console.go:420-428). -/
def tableWidths (cols : List String) (rows : List (List String)) : Option (List Int) :=
  rows.foldlM widen (cols.map strWidth)

/-- The loop of `printRows` that builds `colTitle` and `colSep`
(console.go:431-437), from the values the two have before the column. -/
def headerLoop : List String → List Int → String × String → String × String
  | col :: cols, w :: ws, (colTitle, colSep) =>
    let colTitle := colTitle ++ (col ++ spaces (w - strWidth col + 1) ++ " | ")
    let colSep := colSep ++ (sjoin (w + 1) "-" ++ "-|")
    let colSep := if !cols.isEmpty then colSep ++ "-" else colSep
    headerLoop cols ws (colTitle, colSep)
  | _, _, acc => acc

/-- The loop of `printRows` that builds `rowCtn` for one row (console.go:442-444). -/
def rowLoop : List Int → List String → String → Option String
  | [], _, rowCtn => some rowCtn
  | _ :: _, [], _ => none
  | w :: ws, cell :: cells, rowCtn =>
    rowLoop ws cells (rowCtn ++ (cell ++ spaces (1 + w - strWidth cell) ++ " | "))

/-- Source: `printRows` (console.go:418-448).  The result is what is handed to
`log.Print`, call by call; `none` is the panic for a row shorter than the
columns, which happens in the loops filling `indent`, before anything is printed. -/
def printRows (cols : List String) (rows : List (List String)) : Option (List String) := do
  let indent ← tableWidths cols rows
  let (colTitle, colSep) := headerLoop cols indent ("| ", "|-")
  let body ← rows.mapM (fun r => rowLoop indent r "| ")
  some ([colSep ++ "\n" ++ colTitle ++ "\n" ++ colSep] ++ body ++ [colSep])

/-- A cell padded with spaces on the right to the given width. -/
def padRight (w : Int) (cell : String) : List Char :=
  cell.data ++ List.replicate (w.toNat - cell.length) ' '

/-- The columns of a header or data line after its opening border: each
cell padded to the width of its column, a space, and the border ` | `. -/
def fieldsOf : List Int → List String → List Char
  | w :: ws, cell :: cells => padRight w cell ++ [' ', ' ', '|', ' '] ++ fieldsOf ws cells
  | _, _ => []

/-- The columns of the separator line after its opening border: dashes as
wide as the column and the spaces around it, and a `|` under each border. -/
def dashesOf : List Int → List Char
  | [] => []
  | [w] => List.replicate (w.toNat + 2) '-' ++ ['|']
  | w :: ws => List.replicate (w.toNat + 2) '-' ++ ['|', '-'] ++ dashesOf ws

/-- The positions of the borders after the opening one, for a line whose
first column starts at `start`. -/
def barsFrom (start : Nat) : List Int → List Nat
  | [] => []
  | w :: ws => (start + w.toNat + 2) :: barsFrom (start + w.toNat + 4) ws

/-- The positions of the borders of a table with the given column widths. -/
def borderBars (ws : List Int) : List Nat := 0 :: barsFrom 2 ws

/-- Every cell of the line is at most as wide as its column, and no column lacks a cell. -/
def fits : List Int → List String → Bool
  | [], _ => true
  | _ :: _, [] => false
  | w :: ws, cell :: cells => decide (strWidth cell ≤ w) && fits ws cells

/-- A header or data line: the opening border and the columns. -/
def dataLine (ws : List Int) (cells : List String) : String := ⟨'|' :: ' ' :: fieldsOf ws cells⟩

/-- The separator line: the opening border and the dashes of the columns. -/
def sepLine (ws : List Int) : String := ⟨'|' :: '-' :: dashesOf ws⟩

/-- The session after the first `k` callbacks of the list have been called
one after the other in list order, each in the state the one before it left,
whatever they returned. -/
def calledInOrder (callbacks : List ConsoleLifecycleCallback) (k : Nat) (s : Sys) : Sys :=
  (callbacks.take k).foldl (fun s callback => (callback s).2) s

/-- A callback that logs a note and succeeds. -/
def noteCallback (msg : String) : ConsoleLifecycleCallback := fun s => (none, s.log msg)

/-- A callback that logs a note and fails with it. -/
def failingCallback (msg : String) : ConsoleLifecycleCallback := fun s => (some msg, s.log msg)

/-! ## Sample data -/

/-- A task with the given identifier and name, in progress, created at time 5. -/
def sampleTask (id : Int) (name : String) : Task :=
  ⟨id, name, 1, ⟨5, Location.UTC⟩, none, none, none⟩

/-- A store of three tasks whose statements all succeed. -/
def sampleStore : Store := ⟨[sampleTask 1 "a", sampleTask 3 "b", sampleTask 2 "ab"], []⟩

/-- A session on page 1 with page size 2 and no filter, over `sampleStore`;
the terminal will deliver five lines and the clock reads `n` at its n-th call. -/
def sampleSys : Sys :=
  ⟨1, 2, ListTaskFilter.zero, sampleStore, ["x", "", "2024-01-02", "zz", ""], fun n => ⟨n, Location.UTC⟩, 0, []⟩

/-! ## Command parsing -/

/-- The zero value of `time.Time` is the zero instant. -/
theorem Time.IsZero_zero : (⟨0, Location.UTC⟩ : Time).IsZero = true := by decide

/-- C3: on page LIST_TASKS `parseCmd` maps "0" to return-to-console, "1" to
previous page, "2" to next page, "3" to filter-by-name, "4" to
filter-by-status, "5" to filter-by-current-week, "6" to
filter-by-current-month and every other input to the reload-list command; it
never returns the ignore command on this page. -/
theorem parseCmd_list_tasks :
    parseCmd PGE_LIST_TASKS "0" = ⟨CMD_GOTO_CONSOLE⟩ ∧
    parseCmd PGE_LIST_TASKS "1" = ⟨CMD_LIST_TAKS_PREV_PAGE⟩ ∧
    parseCmd PGE_LIST_TASKS "2" = ⟨CMD_LIST_TAKS_NEXT_PAGE⟩ ∧
    parseCmd PGE_LIST_TASKS "3" = ⟨CMD_LIST_TAKS_FILTER_NAME⟩ ∧
    parseCmd PGE_LIST_TASKS "4" = ⟨CMD_LIST_TAKS_FILTER_STATUS⟩ ∧
    parseCmd PGE_LIST_TASKS "5" = ⟨CMD_LIST_TAKS_FILTER_CURR_WEEK⟩ ∧
    parseCmd PGE_LIST_TASKS "6" = ⟨CMD_LIST_TAKS_FILTER_CURR_MONTH⟩ ∧
    (∀ input : String, input ∉ ["0", "1", "2", "3", "4", "5", "6"] →
      parseCmd PGE_LIST_TASKS input = ⟨CMD_GOTO_PGE_LIST_TASKS⟩) ∧
    (∀ input : String, (parseCmd PGE_LIST_TASKS input).Cmd ≠ CMD_IGNORE) := by
  refine ⟨by decide, by decide, by decide, by decide, by decide, by decide, by decide, ?_, ?_⟩
  · intro input h
    simp only [List.mem_cons, List.mem_singleton, List.not_mem_nil, or_false, not_or] at h
    obtain ⟨h0, h1, h2, h3, h4, h5, h6⟩ := h
    simp [parseCmd, PGE_LIST_TASKS, PGE_CONSOLE, h0, h1, h2, h3, h4, h5, h6]
  · intro input
    unfold parseCmd
    simp only [PGE_LIST_TASKS, PGE_CONSOLE]
    repeat' split
    all_goals simp_all [CMD_IGNORE, CMD_GOTO_CONSOLE, CMD_LIST_TAKS_PREV_PAGE,
      CMD_LIST_TAKS_NEXT_PAGE, CMD_LIST_TAKS_FILTER_NAME, CMD_LIST_TAKS_FILTER_STATUS,
      CMD_LIST_TAKS_FILTER_CURR_WEEK, CMD_LIST_TAKS_FILTER_CURR_MONTH, CMD_GOTO_PGE_LIST_TASKS]

/-- C3 at the input "hello": it is none of the seven digits, and the list is reloaded. -/
theorem parseCmd_list_tasks_witness :
    parseCmd PGE_LIST_TASKS "hello" = ⟨CMD_GOTO_PGE_LIST_TASKS⟩ :=
  parseCmd_list_tasks.2.2.2.2.2.2.2.1 "hello" (by decide)

/-- C4: on page CONSOLE `parseCmd` maps "0" to exit, "1" to go-to-list, "2" to
create-task, "3" to go-to-update-task, "4" to go-to-delete-task and every
other input to the ignore command; on every page other than CONSOLE and
LIST_TASKS every input maps to the ignore command. -/
theorem parseCmd_console :
    parseCmd PGE_CONSOLE "0" = ⟨CMD_EXIT⟩ ∧
    parseCmd PGE_CONSOLE "1" = ⟨CMD_GOTO_PGE_LIST_TASKS⟩ ∧
    parseCmd PGE_CONSOLE "2" = ⟨CMD_CREATE_TASK⟩ ∧
    parseCmd PGE_CONSOLE "3" = ⟨CMD_GOTO_UPDATE_TASK⟩ ∧
    parseCmd PGE_CONSOLE "4" = ⟨CMD_GOTO_DELETE_TASK⟩ ∧
    (∀ input : String, input ∉ ["0", "1", "2", "3", "4"] →
      parseCmd PGE_CONSOLE input = ⟨CMD_IGNORE⟩) ∧
    (∀ (page : Int) (input : String), page ≠ PGE_CONSOLE → page ≠ PGE_LIST_TASKS →
      parseCmd page input = ⟨CMD_IGNORE⟩) := by
  refine ⟨by decide, by decide, by decide, by decide, by decide, ?_, ?_⟩
  · intro input h
    simp only [List.mem_cons, List.mem_singleton, List.not_mem_nil, or_false, not_or] at h
    obtain ⟨h0, h1, h2, h3, h4⟩ := h
    simp [parseCmd, h0, h1, h2, h3, h4]
  · intro page input hc hl
    simp [parseCmd, hc, hl]

/-- C4 at the input "9" on CONSOLE and at the input "1" on a page that is
neither CONSOLE nor LIST_TASKS. -/
theorem parseCmd_console_witness :
    parseCmd PGE_CONSOLE "9" = ⟨CMD_IGNORE⟩ ∧ parseCmd 7 "1" = ⟨CMD_IGNORE⟩ :=
  ⟨parseCmd_console.2.2.2.2.2.1 "9" (by decide),
   parseCmd_console.2.2.2.2.2.2 7 "1" (by decide) (by decide)⟩

/-! ## Executing commands -/

/-- C8: executing the return-to-console command on any page and in any
session state returns page CONSOLE with no error, sets the stored filter to
the empty filter (every field zero or empty) and leaves the stored list page
number as it was. -/
theorem execute_goto_console (in_page : Int) (s : Sys) :
    ∃ s' : Sys, execute in_page ⟨CMD_GOTO_CONSOLE⟩ s = .ret PGE_CONSOLE none s' ∧
      s'.filter = ListTaskFilter.zero ∧
      s'.filter.Name = "" ∧ s'.filter.Status = 0 ∧
      s'.filter.CtimeOpen.IsZero = true ∧ s'.filter.CtimeClose.IsZero = true ∧
      s'.filter.ActualStartOpen.IsZero = true ∧ s'.filter.ActualStartClose.IsZero = true ∧
      s'.filter.ExpectedEndOpen.IsZero = true ∧ s'.filter.ExpectedEndClose.IsZero = true ∧
      s'.filter.ActualEndOpen.IsZero = true ∧ s'.filter.ActualEndClose.IsZero = true ∧
      s'.listPage = s.listPage ∧ s'.listLimit = s.listLimit ∧
      s'.db = s.db ∧ s'.trace = s.trace :=
  ⟨{ s with filter := ListTaskFilter.zero }, by simp [execute], rfl, rfl, rfl, rfl, rfl, rfl, rfl,
    rfl, rfl, rfl, rfl, rfl, rfl, rfl, rfl⟩

/-- Within the range of Go's `int` nothing wraps. -/
theorem wrapInt_of_range {x : Int} (hlo : minInt ≤ x) (hhi : x ≤ maxInt) : wrapInt x = x := by
  unfold wrapInt
  unfold minInt at hlo
  unfold maxInt at hhi
  omega

/-- C1: in every session state whose page number is an `int` below the
largest one, and for every store, when the query the next-page command runs
for page+1 succeeds, `execute` returns page LIST_TASKS with no error, leaves
the filter as it was, leaves the stored page number unchanged if the query
returned no row and increases it by exactly 1 if it returned at least one. -/
theorem execute_next_page (in_page : Int) (s : Sys) (tasks : List Task) (total : Int)
    (db' : Store) (hlo : minInt ≤ s.listPage) (hhi : s.listPage < maxInt)
    (hq : listTasks s.db (s.listPage + 1) s.listLimit s.filter = (.ok (tasks, total), db')) :
    ∃ s' : Sys, execute in_page ⟨CMD_LIST_TAKS_NEXT_PAGE⟩ s = .ret PGE_LIST_TASKS none s' ∧
      s'.filter = s.filter ∧
      (tasks.length = 0 → s'.listPage = s.listPage) ∧
      (1 ≤ tasks.length → s'.listPage = s.listPage + 1) := by
  have hw : wrapInt (s.listPage + 1) = s.listPage + 1 :=
    wrapInt_of_range (by omega) (by omega)
  refine ⟨if tasks.length > 0 then
      { printTasks s.listPage s.listLimit tasks s.filter total
          { s with db := db', trace := s.trace ++ [.listTasks (s.listPage + 1) s.listLimit s.filter] }
        with listPage := s.listPage + 1 }
    else printTasks s.listPage s.listLimit tasks s.filter total
      { s with db := db', trace := s.trace ++ [.listTasks (s.listPage + 1) s.listLimit s.filter] },
    ?_, ?_, ?_, ?_⟩
  · simp [execute, CMD_LIST_TAKS_NEXT_PAGE, CMD_GOTO_CONSOLE, CMD_EXIT,
      CMD_GOTO_PGE_LIST_TASKS, callListTasks, hw, hq, printTasks]
  · split <;> rfl
  · intro h0
    rw [if_neg (by omega)]
    rfl
  · intro h1
    rw [if_pos (by omega)]

/-- C1 on `sampleSys`: page 2 of size 2 holds one of the three tasks, so the
page number goes from 1 to 2. -/
theorem execute_next_page_witness :
    ∃ s' : Sys, execute PGE_LIST_TASKS ⟨CMD_LIST_TAKS_NEXT_PAGE⟩ sampleSys
        = .ret PGE_LIST_TASKS none s' ∧
      s'.filter = sampleSys.filter ∧
      ([sampleTask 1 "a"].length = 0 → s'.listPage = sampleSys.listPage) ∧
      (1 ≤ [sampleTask 1 "a"].length → s'.listPage = sampleSys.listPage + 1) :=
  execute_next_page PGE_LIST_TASKS sampleSys [sampleTask 1 "a"] 3 sampleStore
    (by decide) (by decide) (by decide)

/-- C2: for every stored page number p (a page number is at least 1 and an
`int`), the previous-page command first sets the stored page number to
max(1, p-1) and then issues the list query with that page number and the
current filter; the page number is the new one whether the query succeeds
(no error, the rows are printed) or fails (the error is returned). -/
theorem execute_prev_page (in_page : Int) (s : Sys) (h1 : 1 ≤ s.listPage)
    (hmax : s.listPage ≤ maxInt) :
    ∃ (err : Option String) (s' : Sys) (rest : List Event),
      execute in_page ⟨CMD_LIST_TAKS_PREV_PAGE⟩ s = .ret PGE_LIST_TASKS err s' ∧
      s'.listPage = max 1 (s.listPage - 1) ∧
      s'.filter = s.filter ∧
      s'.trace = s.trace ++
        Event.listTasks (max 1 (s.listPage - 1)) s.listLimit s.filter :: rest ∧
      (∀ l c db', listTasks s.db (max 1 (s.listPage - 1)) s.listLimit s.filter
          = (.ok (l, c), db') →
        err = none ∧
        rest = [Event.printTasks (max 1 (s.listPage - 1)) s.listLimit l s.filter c]) ∧
      (∀ e db', listTasks s.db (max 1 (s.listPage - 1)) s.listLimit s.filter
          = (.error e, db') →
        err = some e ∧ rest = []) := by
  have hp : (if s.listPage > 1 then { s with listPage := wrapInt (s.listPage - 1) } else s)
      = { s with listPage := max 1 (s.listPage - 1) } := by
    split
    · rw [wrapInt_of_range (by unfold minInt; omega) (by omega)]
      congr 1; omega
    · have : max 1 (s.listPage - 1) = s.listPage := by omega
      rw [this]
  generalize max 1 (s.listPage - 1) = p' at hp
  rcases hq : listTasks s.db p' s.listLimit s.filter with ⟨r, db1⟩
  have hex : execute in_page ⟨CMD_LIST_TAKS_PREV_PAGE⟩ s =
      (match callListTasks p' s.listLimit s.filter { s with listPage := p' } with
       | (.ok (l, c), s) =>
         .ret PGE_LIST_TASKS none (printTasks s.listPage s.listLimit l s.filter c s)
       | (.error e, s) => .ret PGE_LIST_TASKS (some e) s) := by
    simp only [execute, CMD_LIST_TAKS_PREV_PAGE, CMD_GOTO_CONSOLE, CMD_EXIT,
      CMD_GOTO_PGE_LIST_TASKS, CMD_LIST_TAKS_NEXT_PAGE, hp]
    simp
  have hcall : callListTasks p' s.listLimit s.filter { s with listPage := p' } =
      (r, { s with listPage := p', db := db1, trace := s.trace ++ [.listTasks p' s.listLimit s.filter] }) := by
    simp [callListTasks, hq]
  rw [hcall] at hex
  cases r with
  | error e =>
    refine ⟨some e, _, [], hex, rfl, rfl, rfl, ?_, ?_⟩
    · intro l c db' h; simp at h
    · intro e' db' h; simp at h; simp [h.1]
  | ok v =>
    obtain ⟨l, c⟩ := v
    refine ⟨none, _, [.printTasks p' s.listLimit l s.filter c], hex, rfl, rfl, ?_, ?_, ?_⟩
    · simp [printTasks]
    · intro l' c' db' h; simp at h; simp [h.1.1, h.1.2]
    · intro e' db' h; simp at h

/-- C2 on `sampleSys` moved to page 3: the stored page number becomes 2. -/
theorem execute_prev_page_witness :
    ∃ (err : Option String) (s' : Sys),
      execute PGE_LIST_TASKS ⟨CMD_LIST_TAKS_PREV_PAGE⟩ { sampleSys with listPage := 3 }
        = .ret PGE_LIST_TASKS err s' ∧ s'.listPage = 2 := by
  obtain ⟨err, s', _, h, hp, _⟩ :=
    execute_prev_page PGE_LIST_TASKS { sampleSys with listPage := 3 } (by decide) (by decide)
  exact ⟨err, s', h, hp⟩

/-- The block every list command ends with: query at the stored page with the
stored filter, print on success, return the error otherwise.  It always
returns page LIST_TASKS, changes neither page number nor filter, and the
first thing it does is the query. -/
theorem list_and_print (s1 : Sys) :
    ∃ (err : Option String) (s' : Sys) (tail : List Event),
      (match callListTasks s1.listPage s1.listLimit s1.filter s1 with
        | (.ok (l, c), s) =>
          Outcome.ret PGE_LIST_TASKS none (printTasks s.listPage s.listLimit l s.filter c s)
        | (.error e, s) => Outcome.ret PGE_LIST_TASKS (some e) s)
        = Outcome.ret PGE_LIST_TASKS err s' ∧
      s'.listPage = s1.listPage ∧ s'.listLimit = s1.listLimit ∧ s'.filter = s1.filter ∧
      s'.trace = s1.trace ++ Event.listTasks s1.listPage s1.listLimit s1.filter :: tail := by
  rcases hq : listTasks s1.db s1.listPage s1.listLimit s1.filter with ⟨r, db1⟩
  cases r with
  | error e =>
    exact ⟨some e,
      { s1 with db := db1,
                trace := s1.trace ++ [.listTasks s1.listPage s1.listLimit s1.filter] },
      [], by simp only [callListTasks, hq], rfl, rfl, rfl, rfl⟩
  | ok v =>
    obtain ⟨l, c⟩ := v
    exact ⟨none,
      printTasks s1.listPage s1.listLimit l s1.filter c
        { s1 with db := db1,
                  trace := s1.trace ++ [.listTasks s1.listPage s1.listLimit s1.filter] },
      [.printTasks s1.listPage s1.listLimit l s1.filter c],
      by simp only [callListTasks, hq], rfl, rfl, rfl, by simp [printTasks]⟩

/-- A non-required read of a terminal that has a line to deliver returns that line, trimmed. -/
theorem input_line (msg : String) (m : Bool) (s : Sys) (line : String) (rest : List String)
    (hin : s.stdin = line :: rest) :
    input msg m false s = (some (trimSpace (trimSpace line)),
      { (if msg ≠ "" then s.log msg else s) with stdin := rest }) := by
  by_cases hm : msg = ""
  · simp [input, hm, hin, readInput]
  · simp [input, hm, hin, readInput, Sys.log]

/-- All `weekBegin` does to the session is read the clock once. -/
theorem weekBegin_eq (s : Sys) :
    weekBegin s = ((weekBegin s).1, { s with tick := s.tick + 1 }) := by
  unfold weekBegin Sys.Now
  simp only
  split
  · rfl
  · split <;> rfl

/-- All `monthBegin` does to the session is read the clock once. -/
theorem monthBegin_eq (s : Sys) :
    monthBegin s = ((monthBegin s).1, { s with tick := s.tick + 1 }) := by
  unfold monthBegin Sys.Now
  simp only
  split <;> rfl

/-- C9: in every session state each of the four filter commands leaves the
stored page number unchanged, changes only its own field of the stored
filter (Name for name, Status for status, ActualStartOpen for week and
month), every other field keeping its value, and issues the list query at
the unchanged page number with the updated filter.  The name and status
commands first read a line from the terminal; if that read fails the process
ends with page number and filter as they were. -/
theorem execute_filter_frame (in_page : Int) (s : Sys) :
    (∀ (line : String) (rest : List String), s.stdin = line :: rest →
      ∃ (err : Option String) (s' : Sys) (pre tail : List Event),
      execute in_page ⟨CMD_LIST_TAKS_FILTER_NAME⟩ s = .ret PGE_LIST_TASKS err s' ∧
      s'.listPage = s.listPage ∧
      s'.filter = { s.filter with Name := trimSpace (trimSpace line) } ∧
      s'.trace = s.trace ++ pre ++ Event.listTasks s.listPage s.listLimit s'.filter :: tail ∧
      ∀ e ∈ pre, ∃ msg, e = Event.log msg) ∧
    (∀ (line : String) (rest : List String), s.stdin = line :: rest →
      ∃ (err : Option String) (s' : Sys) (pre tail : List Event),
      execute in_page ⟨CMD_LIST_TAKS_FILTER_STATUS⟩ s = .ret PGE_LIST_TASKS err s' ∧
      s'.listPage = s.listPage ∧
      s'.filter = { s.filter with
        Status := parseStatus (trimSpace (trimSpace line)) STATUS_NONE } ∧
      s'.trace = s.trace ++ pre ++ Event.listTasks s.listPage s.listLimit s'.filter :: tail ∧
      ∀ e ∈ pre, ∃ msg, e = Event.log msg) ∧
    (∃ (err : Option String) (s' : Sys) (tail : List Event),
      execute in_page ⟨CMD_LIST_TAKS_FILTER_CURR_WEEK⟩ s = .ret PGE_LIST_TASKS err s' ∧
      s'.listPage = s.listPage ∧
      s'.filter = { s.filter with ActualStartOpen := (weekBegin s).1 } ∧
      s'.trace = s.trace ++ Event.listTasks s.listPage s.listLimit s'.filter :: tail) ∧
    (∃ (err : Option String) (s' : Sys) (tail : List Event),
      execute in_page ⟨CMD_LIST_TAKS_FILTER_CURR_MONTH⟩ s = .ret PGE_LIST_TASKS err s' ∧
      s'.listPage = s.listPage ∧
      s'.filter = { s.filter with ActualStartOpen := (monthBegin s).1 } ∧
      s'.trace = s.trace ++ Event.listTasks s.listPage s.listLimit s'.filter :: tail) ∧
    (s.stdin = [] →
      ∀ c ∈ [CMD_LIST_TAKS_FILTER_NAME, CMD_LIST_TAKS_FILTER_STATUS],
      ∃ s' : Sys, execute in_page ⟨c⟩ s = .exit 1 s' ∧
        s'.listPage = s.listPage ∧ s'.filter = s.filter ∧ s'.db = s.db) := by
  refine ⟨?_, ?_, ?_, ?_, ?_⟩
  · intro line rest hin
    obtain ⟨err, s', tail, h, hp, _, hf, ht⟩ := list_and_print
      { s with stdin := rest, trace := s.trace ++ [.log "Filtering by name"],
               filter := { s.filter with Name := trimSpace (trimSpace line) } }
    refine ⟨err, s', [.log "Filtering by name"], tail, ?_, hp, hf, ?_, ?_⟩
    · rw [← h]
      simp [execute, CMD_LIST_TAKS_FILTER_NAME, CMD_GOTO_CONSOLE, CMD_EXIT,
        CMD_GOTO_PGE_LIST_TASKS, CMD_LIST_TAKS_NEXT_PAGE, CMD_LIST_TAKS_PREV_PAGE,
        input_line _ _ s line rest hin, Sys.log]
    · rw [ht, hf]
    · intro e he; exact ⟨_, List.mem_singleton.mp he⟩
  · intro line rest hin
    obtain ⟨err, s', tail, h, hp, _, hf, ht⟩ := list_and_print
      { s with stdin := rest,
               trace := s.trace ++ [.log "Filter by status [IN_PROGRESS | FINISHED | CANCELLED]:"],
               filter := { s.filter with
                 Status := parseStatus (trimSpace (trimSpace line)) STATUS_NONE } }
    refine ⟨err, s', [.log "Filter by status [IN_PROGRESS | FINISHED | CANCELLED]:"], tail,
      ?_, hp, hf, ?_, ?_⟩
    · rw [← h]
      simp [execute, CMD_LIST_TAKS_FILTER_NAME, CMD_GOTO_CONSOLE, CMD_EXIT,
        CMD_GOTO_PGE_LIST_TASKS, CMD_LIST_TAKS_NEXT_PAGE, CMD_LIST_TAKS_PREV_PAGE,
        CMD_LIST_TAKS_FILTER_STATUS, input_line _ _ s line rest hin, Sys.log]
    · rw [ht, hf]
    · intro e he; exact ⟨_, List.mem_singleton.mp he⟩
  · obtain ⟨err, s', tail, h, hp, _, hf, ht⟩ := list_and_print
      { s with tick := s.tick + 1,
               filter := { s.filter with ActualStartOpen := (weekBegin s).1 } }
    refine ⟨err, s', tail, ?_, hp, hf, ?_⟩
    · rw [← h]
      simp only [execute, CMD_LIST_TAKS_FILTER_NAME, CMD_GOTO_CONSOLE, CMD_EXIT,
        CMD_GOTO_PGE_LIST_TASKS, CMD_LIST_TAKS_NEXT_PAGE, CMD_LIST_TAKS_PREV_PAGE,
        CMD_LIST_TAKS_FILTER_STATUS, CMD_LIST_TAKS_FILTER_CURR_WEEK]
      rw [weekBegin_eq s]
      simp
    · rw [ht, hf]
  · obtain ⟨err, s', tail, h, hp, _, hf, ht⟩ := list_and_print
      { s with tick := s.tick + 1,
               filter := { s.filter with ActualStartOpen := (monthBegin s).1 } }
    refine ⟨err, s', tail, ?_, hp, hf, ?_⟩
    · rw [← h]
      simp only [execute, CMD_LIST_TAKS_FILTER_NAME, CMD_GOTO_CONSOLE, CMD_EXIT,
        CMD_GOTO_PGE_LIST_TASKS, CMD_LIST_TAKS_NEXT_PAGE, CMD_LIST_TAKS_PREV_PAGE,
        CMD_LIST_TAKS_FILTER_STATUS, CMD_LIST_TAKS_FILTER_CURR_WEEK,
        CMD_LIST_TAKS_FILTER_CURR_MONTH]
      rw [monthBegin_eq s]
      simp
    · rw [ht, hf]
  · intro hin c hc
    simp only [List.mem_cons, List.mem_singleton, List.not_mem_nil, or_false] at hc
    rcases hc with rfl | rfl
    · refine ⟨(execute in_page ⟨CMD_LIST_TAKS_FILTER_NAME⟩ s).sys, ?_⟩
      simp [execute, CMD_LIST_TAKS_FILTER_NAME, CMD_GOTO_CONSOLE, CMD_EXIT,
        CMD_GOTO_PGE_LIST_TASKS, CMD_LIST_TAKS_NEXT_PAGE, CMD_LIST_TAKS_PREV_PAGE,
        input, readInput, hin, Sys.log, Outcome.sys]
    · refine ⟨(execute in_page ⟨CMD_LIST_TAKS_FILTER_STATUS⟩ s).sys, ?_⟩
      simp [execute, CMD_LIST_TAKS_FILTER_NAME, CMD_GOTO_CONSOLE, CMD_EXIT,
        CMD_GOTO_PGE_LIST_TASKS, CMD_LIST_TAKS_NEXT_PAGE, CMD_LIST_TAKS_PREV_PAGE,
        CMD_LIST_TAKS_FILTER_STATUS, input, readInput, hin, Sys.log, Outcome.sys]

/-- C9 on `sampleSys`, whose terminal delivers the line "x": the name filter
becomes "x", nothing else in the filter changes and the page number stays 1. -/
theorem execute_filter_frame_witness :
    ∃ (err : Option String) (s' : Sys),
      execute PGE_LIST_TASKS ⟨CMD_LIST_TAKS_FILTER_NAME⟩ sampleSys
        = .ret PGE_LIST_TASKS err s' ∧
      s'.listPage = 1 ∧ s'.filter = { ListTaskFilter.zero with Name := "x" } := by
  obtain ⟨err, s', _, _, h, hp, hf, _⟩ :=
    (execute_filter_frame PGE_LIST_TASKS sampleSys).1 "x" ["", "2024-01-02", "zz", ""] rfl
  exact ⟨err, s', h, hp, hf.trans (by decide)⟩

/-- A non-required read, on a session written out field by field. -/
theorem input_mk (msg : String) (m : Bool) (a b : Int) (c : ListTaskFilter) (d : Store)
    (line : String) (rest : List String) (e : Nat → Time) (f : Nat) (g : List Event) :
    input msg m false ⟨a, b, c, d, line :: rest, e, f, g⟩ =
      (some (trimSpace (trimSpace line)),
        ⟨a, b, c, d, rest, e, f, if msg = "" then g else g ++ [.log msg]⟩) := by
  by_cases hm : msg = ""
  · simp [input, hm, readInput]
  · simp [input, hm, readInput, Sys.log]

/-- A required read that finds a non-empty line. -/
theorem input_required (msg : String) (m : Bool) (s : Sys) (text : String)
    (rest : List String) (hin : readInput true s.stdin = some (text, rest)) :
    input msg m true s = (some (trimSpace text),
      { s with stdin := rest, trace := if msg = "" then s.trace else s.trace ++ [.log msg] }) := by
  by_cases hm : msg = ""
  · simp [input, hm, hin]
  · simp [input, hm, hin, Sys.log]

/-- What `parseTime` does to the session: nothing, or one reading of the clock. -/
theorem parseTime_tick (x : String) (s : Sys) (r : Option Time × Sys)
    (h : parseTime x s = r) : ∃ k : Nat, r.2 = { s with tick := s.tick + k } := by
  subst h
  unfold parseTime
  split
  · exact ⟨0, rfl⟩
  · split
    · exact ⟨0, rfl⟩
    · exact ⟨1, rfl⟩

/-- With its five reads served, `taskFromInput` returns a task; on the way it
only consumes input, reads the clock and logs its prompts. -/
theorem taskFromInput_ok (s : Sys) (name l1 l2 l3 l4 : String) (rest : List String)
    (hin : readInput true s.stdin = some (name, l1 :: l2 :: l3 :: l4 :: rest)) :
    ∃ (t : Task) (k : Nat) (logs : List String),
      taskFromInput s = (some (true, t),
        { s with stdin := rest, tick := s.tick + k,
                 trace := s.trace ++ logs.map Event.log }) := by
  obtain ⟨a, b, c, d, i, e, f, g⟩ := s
  simp only [taskFromInput]
  rw [input_required _ _ _ name _ hin]
  simp [input_mk, Sys.Now]
  generalize hpt1 : parseTime _ _ = r1
  obtain ⟨k1, hk1⟩ := parseTime_tick _ _ _ hpt1
  obtain ⟨v1, st1⟩ := r1
  simp only at hk1
  subst hk1
  simp [input_mk]
  generalize hpt2 : parseTime _ _ = r2
  obtain ⟨k2, hk2⟩ := parseTime_tick _ _ _ hpt2
  obtain ⟨v2, st2⟩ := r2
  simp only at hk2
  subst hk2
  simp [input_mk]
  generalize hpt3 : parseTime _ _ = r3
  obtain ⟨k3, hk3⟩ := parseTime_tick _ _ _ hpt3
  obtain ⟨v3, st3⟩ := r3
  simp only at hk3
  subst hk3
  refine ⟨1 + k1 + k2 + k3, ["Name:", "Status [IN_PROGRESS | FINISHED | CANCELLED]:",
    "Actual Start:", "Expected End:", "Actual End:"], ?_⟩
  simp [Nat.add_assoc]

/-- A read of a terminal that has nothing more to deliver fails. -/
theorem input_nil (msg : String) (m r : Bool) (a b : Int) (c : ListTaskFilter) (d : Store)
    (e : Nat → Time) (f : Nat) (g : List Event) :
    ∃ g' : List Event, input msg m r ⟨a, b, c, d, [], e, f, g⟩ =
      (none, ⟨a, b, c, d, [], e, f, g'⟩) ∧ ∀ t, Event.saveTask t ∉ g' ↔ Event.saveTask t ∉ g := by
  refine ⟨(if msg = "" then g else g ++ [.log msg]) ++
    [.log "failed to read from console, EOF"], ?_, ?_⟩
  · by_cases hm : msg = "" <;> simp [input, hm, readInput, Sys.log]
  · by_cases hm : msg = "" <;> simp [hm]

/-- A required read that meets only blank lines before the terminal runs dry fails. -/
theorem input_required_none (msg : String) (m : Bool) (a b : Int) (c : ListTaskFilter)
    (d : Store) (i : List String) (e : Nat → Time) (f : Nat) (g : List Event)
    (hin : readInput true i = none) :
    ∃ g' : List Event, input msg m true ⟨a, b, c, d, i, e, f, g⟩ =
      (none, ⟨a, b, c, d, [], e, f, g'⟩) ∧ ∀ t, Event.saveTask t ∉ g' ↔ Event.saveTask t ∉ g := by
  refine ⟨(if msg = "" then g else g ++ [.log msg]) ++
    [.log "failed to read from console, EOF"], ?_, ?_⟩
  · by_cases hm : msg = "" <;> simp [input, hm, hin, Sys.log]
  · by_cases hm : msg = "" <;> simp [hm]

/-- When one of its five reads fails, `taskFromInput` returns nothing; the
store, the page number, the page size and the filter are as they were and no
insert was recorded. -/
theorem taskFromInput_fail (s : Sys)
    (hin : ¬ ∃ (name l1 l2 l3 l4 : String) (rest : List String),
      readInput true s.stdin = some (name, l1 :: l2 :: l3 :: l4 :: rest)) :
    ∃ s' : Sys, taskFromInput s = (none, s') ∧ s'.db = s.db ∧ s'.listPage = s.listPage ∧
      s'.listLimit = s.listLimit ∧ s'.filter = s.filter ∧
      ∀ t, Event.saveTask t ∉ s'.trace ↔ Event.saveTask t ∉ s.trace := by
  obtain ⟨a, b, c, d, i, e, f, g⟩ := s
  refine ⟨(taskFromInput ⟨a, b, c, d, i, e, f, g⟩).2, ?_⟩
  simp only [taskFromInput]
  rcases hr : readInput true i with _ | ⟨name, rest⟩
  · obtain ⟨g', hg, hs⟩ := input_required_none "Name:" true a b c d i e f g hr
    rw [hg]
    exact ⟨rfl, rfl, rfl, rfl, rfl, hs⟩
  rw [input_required _ _ _ name rest hr]
  simp only [String.reduceEq, ↓reduceIte]
  rcases rest with _ | ⟨l1, rest⟩
  · obtain ⟨g', hg, hs⟩ := input_nil "Status [IN_PROGRESS | FINISHED | CANCELLED]:" true false
      a b c d e f (g ++ [.log "Name:"])
    rw [hg]
    exact ⟨rfl, rfl, rfl, rfl, rfl, by simpa using hs⟩
  simp only [input_mk, Sys.Now, String.reduceEq, ↓reduceIte]
  rcases rest with _ | ⟨l2, rest⟩
  · obtain ⟨g', hg, hs⟩ := input_nil "Actual Start:" true false a b c d e (f + 1)
      (g ++ [.log "Name:"] ++ [.log "Status [IN_PROGRESS | FINISHED | CANCELLED]:"])
    rw [hg]
    exact ⟨rfl, rfl, rfl, rfl, rfl, by simpa using hs⟩
  simp only [input_mk, String.reduceEq, ↓reduceIte]
  generalize hpt1 : parseTime _ _ = r1
  obtain ⟨k1, hk1⟩ := parseTime_tick _ _ _ hpt1
  obtain ⟨v1, st1⟩ := r1
  simp only at hk1
  subst hk1
  simp only
  rcases rest with _ | ⟨l3, rest⟩
  · obtain ⟨g', hg, hs⟩ := input_nil "Expected End:" true false a b c d e (f + 1 + k1)
      (g ++ [.log "Name:"] ++ [.log "Status [IN_PROGRESS | FINISHED | CANCELLED]:"] ++
        [.log "Actual Start:"])
    rw [hg]
    exact ⟨rfl, rfl, rfl, rfl, rfl, by simpa using hs⟩
  simp only [input_mk, String.reduceEq, ↓reduceIte]
  generalize hpt2 : parseTime _ _ = r2
  obtain ⟨k2, hk2⟩ := parseTime_tick _ _ _ hpt2
  obtain ⟨v2, st2⟩ := r2
  simp only at hk2
  subst hk2
  simp only
  rcases rest with _ | ⟨l4, rest⟩
  · obtain ⟨g', hg, hs⟩ := input_nil "Actual End:" true false a b c d e (f + 1 + k1 + k2)
      (g ++ [.log "Name:"] ++ [.log "Status [IN_PROGRESS | FINISHED | CANCELLED]:"] ++
        [.log "Actual Start:"] ++ [.log "Expected End:"])
    rw [hg]
    exact ⟨rfl, rfl, rfl, rfl, rfl, by simpa using hs⟩
  exact absurd ⟨name, l1, l2, l3, l4, rest, hr⟩ hin

/-- C10: on every page, whatever the user types for the five prompts and
whatever the outcome of the insert, the create-task command returns the page
it was given with no error and leaves the stored page number, page size and
filter unchanged.  The insert is attempted once; when the store fails it no
record is added and the only sign is a log line, when it succeeds one record
is added.  The only way not to return is a failed read of the terminal,
which ends the process before any insert. -/
theorem execute_create_task (in_page : Int) (s : Sys) :
    (∀ (name l1 l2 l3 l4 : String) (rest : List String),
      readInput true s.stdin = some (name, l1 :: l2 :: l3 :: l4 :: rest) →
      ∃ s' : Sys, execute in_page ⟨CMD_CREATE_TASK⟩ s = .ret in_page none s' ∧
        s'.listPage = s.listPage ∧ s'.listLimit = s.listLimit ∧ s'.filter = s.filter ∧
        (∃ t : Task, Event.saveTask t ∈ s'.trace) ∧
        (∀ e fs, s.db.faults = some e :: fs →
          s'.db.rows = s.db.rows ∧ Event.log "Failed to saveTask, <nil>" ∈ s'.trace) ∧
        (s.db.faults = [] ∨ (∃ fs, s.db.faults = none :: fs) →
          ∃ t : Task, s'.db.rows = s.db.rows ++ [t])) ∧
    ((¬ ∃ (name l1 l2 l3 l4 : String) (rest : List String),
        readInput true s.stdin = some (name, l1 :: l2 :: l3 :: l4 :: rest)) →
      ∃ s' : Sys, execute in_page ⟨CMD_CREATE_TASK⟩ s = .exit 1 s' ∧
        s'.listPage = s.listPage ∧ s'.listLimit = s.listLimit ∧ s'.filter = s.filter ∧
        s'.db = s.db ∧ ∀ t, Event.saveTask t ∉ s'.trace ↔ Event.saveTask t ∉ s.trace) := by
  constructor
  · intro name l1 l2 l3 l4 rest hin
    obtain ⟨t, k, logs, ht⟩ := taskFromInput_ok s name l1 l2 l3 l4 rest hin
    refine ⟨(execute in_page ⟨CMD_CREATE_TASK⟩ s).sys, ?_⟩
    simp only [execute, CMD_GOTO_CONSOLE, CMD_EXIT, CMD_GOTO_PGE_LIST_TASKS,
      CMD_LIST_TAKS_NEXT_PAGE, CMD_LIST_TAKS_PREV_PAGE, CMD_LIST_TAKS_FILTER_NAME,
      CMD_LIST_TAKS_FILTER_STATUS, CMD_LIST_TAKS_FILTER_CURR_WEEK,
      CMD_LIST_TAKS_FILTER_CURR_MONTH, CMD_CREATE_TASK, ht]
    obtain ⟨a, b, c, ⟨rows, faults⟩, i, e, f, g⟩ := s
    match faults with
    | [] =>
      simp [saveTask, Store.Create, Store.step, Outcome.sys]
    | none :: fs =>
      simp [saveTask, Store.Create, Store.step, Outcome.sys]
    | some err :: fs =>
      simp [saveTask, Store.Create, Store.step, Sys.log, Outcome.sys]
  · intro hin
    obtain ⟨s', hs', hdb, hp, hl, hf, htr⟩ := taskFromInput_fail s hin
    refine ⟨s', ?_, hp, hl, hf, hdb, htr⟩
    simp [execute, CMD_GOTO_CONSOLE, CMD_EXIT, CMD_GOTO_PGE_LIST_TASKS,
      CMD_LIST_TAKS_NEXT_PAGE, CMD_LIST_TAKS_PREV_PAGE, CMD_LIST_TAKS_FILTER_NAME,
      CMD_LIST_TAKS_FILTER_STATUS, CMD_LIST_TAKS_FILTER_CURR_WEEK,
      CMD_LIST_TAKS_FILTER_CURR_MONTH, CMD_CREATE_TASK, hs']

/-- C10 on `sampleSys` over a store that fails the insert: the command still
returns the page it was given with no error, and no record is added. -/
theorem execute_create_task_witness :
    ∃ s' : Sys, execute PGE_CONSOLE ⟨CMD_CREATE_TASK⟩
        { sampleSys with db := { sampleStore with faults := [some "disk full"] } }
        = .ret PGE_CONSOLE none s' ∧
      s'.listPage = 1 ∧ s'.filter = ListTaskFilter.zero ∧ s'.db.rows = sampleStore.rows := by
  obtain ⟨s', h, hp, _, hf, _, hfail, _⟩ := (execute_create_task PGE_CONSOLE
    { sampleSys with db := { sampleStore with faults := [some "disk full"] } }).1
    "x" "" "2024-01-02" "zz" "" [] (by decide)
  exact ⟨s', h, hp, hf, (hfail "disk full" [] rfl).1⟩

/-! ## Listing -/

/-- Adding a clause under a condition appends it to the clauses under that condition. -/
theorem wheres_ite_Where (p : Prop) [Decidable p] (tx : Tx) (c : Cond) :
    (if p then tx.Where c else tx).wheres = tx.wheres ++ (if p then [c] else []) := by
  split <;> simp [Tx.Where]

/-- The clauses of the count statement, in order. -/
theorem listTasksCountTx_wheres (filter : ListTaskFilter) :
    (listTasksCountTx filter).wheres =
      (if filter.Name ≠ "" then [Cond.nameLike ("%" ++ filter.Name ++ "%")] else []) ++
      (if filter.Status > 0 then [Cond.statusEq filter.Status] else []) ++
      (if !filter.ActualStartOpen.IsZero then
        [Cond.ge .actual_start filter.ActualStartOpen] else []) ++
      (if !filter.ActualStartClose.IsZero then
        [Cond.le .actual_start filter.ActualStartClose] else []) ++
      (if !filter.ActualEndOpen.IsZero then
        [Cond.ge .actual_end filter.ActualEndOpen] else []) ++
      (if !filter.ActualEndClose.IsZero then
        [Cond.le .actual_end filter.ActualEndClose] else []) ++
      (if !filter.ExpectedEndOpen.IsZero then
        [Cond.ge .expected_end filter.ExpectedEndOpen] else []) ++
      (if !filter.ExpectedEndClose.IsZero then
        [Cond.le .expected_end filter.ExpectedEndClose] else []) := by
  simp only [listTasksCountTx, wheres_ite_Where, Tx.Table, List.nil_append]

/-- The clauses of the page statement, in order. -/
theorem listTasksPageTx_wheres (page limit : Int) (filter : ListTaskFilter) :
    (listTasksPageTx page limit filter).wheres =
      (if filter.Name ≠ "" then [Cond.nameLike ("%" ++ filter.Name ++ "%")] else []) ++
      (if filter.Status > 0 then [Cond.statusEq filter.Status] else []) ++
      (if !filter.ActualStartOpen.IsZero then
        [Cond.ge .actual_start filter.ActualStartOpen] else []) ++
      (if !filter.ActualStartClose.IsZero then
        [Cond.le .actual_start filter.ActualStartClose] else []) ++
      (if !filter.ActualEndOpen.IsZero then
        [Cond.ge .actual_end filter.ActualEndOpen] else []) ++
      (if !filter.ActualEndClose.IsZero then
        [Cond.le .actual_end filter.ActualEndClose] else []) ++
      (if !filter.ExpectedEndOpen.IsZero then
        [Cond.ge .expected_end filter.ExpectedEndOpen] else []) ++
      (if !filter.ExpectedEndClose.IsZero then
        [Cond.le .expected_end filter.ExpectedEndClose] else []) := by
  simp only [listTasksPageTx, wheres_ite_Where, Tx.Table, Tx.Select, Tx.Offset, Tx.Limit,
    Tx.Order, List.nil_append]

/-- A row passes the clauses of the page statement exactly when the filter selects it. -/
theorem wheres_all_eq_selects (page limit : Int) (filter : ListTaskFilter) (t : Task) :
    (listTasksPageTx page limit filter).wheres.all (Cond.holds t) = filter.selects t := by
  rw [listTasksPageTx_wheres]
  simp only [List.all_append, ListTaskFilter.selects]
  congr 1
  · congr 1
    · congr 1
      · congr 1
        · congr 1
          · congr 1
            · congr 1
              · by_cases h : filter.Name = "" <;> simp [h, Cond.holds]
              · by_cases h : filter.Status > 0 <;> simp [h, Cond.holds]
            · cases filter.ActualStartOpen.IsZero <;> simp
          · cases filter.ActualStartClose.IsZero <;> simp
        · cases filter.ActualEndOpen.IsZero <;> simp
      · cases filter.ActualEndClose.IsZero <;> simp
    · cases filter.ExpectedEndOpen.IsZero <;> simp
  · cases filter.ExpectedEndClose.IsZero <;> simp

/-- What a successful `listTasks` returned: the window of the ordered selection
of the page statement, and the size of the selection of the count statement,
both over the rows the store held. -/
theorem listTasks_ok {db db' : Store} {page limit : Int} {filter : ListTaskFilter}
    {tasks : List Task} {total : Int}
    (h : listTasks db page limit filter = (.ok (tasks, total), db')) :
    tasks = (listTasksPageTx page limit filter).window
      ((listTasksPageTx page limit filter).ordered
        ((listTasksPageTx page limit filter).selected db.rows)) ∧
    total = (((listTasksCountTx filter).selected db.rows).length : Int) ∧
    db'.rows = db.rows := by
  obtain ⟨rows, faults⟩ := db
  rcases faults with _ | ⟨f1, fs⟩
  · simp [listTasks, Store.Scan, Store.Count, Store.step] at h
    simp [← h.1.1, ← h.1.2, ← h.2]
  · cases f1 with
    | some e => simp [listTasks, Store.Scan, Store.step] at h
    | none =>
      rcases fs with _ | ⟨f2, fs⟩
      · simp [listTasks, Store.Scan, Store.Count, Store.step] at h
        simp [← h.1.1, ← h.1.2, ← h.2]
      · cases f2 with
        | some e => simp [listTasks, Store.Scan, Store.Count, Store.step] at h
        | none =>
          simp [listTasks, Store.Scan, Store.Count, Store.step] at h
          simp [← h.1.1, ← h.1.2, ← h.2]

/-- When the store fails no statement, `listTasks` returns rows and a total. -/
theorem listTasks_succeeds (rows : List Task) (page limit : Int) (filter : ListTaskFilter) :
    ∃ tasks total, listTasks ⟨rows, []⟩ page limit filter = (.ok (tasks, total), ⟨rows, []⟩) := by
  simp [listTasks, Store.Scan, Store.Count, Store.step]

/-- The rows a statement returns are taken from its selection. -/
theorem Tx.window_ordered_subset (tx : Tx) (rows : List Task) (t : Task)
    (h : t ∈ tx.window (tx.ordered rows)) : t ∈ rows := by
  have ho : t ∈ tx.ordered rows := by
    unfold Tx.window at h
    have hd : ∀ l : List Task, t ∈ (match tx.offset with
        | some n => l.drop n.toNat
        | none => l) → t ∈ l := by
      intro l hl
      split at hl
      · exact List.mem_of_mem_drop hl
      · exact hl
    apply hd
    simp only at h
    split at h
    · split at h
      · exact h
      · exact List.mem_of_mem_take h
    · exact h
  unfold Tx.ordered at ho
  split at ho
  · exact (List.perm_insertionSort _ rows).mem_iff.mp ho
  · exact ho

/-- Every row `listTasks` returns is selected by the filter: in particular it
satisfies each of the six bounds on actual start, actual end and expected
end that is not the zero time. -/
theorem listTasks_rows_selected {db db' : Store} {page limit : Int} {filter : ListTaskFilter}
    {tasks : List Task} {total : Int}
    (h : listTasks db page limit filter = (.ok (tasks, total), db')) :
    ∀ t ∈ tasks, t ∈ db.rows ∧ filter.selects t = true := by
  intro t ht
  rw [(listTasks_ok h).1] at ht
  have hs := Tx.window_ordered_subset _ _ t ht
  simp only [Tx.selected, List.mem_filter, wheres_all_eq_selects] at hs
  exact hs

/-- C5, evaluated at a failing input: the one task of the store was created
at time 5; a filter whose open bound on creation time is 10, or whose close
bound on creation time is 3, excludes it, yet `listTasks` returns it and
counts it. -/
theorem listTasks_ignores_ctime_bounds :
    (listTasks ⟨[sampleTask 1 "a"], []⟩ 1 10 { ListTaskFilter.zero with CtimeOpen := ⟨10, Location.UTC⟩ }).1
      = .ok ([sampleTask 1 "a"], 1) ∧
    (listTasks ⟨[sampleTask 1 "a"], []⟩ 1 10 { ListTaskFilter.zero with CtimeClose := ⟨3, Location.UTC⟩ }).1
      = .ok ([sampleTask 1 "a"], 1) ∧
    (sampleTask 1 "a").Ctime.ns < 10 ∧ 3 < (sampleTask 1 "a").Ctime.ns := by
  decide

/-- C6: the WHERE clauses `listTasks` gives the count statement are, in the
same order, those it gives the page statement; so the total a successful
`listTasks` returns is the number of rows of the table that satisfy the page
statement's clauses, whatever the page and the page size. -/
theorem listTasks_total_same_predicate (filter : ListTaskFilter) :
    (∀ page limit : Int,
      (listTasksCountTx filter).wheres = (listTasksPageTx page limit filter).wheres) ∧
    (∀ (db db' : Store) (page limit : Int) (tasks : List Task) (total : Int),
      listTasks db page limit filter = (.ok (tasks, total), db') →
      total = ((db.rows.filter
        (fun t => (listTasksPageTx page limit filter).wheres.all (Cond.holds t))).length : Int) ∧
      total = ((db.rows.filter filter.selects).length : Int)) ∧
    (∀ (db db1 db2 : Store) (page limit page' limit' : Int) (tasks tasks' : List Task)
      (total total' : Int),
      listTasks db page limit filter = (.ok (tasks, total), db1) →
      listTasks db page' limit' filter = (.ok (tasks', total'), db2) →
      total = total') := by
  have hw : ∀ page limit : Int,
      (listTasksCountTx filter).wheres = (listTasksPageTx page limit filter).wheres := by
    intro page limit
    rw [listTasksCountTx_wheres, listTasksPageTx_wheres]
  have ht : ∀ (db db' : Store) (page limit : Int) (tasks : List Task) (total : Int),
      listTasks db page limit filter = (.ok (tasks, total), db') →
      total = ((db.rows.filter filter.selects).length : Int) := by
    intro db db' page limit tasks total h
    rw [(listTasks_ok h).2.1, Tx.selected, hw page limit]
    simp only [wheres_all_eq_selects]
  refine ⟨hw, ?_, ?_⟩
  · intro db db' page limit tasks total h
    refine ⟨?_, ht db db' page limit tasks total h⟩
    rw [ht db db' page limit tasks total h]
    simp only [wheres_all_eq_selects]
  · intro db db1 db2 page limit page' limit' tasks tasks' total total' h h'
    rw [ht _ _ _ _ _ _ h, ht _ _ _ _ _ _ h']

/-- C6 on `sampleStore` with the name filter "a": on page 2 of size 1 the one
row returned is task 1, and the total is 2, the number of tasks whose name
contains an "a". -/
theorem listTasks_total_same_predicate_witness :
    (2 : Int) = ((sampleStore.rows.filter
      (fun t => (listTasksPageTx 2 1 { ListTaskFilter.zero with Name := "a" }).wheres.all
        (Cond.holds t))).length : Int) ∧
    (2 : Int) = ((sampleStore.rows.filter
      ({ ListTaskFilter.zero with Name := "a" } : ListTaskFilter).selects).length : Int) :=
  (listTasks_total_same_predicate { ListTaskFilter.zero with Name := "a" }).2.1
    sampleStore sampleStore 2 1 [sampleTask 1 "a"] 2 (by decide)

/-- `ORDER BY id desc` sorts: each row's identifier is at least those after it. -/
theorem insertionSort_idDesc_sorted (rows : List Task) :
    (rows.insertionSort (fun a b => b.Id ≤ a.Id)).Pairwise (fun a b => b.Id ≤ a.Id) := by
  have htotal : IsTotal Task (fun a b => b.Id ≤ a.Id) := ⟨fun a b => le_total b.Id a.Id⟩
  have htrans : IsTrans Task (fun a b => b.Id ≤ a.Id) := ⟨fun _ _ _ hab hbc => le_trans hbc hab⟩
  exact List.sorted_insertionSort (fun a b : Task => b.Id ≤ a.Id) rows

/-- Rows sorted by identifier descending, whose identifiers are distinct, have
strictly decreasing identifiers. -/
theorem strict_of_sorted_nodup (l : List Task)
    (hs : l.Pairwise (fun a b => b.Id ≤ a.Id)) (hn : (l.map Task.Id).Nodup) :
    l.Pairwise (fun a b => a.Id > b.Id) := by
  have hne : l.Pairwise (fun a b => a.Id ≠ b.Id) := by
    rw [List.Nodup, List.pairwise_map] at hn
    exact hn
  exact (hs.and hne).imp (fun h => lt_of_le_of_ne h.1 (Ne.symm h.2))

/-- C7: for every store whose identifiers are distinct, every filter, every
page at least 1 and every page size n (the offset (page-1)*n being an
`int`), a successful `listTasks` returns the records the filter selects,
sorted by identifier descending, with the first (page-1)*n skipped and at
most n taken; so it returns at most n rows, with strictly decreasing
identifiers; and with the empty filter and n = 10 it returns at most 10 rows
and the total is the number of records in the table. -/
theorem listTasks_page (db db' : Store) (filter : ListTaskFilter) (page : Int) (n : Nat)
    (tasks : List Task) (total : Int)
    (hid : (db.rows.map Task.Id).Nodup) (hp : 1 ≤ page) (hov : (page - 1) * n ≤ maxInt)
    (h : listTasks db page n filter = (.ok (tasks, total), db')) :
    (∃ sorted : List Task,
      sorted.Perm (db.rows.filter filter.selects) ∧
      sorted.Pairwise (fun a b => a.Id > b.Id) ∧
      tasks = (sorted.drop ((page - 1) * n).toNat).take n) ∧
    tasks.length ≤ n ∧
    (tasks.map Task.Id).Pairwise (· > ·) ∧
    (filter = ListTaskFilter.zero → n = 10 →
      tasks.length ≤ 10 ∧ total = (db.rows.length : Int)) := by
  obtain ⟨htasks, htotal, -⟩ := listTasks_ok h
  have hoff : wrapInt (wrapInt (page - 1) * (n : Int)) = (page - 1) * n := by
    rcases Nat.eq_zero_or_pos n with h0 | hpos
    · subst h0; simp [wrapInt]
    · have hn1 : (1 : Int) ≤ n := by exact_mod_cast hpos
      have hle : page - 1 ≤ (page - 1) * n := by nlinarith
      have h1 : wrapInt (page - 1) = page - 1 :=
        wrapInt_of_range (by unfold minInt; omega) (by omega)
      rw [h1]
      have h0 : 0 ≤ (page - 1) * (n : Int) :=
        Int.mul_nonneg (by omega) (Int.ofNat_nonneg n)
      exact wrapInt_of_range (by unfold minInt; omega) hov
  have hsel : (listTasksPageTx page n filter).selected db.rows = db.rows.filter filter.selects := by
    simp only [Tx.selected, wheres_all_eq_selects]
  have hform : tasks = (((db.rows.filter filter.selects).insertionSort
      (fun a b => b.Id ≤ a.Id)).drop ((page - 1) * n).toNat).take n := by
    rw [htasks, hsel]
    simp [Tx.window, Tx.ordered, listTasksPageTx, wheres_ite_Where, Tx.Table, Tx.Select,
      Tx.Offset, Tx.Limit, Tx.Order, hoff, apply_ite Tx.offset, apply_ite Tx.limit,
      apply_ite Tx.order, Tx.Where]
  have hperm := List.perm_insertionSort (fun a b : Task => b.Id ≤ a.Id)
    (db.rows.filter filter.selects)
  have hnodup : ((db.rows.filter filter.selects).insertionSort
      (fun a b => b.Id ≤ a.Id)).map Task.Id |>.Nodup := by
    rw [(hperm.map Task.Id).nodup_iff]
    exact hid.sublist ((List.filter_sublist db.rows).map Task.Id)
  have hstrict := strict_of_sorted_nodup _ (insertionSort_idDesc_sorted _) hnodup
  have hlen : tasks.length ≤ n := by
    rw [hform]; exact List.length_take_le _ _
  refine ⟨⟨_, hperm, hstrict, hform⟩, hlen, ?_, ?_⟩
  · rw [List.pairwise_map, hform]
    exact hstrict.sublist ((List.take_sublist _ _).trans (List.drop_sublist _ _))
  · intro hz hn
    subst hz
    subst hn
    refine ⟨hlen, ?_⟩
    rw [htotal]
    simp [Tx.selected, listTasksCountTx_wheres, ListTaskFilter.zero, Time.IsZero_zero]

/-- C7 on `sampleStore` with the empty filter, page 1 and page size 10: the
three tasks come back in the order 3, 2, 1 and the total is 3. -/
theorem listTasks_page_witness :
    [sampleTask 3 "b", sampleTask 2 "ab", sampleTask 1 "a"].length ≤ 10 ∧
    ([sampleTask 3 "b", sampleTask 2 "ab", sampleTask 1 "a"].map Task.Id).Pairwise (· > ·) ∧
    (3 : Int) = (sampleStore.rows.length : Int) :=
  have h := listTasks_page sampleStore sampleStore ListTaskFilter.zero 1 10
    [sampleTask 3 "b", sampleTask 2 "ab", sampleTask 1 "a"] 3
    (by decide) (by decide) (by decide) (by decide)
  ⟨h.2.1, h.2.2.1, (h.2.2.2 rfl rfl).2⟩

/-! ## Calendar facts -/

/-- The leap-year rule, as arithmetic. -/
theorem isLeap_iff (y : Int) : isLeap y = true ↔ (y % 4 = 0 ∧ (y % 100 ≠ 0 ∨ y % 400 = 0)) := by
  simp [isLeap]

/-- A day of a year, counted from the days before that year, is found again by `absYday`. -/
theorem absYday_unique (y yd : Int) (h0 : 0 ≤ yd) (h1 : yd ≤ 365)
    (h2 : yd = 365 → (y % 4 = 0 ∧ (y % 100 ≠ 0 ∨ y % 400 = 0))) :
    absYday (daysSinceEpoch y + yd) = (y, yd) := by
  simp only [absYday, daysSinceEpoch]
  generalize ha : (y - 1) / 400 = a
  generalize hb : (y - 1) % 400 / 100 = b
  generalize hc : (y - 1) % 400 % 100 / 4 = c
  generalize he : (y - 1) % 400 % 100 % 4 = e
  have hy : y = 1 + 400 * a + 100 * b + 4 * c + e := by omega
  have hb0 : 0 ≤ b := by omega
  have hb3 : b ≤ 3 := by omega
  have hc0 : 0 ≤ c := by omega
  have hc1 : c ≤ 24 := by omega
  have he0 : 0 ≤ e := by omega
  have he3 : e ≤ 3 := by omega
  clear ha hb hc he
  subst hy
  have hleap : yd = 365 → e = 3 ∧ (c = 24 → b = 3) := by
    intro h
    have := h2 h
    omega
  clear h2
  have k1 : (146097 * a + 36524 * b + 1461 * c + 365 * e + yd) / 146097 = a := by omega
  have k2 : (146097 * a + 36524 * b + 1461 * c + 365 * e + yd) % 146097
      = 36524 * b + 1461 * c + 365 * e + yd := by omega
  rw [k1, k2]
  generalize hn : (36524 * b + 1461 * c + 365 * e + yd) / 36524 = n
  have k3 : n - n / 4 = b := by
    by_cases hyd : yd = 365
    · obtain ⟨rfl, hcb⟩ := hleap hyd
      subst hyd
      by_cases hc24 : c = 24
      · have hb := hcb hc24
        subst hb
        subst hc24
        omega
      · have : 1461 * c + 365 * 3 + 365 ≤ 36523 := by omega
        have : n = b := by omega
        omega
    · have : 1461 * c + 365 * e + yd ≤ 36523 := by omega
      have : n = b := by omega
      omega
  rw [k3]
  have k4 : (36524 * b + 1461 * c + 365 * e + yd - 36524 * b) = 1461 * c + 365 * e + yd := by
    ring
  rw [k4]
  have k5 : (1461 * c + 365 * e + yd) / 1461 = c := by omega
  rw [k5]
  have k6 : 1461 * c + 365 * e + yd - 1461 * c = 365 * e + yd := by ring
  rw [k6]
  generalize hm : (365 * e + yd) / 365 = m
  have k7 : m - m / 4 = e := by
    by_cases hyd : yd = 365
    · obtain ⟨rfl, -⟩ := hleap hyd
      subst hyd
      omega
    · have : m = e := by omega
      omega
  rw [k7]
  simp only [Prod.mk.injEq]
  exact ⟨trivial, by omega⟩

/-- The table `daysBefore`. -/
theorem daysBefore_table :
    daysBefore 0 = 0 ∧ daysBefore 1 = 31 ∧ daysBefore 2 = 59 ∧ daysBefore 3 = 90 ∧
    daysBefore 4 = 120 ∧ daysBefore 5 = 151 ∧ daysBefore 6 = 181 ∧ daysBefore 7 = 212 ∧
    daysBefore 8 = 243 ∧ daysBefore 9 = 273 ∧ daysBefore 10 = 304 ∧ daysBefore 11 = 334 ∧
    daysBefore 12 = 365 := by decide

/-- In `time.UTC` the offset is 0 at every instant. -/
theorem Location.lookup_UTC (sec : Int) : Location.UTC.lookup sec = (0, alpha, omega) := rfl

/-- `time.Date` in a location whose offset is the same `o`, of at most a day,
from a day before to a day after the reading asked for (taken as a Unix
second as if it were UTC): the result is the reading asked for. -/
theorem goDateIn_wall (loc : Location) (year month day nsOfDay wall o : Int)
    (hw : wall = (daysSinceEpoch (year + (month - 1) / 12) +
      yearDay (isLeap (year + (month - 1) / 12)) ((month - 1) % 12 + 1) day) * nsPerDay + nsOfDay)
    (ho : -86400 ≤ o ∧ o ≤ 86400)
    (hloc : ∀ sec, wall / nsPerSecond - unixEpoch - 86400 ≤ sec →
      sec ≤ wall / nsPerSecond - unixEpoch + 86400 → (loc.lookup sec).1 = o) :
    goDateIn loc year month day nsOfDay = ⟨wall, loc⟩ := by
  simp only [goDateIn, ← hw]
  generalize wall / nsPerSecond - unixEpoch = W at hloc ⊢
  have h1 := hloc W (by omega) (by omega)
  have h2 := hloc (W - o) (by omega) (by omega)
  rcases hl : loc.lookup W with ⟨o1, st, en⟩
  rw [hl] at h1
  simp only at h1
  subst h1
  by_cases h0 : o1 = 0
  · subst h0
    simp [hl]
  · simp only [ne_eq, h0, not_false_eq_true, if_true, h2, ite_self, Time.mk.injEq, and_true]
    ring

/-- `time.Date` in UTC gives the reading asked for. -/
theorem goDate_eq (year month day nsOfDay : Int) :
    goDate year month day nsOfDay =
      ⟨(daysSinceEpoch (year + (month - 1) / 12) +
        yearDay (isLeap (year + (month - 1) / 12)) ((month - 1) % 12 + 1) day) * nsPerDay + nsOfDay,
        Location.UTC⟩ :=
  goDateIn_wall Location.UTC year month day nsOfDay _ 0 rfl (by decide) (fun _ _ _ => rfl)

/-- C17: on every page and in every session state, executing the
go-to-update-task command or the go-to-delete-task command is executing the
ignore command: it returns the page it was given with no error and the
session exactly as it was, so no query, no insert, and the stored page number
and filter unchanged. -/
theorem execute_update_delete_ignore (in_page : Int) (s : Sys) :
    execute in_page ⟨CMD_GOTO_UPDATE_TASK⟩ s = execute in_page ⟨CMD_IGNORE⟩ s ∧
    execute in_page ⟨CMD_GOTO_DELETE_TASK⟩ s = execute in_page ⟨CMD_IGNORE⟩ s ∧
    execute in_page ⟨CMD_IGNORE⟩ s = .ret in_page none s := by
  refine ⟨?_, ?_, ?_⟩ <;>
    simp [execute, CMD_GOTO_UPDATE_TASK, CMD_GOTO_DELETE_TASK, CMD_IGNORE, CMD_GOTO_CONSOLE,
      CMD_EXIT, CMD_GOTO_PGE_LIST_TASKS, CMD_LIST_TAKS_NEXT_PAGE, CMD_LIST_TAKS_PREV_PAGE,
      CMD_LIST_TAKS_FILTER_NAME, CMD_LIST_TAKS_FILTER_STATUS, CMD_LIST_TAKS_FILTER_CURR_WEEK,
      CMD_LIST_TAKS_FILTER_CURR_MONTH, CMD_CREATE_TASK]

/-- The process ends inside `execute` with status 0 only in the branch of the exit command. -/
theorem execute_exit_zero (in_page : Int) (c : Command) (s s' : Sys)
    (h : execute in_page c s = .exit 0 s') : c.Cmd = CMD_EXIT := by
  by_contra hc
  unfold execute at h
  simp only [hc, if_false] at h
  repeat' split at h
  all_goals simp_all

/-- Callbacks run in list order: once a first part has run without error the
rest runs from the state it left. -/
theorem _invokeCallbacks_append_ok (pre rest : List ConsoleLifecycleCallback) (s s1 : Sys)
    (h : _invokeCallbacks pre s = (none, s1)) :
    _invokeCallbacks (pre ++ rest) s = _invokeCallbacks rest s1 := by
  induction pre generalizing s with
  | nil => simp [_invokeCallbacks] at h; simp [h]
  | cons cb pre ih =>
    simp only [_invokeCallbacks, List.cons_append] at h ⊢
    rcases hcb : cb s with ⟨_ | e, s2⟩
    · rw [hcb] at h; simp only at h ⊢; exact ih s2 h
    · rw [hcb] at h; simp at h

/-- The first error ends the run of the callbacks: those after it are not called. -/
theorem _invokeCallbacks_append_err (pre rest : List ConsoleLifecycleCallback) (s s1 : Sys)
    (e : String) (h : _invokeCallbacks pre s = (some e, s1)) :
    _invokeCallbacks (pre ++ rest) s = (some e, s1) := by
  induction pre generalizing s with
  | nil => simp [_invokeCallbacks] at h
  | cons cb pre ih =>
    simp only [_invokeCallbacks, List.cons_append] at h ⊢
    rcases hcb : cb s with ⟨_ | e', s2⟩
    · rw [hcb] at h; simp only at h ⊢; exact ih s2 h
    · rw [hcb] at h; simp only at h ⊢; exact h

/-- The loop of `LaunchConsole` never ends the process with status 0. -/
theorem sessionLoop_no_exit_zero (fuel : Nat) (page : Int) (s s' : Sys) :
    sessionLoop fuel page s ≠ some (.exited 0 s') := by
  induction fuel generalizing page s with
  | zero => simp [sessionLoop]
  | succ fuel ih =>
    simp only [sessionLoop]
    rcases hin : input ("\n" ++ (nextMsg page).1) (nextMsg page).2 true s with ⟨_ | text, s1⟩
    · simp
    · simp only
      by_cases hx : isExit (parseCmd page text) = true
      · simp [hx]
      · simp only [hx, Bool.false_eq_true, if_false]
        rcases hex : execute page (parseCmd page text) s1 with ⟨p, _ | e, s2⟩ | ⟨code, s2⟩
        · exact ih p s2
        · simp
        · simp only [ne_eq, Option.some.injEq, LoopEnd.exited.injEq, not_and]
          intro hc hs
          subst hc
          have := execute_exit_zero _ _ _ _ hex
          simp [isExit, this] at hx

/-- Calling the first `k + 1` callbacks is calling the first one and then `k` of the rest. -/
theorem calledInOrder_cons (cb : ConsoleLifecycleCallback) (cbs : List ConsoleLifecycleCallback)
    (k : Nat) (s : Sys) :
    calledInOrder (cb :: cbs) (k + 1) s = calledInOrder cbs k (cb s).2 := by
  simp [calledInOrder]

/-- When every callback, called in list order in the state the one before it
left, returns nil, `_invokeCallbacks` returns nil after calling them all. -/
theorem _invokeCallbacks_all_ok (callbacks : List ConsoleLifecycleCallback) (s : Sys)
    (h : ∀ k (hk : k < callbacks.length),
      (callbacks.get ⟨k, hk⟩ (calledInOrder callbacks k s)).1 = none) :
    _invokeCallbacks callbacks s = (none, calledInOrder callbacks callbacks.length s) := by
  induction callbacks generalizing s with
  | nil => rfl
  | cons cb cbs ih =>
    have h0 : (cb s).1 = none := h 0 (Nat.succ_pos _)
    have hrest := ih (cb s).2 (fun k hk => by
      have := h (k + 1) (Nat.succ_lt_succ hk)
      rwa [calledInOrder_cons] at this)
    rcases hcb : cb s with ⟨r, s2⟩
    rw [hcb] at h0 hrest
    simp only at h0 hrest
    subst h0
    rw [List.length_cons, calledInOrder_cons, hcb]
    simp only [_invokeCallbacks, hcb]
    exact hrest

/-- When the callbacks before the one at `k` return nil, each called in the
state the one before it left, and the one at `k` returns an error,
`_invokeCallbacks` returns that error in the state that callback left: the
callbacks after it are not called. -/
theorem _invokeCallbacks_first_error (callbacks : List ConsoleLifecycleCallback) (s : Sys)
    (k : Nat) (hk : k < callbacks.length) (e : String)
    (hbefore : ∀ j (hj : j < k),
      (callbacks.get ⟨j, hj.trans hk⟩ (calledInOrder callbacks j s)).1 = none)
    (hat : (callbacks.get ⟨k, hk⟩ (calledInOrder callbacks k s)).1 = some e) :
    _invokeCallbacks callbacks s = (some e, calledInOrder callbacks (k + 1) s) := by
  induction callbacks generalizing s k with
  | nil => simp at hk
  | cons cb cbs ih =>
    cases k with
    | zero =>
      have h0 : (cb s).1 = some e := hat
      rcases hcb : cb s with ⟨r, s2⟩
      rw [hcb] at h0
      simp only at h0
      subst h0
      rw [calledInOrder_cons, hcb]
      simp only [_invokeCallbacks, hcb]
      rfl
    | succ k =>
      have h0 : (cb s).1 = none := hbefore 0 (Nat.succ_pos _)
      have hk' : k < cbs.length := Nat.lt_of_succ_lt_succ hk
      have hrest := ih (cb s).2 k hk'
        (fun j hj => by
          have := hbefore (j + 1) (Nat.succ_lt_succ hj)
          rwa [calledInOrder_cons] at this)
        (by rwa [calledInOrder_cons] at hat)
      rcases hcb : cb s with ⟨r, s2⟩
      rw [hcb] at h0 hrest
      simp only at h0 hrest
      subst h0
      rw [calledInOrder_cons, hcb]
      simp only [_invokeCallbacks, hcb]
      exact hrest

/-- C18: in the session loop, when the input read parses to the exit command
(which happens on page CONSOLE, for the input "0", and nowhere else) the loop
ends by `break` in the state the read left, without calling `execute`; from
no page and for no input does the loop end the process with status 0, which
is what the exit branch of `execute` would do.  A callback is registered at
the end of its list, and `_invokeCallbacks` calls the callbacks in list
order, each in the state the one before it left: with no callback it returns
nil at once; when all return nil it returns nil after the last; when one
returns an error it returns that error and calls none of those after it.
After the `break`, `LaunchConsole` returns just what the shutdown callbacks
so called give: nil in the state the last one left, or the first error in the
state the failing callback left. -/
theorem exit_breaks_loop :
    (∀ (page : Int) (key : String),
      isExit (parseCmd page key) = true ↔ page = PGE_CONSOLE ∧ key = "0") ∧
    (∀ (fuel : Nat) (page : Int) (s s1 : Sys) (key : String),
      input ("\n" ++ (nextMsg page).1) (nextMsg page).2 true s = (some key, s1) →
      isExit (parseCmd page key) = true →
      sessionLoop (fuel + 1) page s = some (.broke s1)) ∧
    (∀ (fuel : Nat) (page : Int) (s s' : Sys),
      sessionLoop fuel page s ≠ some (.exited 0 s')) ∧
    (∀ (f g h : ConsoleLifecycleCallback), runOn (runOn (runOn [] f) g) h = [f, g, h]) ∧
    (∀ s : Sys, _invokeCallbacks [] s = (none, s)) ∧
    (∀ (callbacks : List ConsoleLifecycleCallback) (s : Sys),
      (∀ k (hk : k < callbacks.length),
        (callbacks.get ⟨k, hk⟩ (calledInOrder callbacks k s)).1 = none) →
      _invokeCallbacks callbacks s = (none, calledInOrder callbacks callbacks.length s)) ∧
    (∀ (callbacks : List ConsoleLifecycleCallback) (s : Sys) (k : Nat)
      (hk : k < callbacks.length) (e : String),
      (∀ j (hj : j < k),
        (callbacks.get ⟨j, hj.trans hk⟩ (calledInOrder callbacks j s)).1 = none) →
      (callbacks.get ⟨k, hk⟩ (calledInOrder callbacks k s)).1 = some e →
      _invokeCallbacks callbacks s = (some e, calledInOrder callbacks (k + 1) s)) ∧
    (∀ (version : String) (bootstrap shutdown : List ConsoleLifecycleCallback) (s s1 : Sys),
      (∀ k (hk : k < bootstrap.length),
        (bootstrap.get ⟨k, hk⟩ (calledInOrder bootstrap k s)).1 = none) →
      sessionLoop
        (((calledInOrder bootstrap bootstrap.length s).log
          ("Peanut " ++ version ++ " launched")).stdin.length + 1) PGE_CONSOLE
        ((calledInOrder bootstrap bootstrap.length s).log ("Peanut " ++ version ++ " launched"))
        = some (.broke s1) →
      ((∀ k (hk : k < shutdown.length),
          (shutdown.get ⟨k, hk⟩ (calledInOrder shutdown k s1)).1 = none) →
        LaunchConsole version bootstrap shutdown s =
          some (.returned none (calledInOrder shutdown shutdown.length s1))) ∧
      (∀ (k : Nat) (hk : k < shutdown.length) (e : String),
        (∀ j (hj : j < k),
          (shutdown.get ⟨j, hj.trans hk⟩ (calledInOrder shutdown j s1)).1 = none) →
        (shutdown.get ⟨k, hk⟩ (calledInOrder shutdown k s1)).1 = some e →
        LaunchConsole version bootstrap shutdown s =
          some (.returned (some e) (calledInOrder shutdown (k + 1) s1)))) := by
  refine ⟨?_, ?_, sessionLoop_no_exit_zero, fun _ _ _ => rfl, fun _ => rfl,
    _invokeCallbacks_all_ok, _invokeCallbacks_first_error, ?_⟩
  · intro page key
    constructor
    · intro h
      unfold parseCmd at h
      repeat' split at h
      all_goals simp_all [isExit, CMD_EXIT, CMD_GOTO_PGE_LIST_TASKS, CMD_CREATE_TASK,
        CMD_GOTO_UPDATE_TASK, CMD_GOTO_DELETE_TASK, CMD_IGNORE, CMD_GOTO_CONSOLE,
        CMD_LIST_TAKS_PREV_PAGE, CMD_LIST_TAKS_NEXT_PAGE, CMD_LIST_TAKS_FILTER_NAME,
        CMD_LIST_TAKS_FILTER_STATUS, CMD_LIST_TAKS_FILTER_CURR_WEEK,
        CMD_LIST_TAKS_FILTER_CURR_MONTH]
    · rintro ⟨rfl, rfl⟩
      decide
  · intro fuel page s s1 key hin hx
    simp only [sessionLoop, hin, hx, if_true]
  · intro version bootstrap shutdown s s1 hb hl
    have hboot := _invokeCallbacks_all_ok bootstrap s hb
    constructor
    · intro hs
      simp only [LaunchConsole, hboot, hl, _invokeCallbacks_all_ok shutdown s1 hs]
    · intro k hk e hbefore hat
      simp only [LaunchConsole, hboot, hl, _invokeCallbacks_first_error shutdown s1 k hk e hbefore hat]

/-- C18 on a terminal that delivers the key "0" on page CONSOLE, with three
shutdown callbacks registered in the order a, b, c.  When b fails,
`LaunchConsole` returns the error of b after a and b have been called, in
this order, and c has not; when b is not registered it returns nil after a
and c have been called, in this order; with no shutdown callback it returns
nil and none is called. -/
theorem exit_breaks_loop_witness :
    sessionLoop 1 PGE_CONSOLE (initSys sampleStore ["0"] (fun n => ⟨n, Location.UTC⟩)) =
      some (.broke (input ("\n" ++ (nextMsg PGE_CONSOLE).1) false true
        (initSys sampleStore ["0"] (fun n => ⟨n, Location.UTC⟩))).2) ∧
    _invokeCallbacks [noteCallback "a", failingCallback "b", noteCallback "c"]
        (initSys sampleStore [] (fun n => ⟨n, Location.UTC⟩)) =
      (some "b", calledInOrder [noteCallback "a", failingCallback "b", noteCallback "c"] 2
        (initSys sampleStore [] (fun n => ⟨n, Location.UTC⟩))) ∧
    (LaunchConsole "v1" onBootstrap
      (runOn (runOn (runOn [] (noteCallback "a")) (failingCallback "b")) (noteCallback "c"))
      (initSys sampleStore ["0"] (fun n => ⟨n, Location.UTC⟩))).map
        (fun r => (r.err, r.isReturn, r.sys.trace.reverse.take 2))
      = some (some "b", true, [Event.log "b", Event.log "a"]) ∧
    (LaunchConsole "v1" onBootstrap (runOn (runOn [] (noteCallback "a")) (noteCallback "c"))
      (initSys sampleStore ["0"] (fun n => ⟨n, Location.UTC⟩))).map
        (fun r => (r.err, r.isReturn, r.sys.trace.reverse.take 2))
      = some (none, true, [Event.log "c", Event.log "a"]) ∧
    (LaunchConsole "v1" onBootstrap [] (initSys sampleStore ["0"] (fun n => ⟨n, Location.UTC⟩))).map
        (fun r => (r.err, r.isReturn, decide (Event.log "a" ∈ r.sys.trace)))
      = some (none, true, false) :=
  ⟨exit_breaks_loop.2.1 0 PGE_CONSOLE _ _ "0" rfl (by decide),
    exit_breaks_loop.2.2.2.2.2.2.1 [noteCallback "a", failingCallback "b", noteCallback "c"]
      (initSys sampleStore [] (fun n => ⟨n, Location.UTC⟩)) 1 (by decide) "b"
      (fun j hj => by
        have hj0 : j = 0 := by omega
        subst hj0
        rfl)
      rfl,
    by decide, by decide, by decide⟩

/-- A list query fails exactly when the store fails its page statement or its
count statement, with that error wrapped. -/
theorem listTasks_fault (db : Store) (page limit : Int) (filter : ListTaskFilter) :
    (∀ e, db.queryFault = some e →
      ∃ db', listTasks db page limit filter = (.error ("failed to list tasks, " ++ e), db')) ∧
    (db.queryFault = none →
      ∃ r db', listTasks db page limit filter = (.ok r, db')) := by
  obtain ⟨rows, faults⟩ := db
  rcases faults with _ | ⟨_ | e1, _ | ⟨_ | e2, fs⟩⟩ <;>
    simp [Store.queryFault, listTasks, Store.Scan, Store.Count, Store.step]

/-- A failed list query, as `execute` sees it: the error, and nothing but the
call recorded. -/
theorem callListTasks_fail (page limit : Int) (filter : ListTaskFilter) (s : Sys) (e : String)
    (h : s.db.queryFault = some e) :
    ∃ db', callListTasks page limit filter s = (.error ("failed to list tasks, " ++ e),
      { s with db := db', trace := s.trace ++ [.listTasks page limit filter] }) := by
  obtain ⟨db', hq⟩ := (listTasks_fault s.db page limit filter).1 e h
  exact ⟨db', by simp [callListTasks, hq]⟩

/-- The block every list command but next-page ends with, when the query fails. -/
theorem list_block_fail (s1 : Sys) (e : String) (h : s1.db.queryFault = some e) :
    ∃ s' : Sys, (match callListTasks s1.listPage s1.listLimit s1.filter s1 with
        | (.ok (l, c), s) =>
          Outcome.ret PGE_LIST_TASKS none (printTasks s.listPage s.listLimit l s.filter c s)
        | (.error e, s) => Outcome.ret PGE_LIST_TASKS (some e) s)
        = Outcome.ret PGE_LIST_TASKS (some ("failed to list tasks, " ++ e)) s' ∧
      s'.trace = s1.trace ++ [.listTasks s1.listPage s1.listLimit s1.filter] := by
  obtain ⟨db', hq⟩ := callListTasks_fail s1.listPage s1.listLimit s1.filter s1 e h
  exact ⟨_, by rw [hq], rfl⟩

/-- C11: for each of the seven list commands, when the store fails the list
query `execute` returns the error (wrapped by `listTasks`) and renders
nothing: between the start and the end of the call no `printTasks` is
recorded.  In the session loop a command whose execution returns an error
ends the loop at once, in the state `execute` left, so that no further input
is read; `LaunchConsole` then returns that error wrapped, in that same state
whatever the shutdown callbacks are: they are not run.  (The name and status
filters first read a line; a failed read ends the process before the query.) -/
theorem list_failure_ends_session :
    (∀ (in_page c : Int) (s : Sys) (e : String), c ∈ listCommands →
      s.db.queryFault = some e →
      (c = CMD_LIST_TAKS_FILTER_NAME ∨ c = CMD_LIST_TAKS_FILTER_STATUS → s.stdin ≠ []) →
      ∃ (s' : Sys) (evs : List Event),
        execute in_page ⟨c⟩ s = .ret PGE_LIST_TASKS (some ("failed to list tasks, " ++ e)) s' ∧
        s'.trace = s.trace ++ evs ∧
        ∀ ev ∈ evs, ∀ p l ts f t, ev ≠ Event.printTasks p l ts f t) ∧
    (∀ (fuel : Nat) (page p : Int) (s s1 s2 : Sys) (key e : String),
      input ("\n" ++ (nextMsg page).1) (nextMsg page).2 true s = (some key, s1) →
      isExit (parseCmd page key) = false →
      execute page (parseCmd page key) s1 = .ret p (some e) s2 →
      sessionLoop (fuel + 1) page s = some (.failed ("failed to execute command, " ++ e) s2)) ∧
    (∀ (version : String) (bootstrap shutdown : List ConsoleLifecycleCallback) (s s0 s2 : Sys)
      (msg : String),
      _invokeCallbacks bootstrap s = (none, s0) →
      sessionLoop ((s0.log ("Peanut " ++ version ++ " launched")).stdin.length + 1) PGE_CONSOLE
        (s0.log ("Peanut " ++ version ++ " launched")) = some (.failed msg s2) →
      LaunchConsole version bootstrap shutdown s = some (.returned (some msg) s2)) := by
  refine ⟨?_, ?_, ?_⟩
  · intro in_page c s e hc hq hin
    simp only [listCommands, List.mem_cons, List.mem_singleton, List.not_mem_nil, or_false] at hc
    rcases hc with rfl | rfl | rfl | rfl | rfl | rfl | rfl
    · obtain ⟨s', h, ht⟩ := list_block_fail s e hq
      refine ⟨s', _, ?_, ht, by simp⟩
      rw [← h]
      simp [execute, CMD_GOTO_CONSOLE, CMD_EXIT, CMD_GOTO_PGE_LIST_TASKS]
    · obtain ⟨db', h⟩ := callListTasks_fail (wrapInt (s.listPage + 1)) s.listLimit s.filter s e hq
      refine ⟨(execute in_page ⟨CMD_LIST_TAKS_NEXT_PAGE⟩ s).sys,
        [.listTasks (wrapInt (s.listPage + 1)) s.listLimit s.filter], ?_, ?_, by simp⟩ <;>
      simp [execute, CMD_GOTO_CONSOLE, CMD_EXIT, CMD_GOTO_PGE_LIST_TASKS,
        CMD_LIST_TAKS_NEXT_PAGE, h, Outcome.sys]
    · obtain ⟨s', h, ht⟩ := list_block_fail
        (if s.listPage > 1 then { s with listPage := wrapInt (s.listPage - 1) } else s) e
        (by split <;> exact hq)
      refine ⟨s', [.listTasks (if s.listPage > 1 then wrapInt (s.listPage - 1) else s.listPage)
          s.listLimit s.filter], ?_, ?_, by simp⟩
      · rw [← h]
        simp [execute, CMD_GOTO_CONSOLE, CMD_EXIT, CMD_GOTO_PGE_LIST_TASKS,
          CMD_LIST_TAKS_NEXT_PAGE, CMD_LIST_TAKS_PREV_PAGE]
      · rw [ht]; split <;> rfl
    · obtain ⟨line, rest, hs⟩ := List.exists_cons_of_ne_nil (hin (Or.inl rfl))
      obtain ⟨s', h, ht⟩ := list_block_fail
        { s with stdin := rest, trace := s.trace ++ [.log "Filtering by name"],
                 filter := { s.filter with Name := trimSpace (trimSpace line) } } e hq
      refine ⟨s', [.log "Filtering by name", .listTasks s.listPage s.listLimit
        { s.filter with Name := trimSpace (trimSpace line) }], ?_, by simp [ht], by simp⟩
      rw [← h]
      simp [execute, CMD_LIST_TAKS_FILTER_NAME, CMD_GOTO_CONSOLE, CMD_EXIT,
        CMD_GOTO_PGE_LIST_TASKS, CMD_LIST_TAKS_NEXT_PAGE, CMD_LIST_TAKS_PREV_PAGE,
        input_line _ _ s line rest hs, Sys.log]
    · obtain ⟨line, rest, hs⟩ := List.exists_cons_of_ne_nil (hin (Or.inr rfl))
      obtain ⟨s', h, ht⟩ := list_block_fail
        { s with stdin := rest,
                 trace := s.trace ++ [.log "Filter by status [IN_PROGRESS | FINISHED | CANCELLED]:"],
                 filter := { s.filter with
                   Status := parseStatus (trimSpace (trimSpace line)) STATUS_NONE } } e hq
      refine ⟨s', [.log "Filter by status [IN_PROGRESS | FINISHED | CANCELLED]:",
        .listTasks s.listPage s.listLimit
          { s.filter with Status := parseStatus (trimSpace (trimSpace line)) STATUS_NONE }],
        ?_, by simp [ht], by simp⟩
      rw [← h]
      simp [execute, CMD_LIST_TAKS_FILTER_NAME, CMD_GOTO_CONSOLE, CMD_EXIT,
        CMD_GOTO_PGE_LIST_TASKS, CMD_LIST_TAKS_NEXT_PAGE, CMD_LIST_TAKS_PREV_PAGE,
        CMD_LIST_TAKS_FILTER_STATUS, input_line _ _ s line rest hs, Sys.log]
    · obtain ⟨s', h, ht⟩ := list_block_fail
        { s with tick := s.tick + 1,
                 filter := { s.filter with ActualStartOpen := (weekBegin s).1 } } e hq
      refine ⟨s', [.listTasks s.listPage s.listLimit
        { s.filter with ActualStartOpen := (weekBegin s).1 }], ?_, by simp [ht], by simp⟩
      rw [← h]
      simp only [execute, CMD_LIST_TAKS_FILTER_NAME, CMD_GOTO_CONSOLE, CMD_EXIT,
        CMD_GOTO_PGE_LIST_TASKS, CMD_LIST_TAKS_NEXT_PAGE, CMD_LIST_TAKS_PREV_PAGE,
        CMD_LIST_TAKS_FILTER_STATUS, CMD_LIST_TAKS_FILTER_CURR_WEEK]
      rw [weekBegin_eq s]
      simp
    · obtain ⟨s', h, ht⟩ := list_block_fail
        { s with tick := s.tick + 1,
                 filter := { s.filter with ActualStartOpen := (monthBegin s).1 } } e hq
      refine ⟨s', [.listTasks s.listPage s.listLimit
        { s.filter with ActualStartOpen := (monthBegin s).1 }], ?_, by simp [ht], by simp⟩
      rw [← h]
      simp only [execute, CMD_LIST_TAKS_FILTER_NAME, CMD_GOTO_CONSOLE, CMD_EXIT,
        CMD_GOTO_PGE_LIST_TASKS, CMD_LIST_TAKS_NEXT_PAGE, CMD_LIST_TAKS_PREV_PAGE,
        CMD_LIST_TAKS_FILTER_STATUS, CMD_LIST_TAKS_FILTER_CURR_WEEK,
        CMD_LIST_TAKS_FILTER_CURR_MONTH]
      rw [monthBegin_eq s]
      simp
  · intro fuel page p s s1 s2 key e hin hx hex
    simp [sessionLoop, hin, hx, hex]
  · intro version bootstrap shutdown s s0 s2 msg hb hl
    simp only [LaunchConsole, hb, hl]

/-- C11 on a store that creates the schema and then fails the first list
query with "boom", the terminal delivering the key "1": `execute` returns the
wrapped error, `LaunchConsole` returns it wrapped again, the key "0" that
follows is not read and the farewell of the shutdown callback is not logged. -/
theorem list_failure_ends_session_witness :
    (∃ (s' : Sys) (evs : List Event),
      execute PGE_CONSOLE ⟨CMD_GOTO_PGE_LIST_TASKS⟩
          (initSys { sampleStore with faults := [some "boom"] } ["0"] (fun n => ⟨n, Location.UTC⟩))
        = .ret PGE_LIST_TASKS (some ("failed to list tasks, " ++ "boom")) s' ∧
      s'.trace = [] ++ evs ∧
      ∀ ev ∈ evs, ∀ p l ts f t, ev ≠ Event.printTasks p l ts f t) ∧
    (LaunchConsole "v1" onBootstrap onShutdown
      (initSys { sampleStore with faults := [none, none, some "boom"] } ["1", "0"]
        (fun n => ⟨n, Location.UTC⟩))).map (fun r => (r.err, r.isReturn, r.sys.stdin,
          decide (Event.log "Bye!" ∈ r.sys.trace)))
      = some (some "failed to execute command, failed to list tasks, boom", true, ["0"], false) :=
  ⟨list_failure_ends_session.1 PGE_CONSOLE CMD_GOTO_PGE_LIST_TASKS
    (initSys { sampleStore with faults := [some "boom"] } ["0"] (fun n => ⟨n, Location.UTC⟩)) "boom"
    (by decide) (by decide) (by decide), by decide⟩

/-! ## What a step can change -/

theorem Sys.onlyRead.refl (s : Sys) : s.onlyRead s :=
  ⟨rfl, rfl, rfl, rfl, le_refl _, [], by simp⟩

theorem Sys.onlyRead.trans {s s1 s2 : Sys} (h1 : s.onlyRead s1) (h2 : s1.onlyRead s2) :
    s.onlyRead s2 := by
  obtain ⟨a1, b1, c1, d1, e1, l1, t1⟩ := h1
  obtain ⟨a2, b2, c2, d2, e2, l2, t2⟩ := h2
  exact ⟨a2.trans a1, b2.trans b1, c2.trans c1, d2.trans d1, e2.trans e1, l1 ++ l2,
    by rw [t2, t1]; simp⟩

/-- The read loop hands back what is left of the terminal, which is less than before. -/
theorem readInput_length (required : Bool) (l : List String) (text : String)
    (rest : List String) (h : readInput required l = some (text, rest)) :
    rest.length < l.length := by
  induction l with
  | nil => simp [readInput] at h
  | cons x xs ih =>
    simp only [readInput] at h
    split at h
    · have := ih h
      simp only [List.length_cons]
      omega
    · simp only [Option.some.injEq, Prod.mk.injEq] at h
      simp [← h.2]

/-- `input` on a session written out field by field. -/
theorem input_eq (msg : String) (m r : Bool) (a b : Int) (c : ListTaskFilter) (d : Store)
    (i : List String) (e : Nat → Time) (f : Nat) (g : List Event) :
    input msg m r ⟨a, b, c, d, i, e, f, g⟩ =
      match readInput r i with
      | none => (none, ⟨a, b, c, d, [], e, f,
          g ++ (if msg = "" then [] else [.log msg]) ++ [.log "failed to read from console, EOF"]⟩)
      | some (text, rest) => (some (trimSpace text), ⟨a, b, c, d, rest, e, f,
          g ++ (if msg = "" then [] else [.log msg])⟩) := by
  by_cases hm : msg = "" <;> rcases hr : readInput r i with _ | ⟨text, rest⟩ <;>
    simp [input, hm, hr, Sys.log]

/-- `input` only reads, and a read that succeeds has consumed at least one entry. -/
theorem input_onlyRead (msg : String) (m r : Bool) (s : Sys) :
    s.onlyRead (input msg m r s).2 ∧
    ((input msg m r s).1 ≠ none → (input msg m r s).2.stdin.length < s.stdin.length) := by
  obtain ⟨a, b, c, d, i, e, f, g⟩ := s
  rw [input_eq]
  rcases hr : readInput r i with _ | ⟨text, rest⟩
  · refine ⟨⟨rfl, rfl, rfl, rfl, by simp, ?_⟩, by simp⟩
    by_cases hm : msg = ""
    · exact ⟨["failed to read from console, EOF"], by simp [hm]⟩
    · exact ⟨[msg, "failed to read from console, EOF"], by simp [hm]⟩
  · have := readInput_length r i text rest hr
    refine ⟨⟨rfl, rfl, rfl, rfl, by simp; omega, ?_⟩, by simp; omega⟩
    by_cases hm : msg = ""
    · exact ⟨[], by simp [hm]⟩
    · exact ⟨[msg], by simp [hm]⟩

/-- Reading the clock only reads. -/
theorem Now_onlyRead (s : Sys) : s.onlyRead s.Now.2 :=
  ⟨rfl, rfl, rfl, rfl, le_refl _, [], by simp [Sys.Now]⟩

/-- `parseTime` only reads. -/
theorem parseTime_onlyRead (x : String) (s : Sys) : s.onlyRead (parseTime x s).2 := by
  unfold parseTime
  split
  · exact Sys.onlyRead.refl s
  · split
    · exact Sys.onlyRead.refl s
    · exact Now_onlyRead s

/-- `taskFromInput` only reads. -/
theorem taskFromInput_onlyRead (s : Sys) : s.onlyRead (taskFromInput s).2 := by
  unfold taskFromInput
  simp only
  have q1 := (input_onlyRead "Name:" true true s).1
  rcases h1 : input "Name:" true true s with ⟨_ | name, s1⟩ <;> rw [h1] at q1
  · exact q1
  simp only
  have q2 := q1.trans (input_onlyRead "Status [IN_PROGRESS | FINISHED | CANCELLED]:" true false s1).1
  rcases h2 : input "Status [IN_PROGRESS | FINISHED | CANCELLED]:" true false s1
    with ⟨_ | status, s2⟩ <;> rw [h2] at q2
  · exact q2
  simp only
  have q3 := q2.trans (Now_onlyRead s2)
  have q4 := q3.trans (input_onlyRead "Actual Start:" true false s2.Now.2).1
  rcases h4 : input "Actual Start:" true false s2.Now.2 with ⟨_ | a, s4⟩ <;> rw [h4] at q4
  · exact q4
  simp only
  have q5 := q4.trans (parseTime_onlyRead a s4)
  have q6 := q5.trans (input_onlyRead "Expected End:" true false (parseTime a s4).2).1
  rcases h6 : input "Expected End:" true false (parseTime a s4).2 with ⟨_ | b, s6⟩ <;>
    rw [h6] at q6
  · exact q6
  simp only
  have q7 := q6.trans (parseTime_onlyRead b s6)
  have q8 := q7.trans (input_onlyRead "Actual End:" true false (parseTime b s6).2).1
  rcases h8 : input "Actual End:" true false (parseTime b s6).2 with ⟨_ | c, s8⟩ <;>
    rw [h8] at q8
  · exact q8
  simp only
  exact q8.trans (parseTime_onlyRead c s8)

/-- The block every list command but next-page ends with: it returns page
LIST_TASKS, touches neither page number, page size, filter nor terminal, and
records the query at the stored page, then at most one `printTasks`, of that
same page. -/
theorem list_block_effect (s1 : Sys) :
    ∃ (err : Option String) (s' : Sys) (tail : List Event),
      (match callListTasks s1.listPage s1.listLimit s1.filter s1 with
        | (.ok (l, c), s) =>
          Outcome.ret PGE_LIST_TASKS none (printTasks s.listPage s.listLimit l s.filter c s)
        | (.error e, s) => Outcome.ret PGE_LIST_TASKS (some e) s)
        = Outcome.ret PGE_LIST_TASKS err s' ∧
      s'.listPage = s1.listPage ∧ s'.listLimit = s1.listLimit ∧ s'.filter = s1.filter ∧
      s'.stdin = s1.stdin ∧
      s'.trace = s1.trace ++ Event.listTasks s1.listPage s1.listLimit s1.filter :: tail ∧
      ((err ≠ none ∧ tail = []) ∨ (err = none ∧ ∃ rows total,
        tail = [Event.printTasks s1.listPage s1.listLimit rows s1.filter total])) := by
  rcases hq : listTasks s1.db s1.listPage s1.listLimit s1.filter with ⟨r, db1⟩
  cases r with
  | error e =>
    exact ⟨some e,
      { s1 with db := db1,
                trace := s1.trace ++ [.listTasks s1.listPage s1.listLimit s1.filter] },
      [], by simp only [callListTasks, hq], rfl, rfl, rfl, rfl, rfl, Or.inl ⟨by simp, rfl⟩⟩
  | ok v =>
    obtain ⟨l, c⟩ := v
    exact ⟨none,
      printTasks s1.listPage s1.listLimit l s1.filter c
        { s1 with db := db1,
                  trace := s1.trace ++ [.listTasks s1.listPage s1.listLimit s1.filter] },
      [.printTasks s1.listPage s1.listLimit l s1.filter c],
      by simp only [callListTasks, hq], rfl, rfl, rfl, rfl, by simp [printTasks],
      Or.inr ⟨rfl, l, c, rfl⟩⟩

/-- What one call of `execute` can do to the page number, the page size, the
terminal and the trace: the page size stays, the terminal delivers nothing
back, the page number stays, goes up by one or (from above 1) down by one,
and every query recorded is for the page size and for one of these pages. -/
theorem execute_effect (in_page : Int) (c : Command) (s : Sys) :
    (execute in_page c s).sys.listLimit = s.listLimit ∧
    (execute in_page c s).sys.stdin.length ≤ s.stdin.length ∧
    ((execute in_page c s).sys.listPage = s.listPage ∨
      (execute in_page c s).sys.listPage = wrapInt (s.listPage + 1) ∨
      (1 < s.listPage ∧ (execute in_page c s).sys.listPage = wrapInt (s.listPage - 1))) ∧
    ∃ evs : List Event, (execute in_page c s).sys.trace = s.trace ++ evs ∧
      ∀ page limit f, Event.listTasks page limit f ∈ evs →
        limit = s.listLimit ∧
        (page = s.listPage ∨ page = wrapInt (s.listPage + 1) ∨
          (1 < s.listPage ∧ page = wrapInt (s.listPage - 1))) := by
  generalize ho : execute in_page c s = o
  unfold execute at ho
  by_cases h1 : c.Cmd = CMD_GOTO_CONSOLE
  · rw [if_pos h1] at ho
    subst ho
    exact ⟨rfl, le_refl _, Or.inl rfl, [], by simp [Outcome.sys], by simp⟩
  rw [if_neg h1] at ho
  by_cases h2 : c.Cmd = CMD_EXIT
  · rw [if_pos h2] at ho
    subst ho
    exact ⟨rfl, le_refl _, Or.inl rfl, [.log "Bye!"], by simp [Outcome.sys, Sys.log], by simp⟩
  rw [if_neg h2] at ho
  by_cases h3 : c.Cmd = CMD_GOTO_PGE_LIST_TASKS
  · rw [if_pos h3] at ho
    obtain ⟨err, s', tail, h, hp, hl, -, hi, ht, htail⟩ := list_block_effect s
    rw [h] at ho
    subst ho
    refine ⟨hl, by simp [Outcome.sys, hi], Or.inl hp, _, ht, ?_⟩
    intro page limit f hm
    rcases htail with ⟨-, rfl⟩ | ⟨-, rows, total, rfl⟩ <;> simp at hm <;>
      exact ⟨hm.2.1, Or.inl hm.1⟩
  rw [if_neg h3] at ho
  by_cases h4 : c.Cmd = CMD_LIST_TAKS_NEXT_PAGE
  · rw [if_pos h4] at ho
    rcases hq : listTasks s.db (wrapInt (s.listPage + 1)) s.listLimit s.filter with ⟨r, db1⟩
    simp only [callListTasks, hq] at ho
    cases r with
    | error e =>
      subst ho
      exact ⟨rfl, le_refl _, Or.inl rfl,
        [.listTasks (wrapInt (s.listPage + 1)) s.listLimit s.filter], rfl,
        by simp; intro page limit f hp hl _; exact ⟨hl, Or.inr (Or.inl hp)⟩⟩
    | ok v =>
      obtain ⟨l, n⟩ := v
      subst ho
      by_cases hlen : l.length > 0
      · refine ⟨by simp [Outcome.sys, hlen, printTasks], by simp [Outcome.sys, hlen, printTasks],
          Or.inr (Or.inl (by simp [Outcome.sys, hlen, printTasks])),
          [.listTasks (wrapInt (s.listPage + 1)) s.listLimit s.filter,
            .printTasks s.listPage s.listLimit l s.filter n],
          by simp [Outcome.sys, hlen, printTasks],
          by simp; intro page limit f hp hl _; exact ⟨hl, Or.inr (Or.inl hp)⟩⟩
      · refine ⟨by simp [Outcome.sys, hlen, printTasks], by simp [Outcome.sys, hlen, printTasks],
          Or.inl (by simp [Outcome.sys, hlen, printTasks]),
          [.listTasks (wrapInt (s.listPage + 1)) s.listLimit s.filter,
            .printTasks s.listPage s.listLimit l s.filter n],
          by simp [Outcome.sys, hlen, printTasks],
          by simp; intro page limit f hp hl _; exact ⟨hl, Or.inr (Or.inl hp)⟩⟩
  rw [if_neg h4] at ho
  by_cases h5 : c.Cmd = CMD_LIST_TAKS_PREV_PAGE
  · rw [if_pos h5] at ho
    obtain ⟨err, s', tail, h, hp, hl, -, hi, ht, htail⟩ := list_block_effect
      (if s.listPage > 1 then { s with listPage := wrapInt (s.listPage - 1) } else s)
    dsimp only at ho
    rw [h] at ho
    subst ho
    by_cases hgt : s.listPage > 1
    · simp only [hgt, if_true] at hp hl hi ht htail
      refine ⟨hl, by simp [Outcome.sys, hi], Or.inr (Or.inr ⟨hgt, hp⟩), _, ht, ?_⟩
      intro page limit f hm
      rcases htail with ⟨-, rfl⟩ | ⟨-, rows, total, rfl⟩ <;> simp at hm <;>
        exact ⟨hm.2.1, Or.inr (Or.inr ⟨hgt, hm.1⟩)⟩
    · simp only [hgt, if_false] at hp hl hi ht htail
      refine ⟨hl, by simp [Outcome.sys, hi], Or.inl hp, _, ht, ?_⟩
      intro page limit f hm
      rcases htail with ⟨-, rfl⟩ | ⟨-, rows, total, rfl⟩ <;> simp at hm <;>
        exact ⟨hm.2.1, Or.inl hm.1⟩
  rw [if_neg h5] at ho
  by_cases h6 : c.Cmd = CMD_LIST_TAKS_FILTER_NAME
  · rw [if_pos h6] at ho
    obtain ⟨⟨qp, ql, -, -, qi, logs, qt⟩, -⟩ := input_onlyRead "Filtering by name" true false s
    rcases hin : input "Filtering by name" true false s with ⟨_ | name, s1⟩ <;>
      rw [hin] at ho qp ql qi qt
    · subst ho
      exact ⟨ql, qi, Or.inl qp, _, qt, by simp⟩
    · obtain ⟨err, s', tail, h, hp, hl, -, hi, ht, htail⟩ := list_block_effect
        { s1 with filter := { s1.filter with Name := name } }
      dsimp only at ho h hp hl hi ht htail
      rw [h] at ho
      subst ho
      refine ⟨hl.trans ql, by simp [Outcome.sys, hi, qi], Or.inl (hp.trans qp), _,
        by rw [Outcome.sys, ht, qt, List.append_assoc], ?_⟩
      intro page limit f hm
      rcases htail with ⟨-, rfl⟩ | ⟨-, rows, total, rfl⟩ <;> simp at hm <;>
        exact ⟨hm.2.1.trans ql, Or.inl (hm.1.trans qp)⟩
  rw [if_neg h6] at ho
  by_cases h7 : c.Cmd = CMD_LIST_TAKS_FILTER_STATUS
  · rw [if_pos h7] at ho
    obtain ⟨⟨qp, ql, -, -, qi, logs, qt⟩, -⟩ :=
      input_onlyRead "Filter by status [IN_PROGRESS | FINISHED | CANCELLED]:" true false s
    rcases hin : input "Filter by status [IN_PROGRESS | FINISHED | CANCELLED]:" true false s
      with ⟨_ | status, s1⟩ <;> rw [hin] at ho qp ql qi qt
    · subst ho
      exact ⟨ql, qi, Or.inl qp, _, qt, by simp⟩
    · obtain ⟨err, s', tail, h, hp, hl, -, hi, ht, htail⟩ := list_block_effect
        { s1 with filter := { s1.filter with Status := parseStatus status STATUS_NONE } }
      dsimp only at ho h hp hl hi ht htail
      rw [h] at ho
      subst ho
      refine ⟨hl.trans ql, by simp [Outcome.sys, hi, qi], Or.inl (hp.trans qp), _,
        by rw [Outcome.sys, ht, qt, List.append_assoc], ?_⟩
      intro page limit f hm
      rcases htail with ⟨-, rfl⟩ | ⟨-, rows, total, rfl⟩ <;> simp at hm <;>
        exact ⟨hm.2.1.trans ql, Or.inl (hm.1.trans qp)⟩
  rw [if_neg h7] at ho
  by_cases h8 : c.Cmd = CMD_LIST_TAKS_FILTER_CURR_WEEK
  · rw [if_pos h8, weekBegin_eq s] at ho
    obtain ⟨err, s', tail, h, hp, hl, -, hi, ht, htail⟩ := list_block_effect
      { s with tick := s.tick + 1, filter := { s.filter with ActualStartOpen := (weekBegin s).1 } }
    dsimp only at ho h hp hl hi ht htail
    rw [h] at ho
    subst ho
    refine ⟨hl, by simp [Outcome.sys, hi], Or.inl hp, _, ht, ?_⟩
    intro page limit f hm
    rcases htail with ⟨-, rfl⟩ | ⟨-, rows, total, rfl⟩ <;> simp at hm <;>
      exact ⟨hm.2.1, Or.inl hm.1⟩
  rw [if_neg h8] at ho
  by_cases h9 : c.Cmd = CMD_LIST_TAKS_FILTER_CURR_MONTH
  · rw [if_pos h9, monthBegin_eq s] at ho
    obtain ⟨err, s', tail, h, hp, hl, -, hi, ht, htail⟩ := list_block_effect
      { s with tick := s.tick + 1, filter := { s.filter with ActualStartOpen := (monthBegin s).1 } }
    dsimp only at ho h hp hl hi ht htail
    rw [h] at ho
    subst ho
    refine ⟨hl, by simp [Outcome.sys, hi], Or.inl hp, _, ht, ?_⟩
    intro page limit f hm
    rcases htail with ⟨-, rfl⟩ | ⟨-, rows, total, rfl⟩ <;> simp at hm <;>
      exact ⟨hm.2.1, Or.inl hm.1⟩
  rw [if_neg h9] at ho
  by_cases h10 : c.Cmd = CMD_CREATE_TASK
  · rw [if_pos h10] at ho
    obtain ⟨qp, ql, -, -, qi, logs, qt⟩ := taskFromInput_onlyRead s
    rcases htk : taskFromInput s with ⟨_ | ⟨ok, t⟩, s1⟩ <;> rw [htk] at ho qp ql qi qt
    · subst ho
      exact ⟨ql, qi, Or.inl qp, _, qt, by simp⟩
    · dsimp only at ho qp ql qi qt
      subst ho
      cases ok
      · exact ⟨ql, qi, Or.inl qp, _, qt, by simp⟩
      · rcases hsv : s1.db.Create t with ⟨_ | e, db1⟩
        · refine ⟨by simp [Outcome.sys, saveTask, hsv, ql],
            by simp [Outcome.sys, saveTask, hsv, qi],
            Or.inl (by simp [Outcome.sys, saveTask, hsv, qp]),
            logs.map Event.log ++ [.saveTask t],
            by simp [Outcome.sys, saveTask, hsv, qt], by simp⟩
        · refine ⟨by simp [Outcome.sys, saveTask, hsv, ql, Sys.log],
            by simp [Outcome.sys, saveTask, hsv, qi, Sys.log],
            Or.inl (by simp [Outcome.sys, saveTask, hsv, qp, Sys.log]),
            logs.map Event.log ++ [.saveTask t, .log "Failed to saveTask, <nil>"],
            by simp [Outcome.sys, saveTask, hsv, qt, Sys.log], by simp⟩
  rw [if_neg h10] at ho
  subst ho
  exact ⟨rfl, le_refl _, Or.inl rfl, [], by simp [Outcome.sys], by simp⟩

/-- With more fuel than the terminal has entries the loop of `LaunchConsole` ends. -/
theorem sessionLoop_ends (fuel : Nat) (page : Int) (s : Sys) (h : s.stdin.length < fuel) :
    ∃ r, sessionLoop fuel page s = some r := by
  induction fuel generalizing page s with
  | zero => omega
  | succ fuel ih =>
    simp only [sessionLoop]
    obtain ⟨-, hlt⟩ := input_onlyRead ("\n" ++ (nextMsg page).1) (nextMsg page).2 true s
    rcases hin : input ("\n" ++ (nextMsg page).1) (nextMsg page).2 true s with ⟨_ | text, s1⟩
    · exact ⟨_, rfl⟩
    · rw [hin] at hlt
      have h1 : s1.stdin.length < s.stdin.length := hlt (by simp)
      simp only
      split
      · exact ⟨_, rfl⟩
      · have h2 := (execute_effect page (parseCmd page text) s1).2.1
        rcases hex : execute page (parseCmd page text) s1 with ⟨p, _ | e, s2⟩ | ⟨code, s2⟩
        · rw [hex] at h2
          simp only [Outcome.sys] at h2
          exact ih p s2 (by omega)
        · exact ⟨_, rfl⟩
        · exact ⟨_, rfl⟩

/-- `LaunchConsole` always comes to an end: it returns, or the process ends. -/
theorem LaunchConsole_ends (version : String) (bootstrap shutdown : List ConsoleLifecycleCallback)
    (s : Sys) : ∃ r, LaunchConsole version bootstrap shutdown s = some r := by
  simp only [LaunchConsole]
  rcases _invokeCallbacks bootstrap s with ⟨_ | e, s0⟩
  · simp only
    obtain ⟨r, hr⟩ := sessionLoop_ends ((s0.log ("Peanut " ++ version ++ " launched")).stdin.length + 1)
      PGE_CONSOLE (s0.log ("Peanut " ++ version ++ " launched")) (Nat.lt_succ_self _)
    rw [hr]
    cases r with
    | broke s1 =>
      simp only
      rcases _invokeCallbacks shutdown s1 with ⟨_ | e, s2⟩ <;> exact ⟨_, rfl⟩
    | failed e s1 => exact ⟨_, rfl⟩
    | exited code s1 => exact ⟨_, rfl⟩
  · exact ⟨_, rfl⟩

/-! ## The page counter -/

/-- Adding a clause leaves the offset of a statement as it is. -/
theorem offset_ite_Where (p : Prop) [Decidable p] (tx : Tx) (c : Cond) :
    (if p then tx.Where c else tx).offset = tx.offset := by
  split <;> simp [Tx.Where]

/-- The offset `listTasks` passes to the store. -/
theorem listTasksPageTx_offset (page limit : Int) (filter : ListTaskFilter) :
    (listTasksPageTx page limit filter).offset = some (wrapInt (wrapInt (page - 1) * limit)) := by
  simp only [listTasksPageTx, offset_ite_Where, Tx.Table, Tx.Select, Tx.Offset, Tx.Limit,
    Tx.Order]

theorem Sys.pagesFromOne.mono {k k' : Nat} {s : Sys} (h : s.pagesFromOne k) (hk : k ≤ k') :
    s.pagesFromOne k' := by
  obtain ⟨h1, h2, h3, h4⟩ := h
  refine ⟨h1, by omega, h3, ?_⟩
  intro page limit f hm
  obtain ⟨a, b, c⟩ := h4 page limit f hm
  exact ⟨a, by omega, c⟩

/-- One command keeps the invariant of the page counter, as long as the
counter stays clear of the largest `int`. -/
theorem execute_pagesFromOne (in_page : Int) (c : Command) (s : Sys) (k : Nat)
    (h : s.pagesFromOne k) (hk : (k : Int) + 2 ≤ maxInt) :
    (execute in_page c s).sys.pagesFromOne (k + 1) := by
  obtain ⟨h1, h2, h3, h4⟩ := h
  obtain ⟨el, -, ep, evs, et, ev⟩ := execute_effect in_page c s
  have hup : wrapInt (s.listPage + 1) = s.listPage + 1 :=
    wrapInt_of_range (by unfold minInt; omega) (by omega)
  have hdown : wrapInt (s.listPage - 1) = s.listPage - 1 :=
    wrapInt_of_range (by unfold minInt; omega) (by omega)
  rw [hup, hdown] at ep ev
  refine ⟨by omega, by push_cast; omega, el.trans h3, ?_⟩
  intro page limit f hm
  rw [et, List.mem_append] at hm
  rcases hm with hm | hm
  · obtain ⟨a, b, c⟩ := h4 page limit f hm
    exact ⟨a, by push_cast; omega, c⟩
  · obtain ⟨a, b⟩ := ev page limit f hm
    exact ⟨by omega, by push_cast; omega, a.trans h3⟩

/-- A run of commands keeps the invariant of the page counter. -/
theorem runCommands_pagesFromOne (cs : List (Int × Command)) (s : Sys) (k : Nat)
    (h : s.pagesFromOne k) (hk : (k : Int) + cs.length + 1 ≤ maxInt) :
    (runCommands cs s).pagesFromOne (k + cs.length) := by
  induction cs generalizing s k with
  | nil => simpa [runCommands] using h
  | cons pc cs ih =>
    obtain ⟨page, c⟩ := pc
    simp only [List.length_cons, Nat.cast_add, Nat.cast_one] at hk
    have hstep := execute_pagesFromOne page c s k h (by omega)
    simp only [runCommands]
    rcases hex : execute page c s with ⟨p, e, s1⟩ | ⟨code, s1⟩
    · rw [hex] at hstep
      have := ih s1 (k + 1) hstep (by push_cast; omega)
      simpa [Nat.add_assoc, Nat.add_comm 1] using this
    · rw [hex] at hstep
      exact hstep.mono (by simp)

/-- C19: from the initial session state (page number 1, page size 10, empty
filter), in any world, after any run of commands (at most 9·10^17 of them,
so that the counter stays an `int`) executed on any pages with any outcomes
of the queries and inserts, the stored page number is at least 1; every list
query made on the way was for a page at least 1, and the offset
(page-1)*limit it passed to the store was not negative. -/
theorem listPage_at_least_one (db : Store) (stdin : List String) (clock : Nat → Time)
    (cs : List (Int × Command)) (hlen : cs.length ≤ 900000000000000000) :
    1 ≤ (runCommands cs (initSys db stdin clock)).listPage ∧
    0 ≤ ((runCommands cs (initSys db stdin clock)).listPage - 1) *
      (runCommands cs (initSys db stdin clock)).listLimit ∧
    ∀ page limit f, Event.listTasks page limit f ∈ (runCommands cs (initSys db stdin clock)).trace →
      1 ≤ page ∧ (listTasksPageTx page limit f).offset = some ((page - 1) * limit) ∧
      0 ≤ (page - 1) * limit := by
  have h0 : (initSys db stdin clock).pagesFromOne 0 :=
    ⟨by simp [initSys], by simp [initSys], rfl, by simp [initSys]⟩
  have hlen' : (cs.length : Int) ≤ 900000000000000000 := by exact_mod_cast hlen
  have h := runCommands_pagesFromOne cs _ 0 h0 (by unfold maxInt; omega)
  obtain ⟨h1, h2, h3, h4⟩ := h
  refine ⟨h1, by rw [h3]; omega, ?_⟩
  intro page limit f hm
  obtain ⟨a, b, c⟩ := h4 page limit f hm
  subst c
  simp only [Nat.zero_add] at b
  refine ⟨a, ?_, by omega⟩
  have hw : wrapInt (page - 1) = page - 1 :=
    wrapInt_of_range (by unfold minInt; omega) (by unfold maxInt; omega)
  rw [listTasksPageTx_offset, hw,
    wrapInt_of_range (by unfold minInt; omega) (by unfold maxInt; omega)]

theorem listPage_at_least_one_witness :
    [(PGE_CONSOLE, (⟨CMD_GOTO_PGE_LIST_TASKS⟩ : Command)), (PGE_LIST_TASKS, ⟨CMD_LIST_TAKS_PREV_PAGE⟩),
      (PGE_LIST_TASKS, ⟨CMD_LIST_TAKS_NEXT_PAGE⟩), (PGE_LIST_TASKS, ⟨CMD_LIST_TAKS_PREV_PAGE⟩),
      (PGE_LIST_TASKS, ⟨CMD_LIST_TAKS_PREV_PAGE⟩)].length ≤ 900000000000000000 ∧
    1 ≤ (runCommands [(PGE_CONSOLE, ⟨CMD_GOTO_PGE_LIST_TASKS⟩), (PGE_LIST_TASKS, ⟨CMD_LIST_TAKS_PREV_PAGE⟩),
      (PGE_LIST_TASKS, ⟨CMD_LIST_TAKS_NEXT_PAGE⟩), (PGE_LIST_TASKS, ⟨CMD_LIST_TAKS_PREV_PAGE⟩),
      (PGE_LIST_TASKS, ⟨CMD_LIST_TAKS_PREV_PAGE⟩)]
      (initSys sampleStore [] (fun n => ⟨n, Location.UTC⟩))).listPage ∧
    (runCommands [(PGE_CONSOLE, ⟨CMD_GOTO_PGE_LIST_TASKS⟩), (PGE_LIST_TASKS, ⟨CMD_LIST_TAKS_PREV_PAGE⟩),
      (PGE_LIST_TASKS, ⟨CMD_LIST_TAKS_NEXT_PAGE⟩), (PGE_LIST_TASKS, ⟨CMD_LIST_TAKS_PREV_PAGE⟩),
      (PGE_LIST_TASKS, ⟨CMD_LIST_TAKS_PREV_PAGE⟩)]
      (initSys sampleStore [] (fun n => ⟨n, Location.UTC⟩))).listPage = 1 :=
  ⟨by decide, (listPage_at_least_one sampleStore [] (fun n => ⟨n, Location.UTC⟩) _ (by decide)).1, by decide⟩

/-! ## The page number under the table -/

/-- C20 fails for the next-page command: when its query succeeds, the query is
made for page `listPage + 1` and the renderer is handed `listPage`, the page
before the one whose rows it displays; the two numbers are never equal. -/
theorem next_page_prints_other_page (in_page : Int) (s : Sys) (l : List Task) (n : Int)
    (db1 : Store)
    (hq : listTasks s.db (wrapInt (s.listPage + 1)) s.listLimit s.filter = (.ok (l, n), db1)) :
    (execute in_page ⟨CMD_LIST_TAKS_NEXT_PAGE⟩ s).sys.trace =
      s.trace ++ [Event.listTasks (wrapInt (s.listPage + 1)) s.listLimit s.filter,
        Event.printTasks s.listPage s.listLimit l s.filter n] ∧
    wrapInt (s.listPage + 1) ≠ s.listPage := by
  constructor
  · have h1 : CMD_LIST_TAKS_NEXT_PAGE ≠ CMD_GOTO_CONSOLE := by decide
    have h2 : CMD_LIST_TAKS_NEXT_PAGE ≠ CMD_EXIT := by decide
    have h3 : CMD_LIST_TAKS_NEXT_PAGE ≠ CMD_GOTO_PGE_LIST_TASKS := by decide
    unfold execute
    rw [if_neg h1, if_neg h2, if_neg h3, if_pos rfl]
    simp only [callListTasks, hq]
    by_cases hlen : l.length > 0 <;> simp [Outcome.sys, hlen, printTasks]
  · unfold wrapInt
    omega

theorem next_page_prints_other_page_witness :
    listTasks sampleSys.db (wrapInt (sampleSys.listPage + 1)) sampleSys.listLimit sampleSys.filter
      = (.ok ([sampleTask 1 "a"], 3), sampleStore) ∧
    (execute PGE_LIST_TASKS ⟨CMD_LIST_TAKS_NEXT_PAGE⟩ sampleSys).sys.trace =
      [Event.listTasks 2 2 ListTaskFilter.zero,
        Event.printTasks 1 2 [sampleTask 1 "a"] ListTaskFilter.zero 3] :=
  ⟨by decide, (next_page_prints_other_page PGE_LIST_TASKS sampleSys [sampleTask 1 "a"] 3 sampleStore
    (by decide)).1⟩

/-! ## Week and month begin -/

/-- `monthDay` finds a valid day of a month again from its day of the year. -/
theorem monthDay_yearDay (leap : Bool) (m d : Int) (h1 : 1 ≤ m) (h12 : m ≤ 12) (hd1 : 1 ≤ d)
    (hd : d ≤ (if (m == 2 && leap) = true then 29 else daysBefore m - daysBefore (m - 1))) :
    monthDay leap (yearDay leap m d) = (m, d) := by
  interval_cases m <;> cases leap <;>
    (simp only [daysBefore] at hd; norm_num at hd; interval_cases d <;> decide)

/-- A time built by `time.Date` from a valid civil date and a time of day has
that date and that time of day. -/
theorem Time.Date_goDate (y m d ns : Int) (h1 : 1 ≤ m) (h12 : m ≤ 12) (hd1 : 1 ≤ d)
    (hd : d ≤ daysIn m y) (hn0 : 0 ≤ ns) (hn : ns < nsPerDay) :
    (goDate y m d ns).Date = (y, m, d) ∧ (goDate y m d ns).nsOfDay = ns := by
  have hq : (m - 1) / 12 = 0 := by omega
  have hr : (m - 1) % 12 + 1 = m := by omega
  simp only [goDate_eq, hq, hr, add_zero, Time.Date]
  have hdays : (⟨(daysSinceEpoch y + yearDay (isLeap y) m d) * nsPerDay + ns,
      Location.UTC⟩ : Time).days = daysSinceEpoch y + yearDay (isLeap y) m d := by
    simp only [Time.days, nsPerDay] at hn ⊢
    omega
  have hnod : (⟨(daysSinceEpoch y + yearDay (isLeap y) m d) * nsPerDay + ns,
      Location.UTC⟩ : Time).nsOfDay = ns := by
    simp only [Time.nsOfDay, nsPerDay] at hn ⊢
    omega
  refine ⟨?_, hnod⟩
  rw [hdays]
  have hmd := monthDay_yearDay (isLeap y) m d h1 h12 hd1 (by simpa [daysIn] using hd)
  obtain ⟨t0, t1, t2, t3, t4, t5, t6, t7, t8, t9, t10, t11, t12⟩ := daysBefore_table
  have hb : 0 ≤ yearDay (isLeap y) m d ∧ yearDay (isLeap y) m d ≤ 365 ∧
      (yearDay (isLeap y) m d = 365 → isLeap y = true) := by
    simp only [daysIn] at hd
    simp only [yearDay]
    interval_cases m <;> cases hl : isLeap y <;>
      simp [t0, t1, t2, t3, t4, t5, t6, t7, t8, t9, t10, t11, t12, hl] at hd ⊢ <;> omega
  simp only [absDate]
  rw [absYday_unique _ _ hb.1 hb.2.1 (fun h => (isLeap_iff y).mp (hb.2.2 h))]
  simp only [hmd]

/-- The first element of a list on which a function succeeds decides `findSome?`. -/
theorem findSome_first {α β : Type} (f : α → Option β) (l : List α) (i : Nat)
    (hi : i < l.length) (t : β) (h : f (l.get ⟨i, hi⟩) = some t)
    (hj : ∀ j (hj : j < i), f (l.get ⟨j, hj.trans hi⟩) = none) : l.findSome? f = some t := by
  induction l generalizing i with
  | nil => simp at hi
  | cons x xs ih =>
    cases i with
    | zero =>
      simp only [List.get_eq_getElem, List.getElem_cons_zero] at h
      simp [List.findSome?, h]
    | succ i =>
      have h0 := hj 0 (Nat.succ_pos i)
      simp only [List.get_eq_getElem, List.getElem_cons_zero] at h0
      simp only [List.findSome?, h0]
      apply ih i (by simpa using hi) h
      intro j hj2
      exact hj (j + 1) (Nat.succ_lt_succ hj2)

/-- A value that one of the two date-only layouts parses is a valid civil
date, and the time parsed is built from it with time of day 0. -/
theorem timeParse_date_only (layout value : String) (t : Time)
    (hl : layout = "2006-01-02" ∨ layout = "2006/01/02") (h : timeParse layout value = some t) :
    ∃ y m d, 1 ≤ m ∧ m ≤ 12 ∧ 1 ≤ d ∧ d ≤ daysIn m y ∧ t = goDate y m d 0 := by
  rcases hl with rfl | rfl <;>
  · simp [timeParse, parseDatePart, Option.bind_eq_some] at h
    obtain ⟨y, m, d, _, ⟨_, _, _, _, _, _, _, _, ⟨hm0, hm12⟩, _, _, _, _, rfl, rfl, rfl⟩, _,
      ⟨hd1, hd⟩, rfl⟩ := h
    exact ⟨_, _, _, by omega, hm12, hd1, hd, rfl⟩

/-- C12: `parseTime` returns no time exactly for the empty string.  For a
non-empty string it returns the time parsed by the first layout of
`timeFormats` (date and clock with dashes, date and clock with slashes, date
with dashes, date with slashes, in this order) that parses it, and leaves the
session as it was; when no layout parses it, it returns the reading of the
clock.  A time parsed by a date-only layout is midnight (time of day 0) of the
valid civil date it was built from: "2024-01-02" gives 2024-01-02 at time of
day 0, and "not-a-date" gives the reading of the clock. -/
theorem parseTime_contract (s : String) (sys : Sys) :
    ((parseTime s sys).1 = none ↔ s = "") ∧
    (s ≠ "" → ∀ (i : Nat) (hi : i < timeFormats.length) (t : Time),
      timeParse (timeFormats.get ⟨i, hi⟩) s = some t →
      (∀ j (hj : j < i), timeParse (timeFormats.get ⟨j, hj.trans hi⟩) s = none) →
      parseTime s sys = (some t, sys)) ∧
    (s ≠ "" → (∀ f ∈ timeFormats, timeParse f s = none) →
      parseTime s sys = (some sys.Now.1, sys.Now.2)) ∧
    (∀ f t, f = "2006-01-02" ∨ f = "2006/01/02" → timeParse f s = some t →
      ∃ y m d, t = goDate y m d 0 ∧ t.Date = (y, m, d) ∧ t.nsOfDay = 0 ∧
        1 ≤ m ∧ m ≤ 12 ∧ 1 ≤ d ∧ d ≤ daysIn m y) ∧
    timeFormats = ["2006-01-02 15:04:05", "2006/01/02 15:04:05", "2006-01-02", "2006/01/02"] ∧
    parseTime "2024-01-02" sys = (some (goDate 2024 1 2 0), sys) ∧
    (goDate 2024 1 2 0).Date = (2024, 1, 2) ∧ (goDate 2024 1 2 0).nsOfDay = 0 ∧
    parseTime "not-a-date" sys = (some sys.Now.1, sys.Now.2) := by
  refine ⟨?_, ?_, ?_, ?_, rfl, rfl, by decide, by decide, rfl⟩
  · constructor
    · intro h
      by_contra hs
      unfold parseTime at h
      rw [if_neg hs] at h
      split at h <;> simp at h
    · rintro rfl
      rfl
  · intro hs i hi t ht hj
    have := findSome_first (fun f => timeParse f s) timeFormats i hi t ht hj
    simp only [parseTime, if_neg hs, this]
  · intro hs hnone
    have : timeFormats.findSome? (fun f => timeParse f s) = none :=
      List.findSome?_eq_none_iff.mpr hnone
    simp only [parseTime, if_neg hs, this]
  · intro f t hf ht
    obtain ⟨y, m, d, h1, h12, hd1, hd, rfl⟩ := timeParse_date_only f s t hf ht
    obtain ⟨hD, hN⟩ := Time.Date_goDate y m d 0 h1 h12 hd1 hd (le_refl 0) (by decide)
    exact ⟨y, m, d, rfl, hD, hN, h1, h12, hd1, hd⟩

/-! ## Building a task from the input -/


/-- A non-empty prefix of a list starts with the head of the list. -/
theorem head_of_prefix {α : Type} {R L : List α} (h : R <+: L) (hl : 0 < R.length)
    (hne : L ≠ []) : L.head hne = R.get ⟨0, hl⟩ := by
  obtain ⟨t, rfl⟩ := h
  cases R with
  | nil => simp at hl
  | cons x xs => simp

/-- Trimming a trimmed string changes nothing. -/
theorem trimSpace_idem (s : String) : trimSpace (trimSpace s) = trimSpace s := by
  simp only [trimSpace]
  congr 1
  have hR : ((s.toList.dropWhile isSpace).reverse.dropWhile isSpace).reverse
      = (s.toList.dropWhile isSpace).rdropWhile isSpace := rfl
  rw [hR]
  have hhead := List.head_dropWhile_not isSpace s.toList
  generalize s.toList.dropWhile isSpace = L at hhead ⊢
  have hd : (L.rdropWhile isSpace).dropWhile isSpace = L.rdropWhile isSpace := by
    rw [List.dropWhile_eq_self_iff]
    intro hl
    have hne : L ≠ [] := by
      rintro rfl
      simp [List.rdropWhile] at hl
    rw [← head_of_prefix (List.rdropWhile_prefix _ _) hl hne]
    simpa using hhead hne
  show (((List.rdropWhile isSpace L).dropWhile isSpace).reverse.dropWhile isSpace).reverse = _
  rw [hd]
  exact List.rdropWhile_idempotent _ _

/-- C16: when the terminal delivers a name line whose trimmed text X is not
empty, then a status line, then three blank lines for the times,
`taskFromInput` builds the task with name X, creation time the reading of the
clock, the three optional timestamps absent, and the status `parseStatus`
finds: IN_PROGRESS when the trimmed status answer is none of the three names
ignoring letter case (the empty answer among them), and otherwise the status
of the name it equals ignoring letter case. -/
theorem taskFromInput_defaults (s : Sys) (nameLine statusLine l2 l3 l4 : String)
    (rest : List String)
    (hin : s.stdin = nameLine :: statusLine :: l2 :: l3 :: l4 :: rest)
    (hname : trimSpace nameLine ≠ "")
    (h2 : trimSpace l2 = "") (h3 : trimSpace l3 = "") (h4 : trimSpace l4 = "") :
    (∃ logs : List String, taskFromInput s =
      (some (true, ⟨0, trimSpace nameLine,
          parseStatus (trimSpace statusLine) STATUS_IN_PROGRESS, s.Now.1, none, none, none⟩),
        ⟨s.listPage, s.listLimit, s.filter, s.db, rest, s.clock, s.tick + 1,
          s.trace ++ logs.map Event.log⟩)) ∧
    (sameIgnoringCase (trimSpace statusLine) "IN_PROGRESS" = false →
      sameIgnoringCase (trimSpace statusLine) "FINISHED" = false →
      sameIgnoringCase (trimSpace statusLine) "CANCELLED" = false →
      parseStatus (trimSpace statusLine) STATUS_IN_PROGRESS = STATUS_IN_PROGRESS) ∧
    (trimSpace statusLine = "" →
      parseStatus (trimSpace statusLine) STATUS_IN_PROGRESS = STATUS_IN_PROGRESS) ∧
    (sameIgnoringCase (trimSpace statusLine) "IN_PROGRESS" = true →
      parseStatus (trimSpace statusLine) STATUS_IN_PROGRESS = STATUS_IN_PROGRESS) ∧
    (sameIgnoringCase (trimSpace statusLine) "FINISHED" = true →
      parseStatus (trimSpace statusLine) STATUS_IN_PROGRESS = STATUS_FINISHED) ∧
    (sameIgnoringCase (trimSpace statusLine) "CANCELLED" = true →
      parseStatus (trimSpace statusLine) STATUS_IN_PROGRESS = STATUS_CANCELLED) := by
  have hF : toUpper "FINISHED" = "FINISHED" := by decide
  have hC : toUpper "CANCELLED" = "CANCELLED" := by decide
  have hP : toUpper "IN_PROGRESS" = "IN_PROGRESS" := by decide
  refine ⟨?_, ?_, ?_, ?_, ?_, ?_⟩
  · obtain ⟨a, b, c, d, i, e, f, g⟩ := s
    simp only at hin
    subst hin
    refine ⟨["Name:", "Status [IN_PROGRESS | FINISHED | CANCELLED]:", "Actual Start:",
      "Expected End:", "Actual End:"], ?_⟩
    have h0 : trimSpace "" = "" := by decide
    simp [taskFromInput, input_eq, readInput, hname, trimSpace_idem, h0, h2, h3, h4, Sys.Now,
      parseTime]
  · intro hp hf hc
    simp only [sameIgnoringCase, hF, hC, hP, beq_eq_false_iff_ne, ne_eq] at hp hf hc
    simp [parseStatus, hp, hf, hc]
  · intro h
    rw [h]
    decide
  · intro hp
    simp only [sameIgnoringCase, hP, beq_iff_eq] at hp
    simp [parseStatus, hp]
  · intro hf
    simp only [sameIgnoringCase, hF, beq_iff_eq] at hf
    simp [parseStatus, hf]
  · intro hc
    simp only [sameIgnoringCase, hC, beq_iff_eq] at hc
    simp [parseStatus, hc]

theorem taskFromInput_defaults_witness :
    (∃ logs : List String,
      taskFromInput (initSys sampleStore ["X", "finished", "", " ", ""] (fun n => ⟨n, Location.UTC⟩)) =
      (some (true, ⟨0, "X", STATUS_FINISHED, ⟨0, Location.UTC⟩, none, none, none⟩),
        ⟨1, 10, ListTaskFilter.zero, sampleStore, [], fun n => ⟨n, Location.UTC⟩, 1,
          logs.map Event.log⟩)) ∧
    parseStatus "" STATUS_IN_PROGRESS = STATUS_IN_PROGRESS ∧
    parseStatus "later" STATUS_IN_PROGRESS = STATUS_IN_PROGRESS ∧
    parseStatus "Cancelled" STATUS_IN_PROGRESS = STATUS_CANCELLED :=
  ⟨(taskFromInput_defaults (initSys sampleStore ["X", "finished", "", " ", ""] (fun n => ⟨n, Location.UTC⟩))
      "X" "finished" "" " " "" [] rfl (by decide) (by decide) (by decide) (by decide)).1,
    by decide, by decide, by decide⟩

/-! ## The table -/

/-- Appending a one-character token `n` times appends `n` copies of the character. -/
theorem foldl_append_data (token : String) (c : Char) (h : token.data = [c]) (n : Nat)
    (acc : String) :
    ((List.replicate n token).foldl (fun s t => s ++ t) acc).data
      = acc.data ++ List.replicate n c := by
  induction n generalizing acc with
  | zero => simp
  | succ n ih =>
    rw [List.replicate_succ, List.foldl_cons, ih, String.data_append, h, List.replicate_succ]
    simp

/-- `sjoin` of a one-character token. -/
theorem sjoin_data (cnt : Int) (token : String) (c : Char) (h : token.data = [c]) :
    (sjoin cnt token).data = List.replicate cnt.toNat c := by
  simp [sjoin, foldl_append_data token c h]

/-- A row with a cell for every column widens the columns. -/
theorem widen_spec (ind : List Int) (r : List String) (h : ind.length ≤ r.length) :
    ∃ ind', widen ind r = some ind' ∧ ind'.length = ind.length ∧
      ∀ i, i < ind.length →
        ind'.getD i 0 = intMax (ind.getD i 0) (strWidth (r.getD i "")) := by
  induction ind generalizing r with
  | nil => exact ⟨[], rfl, rfl, fun i hi => absurd hi (Nat.not_lt_zero i)⟩
  | cons w ws ih =>
    cases r with
    | nil => simp at h
    | cons cell cells =>
      obtain ⟨ws', h1, h2, h3⟩ := ih cells (by simpa using h)
      refine ⟨intMax w (strWidth cell) :: ws', by simp [widen, h1], by simp [h2], ?_⟩
      intro i hi
      cases i with
      | zero => simp
      | succ i => simpa using h3 i (by simpa using hi)

/-- The widest of a start value and the values of a list, found by `max`. -/
theorem foldl_intMax {α : Type} (g : α → Int) (l : List α) (m0 : Int) :
    m0 ≤ l.foldl (fun m r => intMax m (g r)) m0 ∧
    (∀ r ∈ l, g r ≤ l.foldl (fun m r => intMax m (g r)) m0) ∧
    (l.foldl (fun m r => intMax m (g r)) m0 = m0 ∨
      ∃ r ∈ l, l.foldl (fun m r => intMax m (g r)) m0 = g r) := by
  induction l generalizing m0 with
  | nil => simp
  | cons x xs ih =>
    obtain ⟨h1, h2, h3⟩ := ih (intMax m0 (g x))
    simp only [List.foldl_cons]
    have hm : m0 ≤ intMax m0 (g x) ∧ g x ≤ intMax m0 (g x) ∧
        (intMax m0 (g x) = m0 ∨ intMax m0 (g x) = g x) := by
      unfold intMax
      split <;> omega
    refine ⟨by omega, ?_, ?_⟩
    · intro r hr
      rcases List.mem_cons.mp hr with rfl | hr
      · omega
      · exact h2 r hr
    · rcases h3 with h3 | ⟨r, hr, h3⟩
      · rcases hm.2.2 with h | h
        · exact Or.inl (h3.trans h)
        · exact Or.inr ⟨x, List.mem_cons_self _ _, h3.trans h⟩
      · exact Or.inr ⟨r, List.mem_cons_of_mem _ hr, h3⟩

/-- The loops filling `indent`, started from any widths. -/
theorem foldlM_widen (rows : List (List String)) (ind : List Int)
    (h : ∀ r ∈ rows, ind.length ≤ r.length) :
    ∃ ws, rows.foldlM widen ind = some ws ∧ ws.length = ind.length ∧
      ∀ i, i < ind.length →
        ws.getD i 0 = rows.foldl (fun m r => intMax m (strWidth (r.getD i ""))) (ind.getD i 0) := by
  induction rows generalizing ind with
  | nil => exact ⟨ind, rfl, rfl, fun i _ => rfl⟩
  | cons r rows ih =>
    obtain ⟨ind', h1, h2, h3⟩ := widen_spec ind r (h r (List.mem_cons_self _ _))
    obtain ⟨ws, h4, h5, h6⟩ := ih ind' (fun r' hr' => by
      rw [h2]; exact h r' (List.mem_cons_of_mem _ hr'))
    refine ⟨ws, by simp [List.foldlM_cons, h1, h4], h5.trans h2, ?_⟩
    intro i hi
    rw [h6 i (by omega), h3 i hi]
    rfl

/-- Widths that bound the cells of a line from above fit the line. -/
theorem fits_of_bound (ws : List Int) (cells : List String) (hlen : ws.length ≤ cells.length)
    (h : ∀ i, i < ws.length → strWidth (cells.getD i "") ≤ ws.getD i 0) : fits ws cells = true := by
  induction ws generalizing cells with
  | nil => rfl
  | cons w ws ih =>
    cases cells with
    | nil => simp at hlen
    | cons cell cells =>
      have h0 := h 0 (by simp)
      simp only [List.getD_cons_zero] at h0
      simp only [fits, Bool.and_eq_true, decide_eq_true_eq]
      refine ⟨h0, ih cells (by simpa using hlen) ?_⟩
      intro i hi
      simpa using h (i + 1) (by simpa using hi)

/-- What `fits` says about the first column. -/
theorem fits_cons (w : Int) (ws : List Int) (cell : String) (cells : List String)
    (h : fits (w :: ws) (cell :: cells) = true) :
    cell.length ≤ w.toNat ∧ 0 ≤ w ∧ strWidth cell ≤ w ∧ fits ws cells = true := by
  simp only [fits, Bool.and_eq_true, decide_eq_true_eq] at h
  have := h.1
  unfold strWidth at this ⊢
  exact ⟨by omega, by omega, h.1, h.2⟩

/-- One column of a header or data line, as the loops build it. -/
theorem field_data (w : Int) (cell : String) (k : Int) (hk : k = w - strWidth cell + 1)
    (h : strWidth cell ≤ w) :
    (cell ++ spaces k ++ " | ").data = padRight w cell ++ [' ', ' ', '|', ' '] := by
  have hs : (spaces k).data = List.replicate k.toNat ' ' := sjoin_data k " " ' ' rfl
  have hb : (" | " : String).data = [' ', '|', ' '] := rfl
  have hn : k.toNat = (w.toNat - cell.length) + 1 := by
    unfold strWidth at hk h
    omega
  rw [String.data_append, String.data_append, hs, hb, hn, List.replicate_succ']
  simp [padRight]

/-- The line `rowLoop` builds for a row that fits the widths. -/
theorem rowLoop_eq (ws : List Int) (cells : List String) (rowCtn : String)
    (h : fits ws cells = true) :
    rowLoop ws cells rowCtn = some ⟨rowCtn.data ++ fieldsOf ws cells⟩ := by
  induction ws generalizing cells rowCtn with
  | nil => simp [rowLoop, fieldsOf]
  | cons w ws ih =>
    cases cells with
    | nil => simp [fits] at h
    | cons cell cells =>
      obtain ⟨-, -, hw, hf⟩ := fits_cons w ws cell cells h
      rw [rowLoop, ih cells _ hf, String.data_append,
        field_data w cell (1 + w - strWidth cell) (by ring) hw]
      simp [fieldsOf]

/-- The header and the separator `headerLoop` builds for columns that fit the widths. -/
theorem headerLoop_eq (cols : List String) (ws : List Int) (colTitle colSep : String)
    (hlen : ws.length = cols.length) (h : fits ws cols = true) :
    headerLoop cols ws (colTitle, colSep)
      = (⟨colTitle.data ++ fieldsOf ws cols⟩, ⟨colSep.data ++ dashesOf ws⟩) := by
  induction ws generalizing cols colTitle colSep with
  | nil =>
    cases cols with
    | nil => simp [headerLoop, fieldsOf, dashesOf]
    | cons col cols => simp at hlen
  | cons w ws ih =>
    cases cols with
    | nil => simp at hlen
    | cons col cols =>
      obtain ⟨-, hw0, hw, hf⟩ := fits_cons w ws col cols h
      have hd : (sjoin (w + 1) "-" ++ "-|").data = List.replicate (w.toNat + 2) '-' ++ ['|'] := by
        have hn : (w + 1).toNat = w.toNat + 1 := by omega
        rw [String.data_append, sjoin_data (w + 1) "-" '-' rfl, hn]
        show List.replicate (w.toNat + 1) '-' ++ ['-', '|'] = _
        rw [List.replicate_succ' (w.toNat + 1)]
        simp
      have hlen' : ws.length = cols.length := by simpa using hlen
      rw [headerLoop]
      rw [ih cols _ _ hlen' hf, String.data_append, field_data w col _ rfl hw]
      cases ws with
      | nil =>
        have : cols = [] := List.length_eq_zero.mp hlen'.symm
        subst this
        simp [fieldsOf, dashesOf, hd]
      | cons w2 ws2 =>
        have : cols ≠ [] := by
          intro h0
          rw [h0] at hlen'
          simp at hlen'
        have hne : cols.isEmpty = false := by
          cases cols with
          | nil => exact absurd rfl this
          | cons _ _ => rfl
        simp [fieldsOf, dashesOf, hd, hne]

/-- The element right after a prefix of known length. -/
theorem getElem?_after (a : List Char) (x : Char) (b : List Char) (p : Nat)
    (h : p = a.length) : (a ++ x :: b)[p]? = some x := by
  subst h
  rw [List.getElem?_append_right (le_refl _)]
  simp

/-- The length of a padded cell that is not wider than the width. -/
theorem padRight_length (w : Int) (cell : String) (h : cell.length ≤ w.toNat) :
    (padRight w cell).length = w.toNat := by
  simp only [padRight, List.length_append, List.length_replicate]
  show cell.length + (w.toNat - cell.length) = w.toNat
  omega

/-- In a header or data line every border stands at its position. -/
theorem bars_fields (ws : List Int) (cells : List String) (pre : List Char)
    (h : fits ws cells = true) (p : Nat) (hp : p ∈ barsFrom pre.length ws) :
    (pre ++ fieldsOf ws cells)[p]? = some '|' := by
  induction ws generalizing cells pre with
  | nil => simp [barsFrom] at hp
  | cons w ws ih =>
    cases cells with
    | nil => simp [fits] at h
    | cons cell cells =>
      obtain ⟨hc, -, -, hf⟩ := fits_cons w ws cell cells h
      have hl := padRight_length w cell hc
      simp only [barsFrom, List.mem_cons] at hp
      rcases hp with rfl | hp
      · have : pre ++ fieldsOf (w :: ws) (cell :: cells)
            = (pre ++ padRight w cell ++ [' ', ' ']) ++ '|' :: (' ' :: fieldsOf ws cells) := by
          simp [fieldsOf]
        rw [this]
        exact getElem?_after _ _ _ _ (by simp [hl]; omega)
      · have : pre ++ fieldsOf (w :: ws) (cell :: cells)
            = (pre ++ (padRight w cell ++ [' ', ' ', '|', ' '])) ++ fieldsOf ws cells := by
          simp [fieldsOf]
        rw [this]
        apply ih cells _ hf
        have hlen : (pre ++ (padRight w cell ++ [' ', ' ', '|', ' '])).length
            = pre.length + w.toNat + 4 := by
          simp [hl]; omega
        rw [hlen]
        exact hp

/-- In the separator line a `|` stands at the position of every border. -/
theorem bars_dashes (ws : List Int) (pre : List Char) (p : Nat)
    (hp : p ∈ barsFrom pre.length ws) : (pre ++ dashesOf ws)[p]? = some '|' := by
  induction ws generalizing pre with
  | nil => simp [barsFrom] at hp
  | cons w ws ih =>
    simp only [barsFrom, List.mem_cons] at hp
    cases ws with
    | nil =>
      rcases hp with rfl | hp
      · simp only [dashesOf]
        rw [← List.append_assoc]
        exact getElem?_after _ _ _ _ (by simp; omega)
      · simp [barsFrom] at hp
    | cons w2 ws2 =>
      rcases hp with rfl | hp
      · have : pre ++ dashesOf (w :: w2 :: ws2)
            = (pre ++ List.replicate (w.toNat + 2) '-') ++ '|' :: ('-' :: dashesOf (w2 :: ws2)) := by
          simp [dashesOf]
        rw [this]
        exact getElem?_after _ _ _ _ (by simp; omega)
      · have : pre ++ dashesOf (w :: w2 :: ws2)
            = (pre ++ (List.replicate (w.toNat + 2) '-' ++ ['|', '-'])) ++ dashesOf (w2 :: ws2) := by
          simp [dashesOf]
        rw [this]
        apply ih
        have hlen : (pre ++ (List.replicate (w.toNat + 2) '-' ++ ['|', '-'])).length
            = pre.length + w.toNat + 4 := by
          simp; omega
        rw [hlen]
        exact hp

/-- The separator line is made of dashes and `|` only. -/
theorem dashesOf_chars (ws : List Int) : ∀ c ∈ dashesOf ws, c = '-' ∨ c = '|' := by
  induction ws with
  | nil => simp [dashesOf]
  | cons w ws ih =>
    cases ws with
    | nil =>
      intro c hc
      simp only [dashesOf, List.mem_append, List.mem_replicate, List.mem_singleton] at hc
      rcases hc with ⟨-, h⟩ | h
      · exact Or.inl h
      · exact Or.inr h
    | cons w2 ws2 =>
      intro c hc
      simp only [dashesOf, List.mem_append, List.mem_replicate, List.mem_cons,
        List.mem_singleton] at hc ih
      rcases hc with (⟨-, h⟩ | h | h | h) | h
      · exact Or.inl h
      · exact Or.inr h
      · exact Or.inl h
      · simp at h
      · exact ih c h

/-- The data lines of rows that fit the widths. -/
theorem mapM_rowLoop (ws : List Int) (rows : List (List String))
    (h : ∀ r ∈ rows, fits ws r = true) :
    rows.mapM (fun r => rowLoop ws r "| ") = some (rows.map (dataLine ws)) := by
  induction rows with
  | nil => rfl
  | cons r rows ih =>
    rw [List.mapM_cons, rowLoop_eq ws r _ (h r (List.mem_cons_self _ _)),
      ih (fun r' hr' => h r' (List.mem_cons_of_mem _ hr'))]
    rfl

/-- C15: for columns `cols` and rows that each have a cell for every column,
`printRows` does not panic; the width of column i it computes is the maximum
of the character counts of header i and of cell i of every row (at least
each of them, and equal to one of them); it prints the separator line, the
header and the separator line again in its first call, one line per row, and
the same separator line last; the header and every row hold each cell padded
with spaces on the right to the width of its column, so that in the header,
in every row and in the separator line, which is made of dashes and `|` only,
a `|` stands at each of the border positions the widths determine. -/
theorem printRows_table (cols : List String) (rows : List (List String))
    (hrows : ∀ r ∈ rows, cols.length ≤ r.length) :
    ∃ ws : List Int, tableWidths cols rows = some ws ∧ ws.length = cols.length ∧
      (∀ i, i < cols.length →
        strWidth (cols.getD i "") ≤ ws.getD i 0 ∧
        (∀ r ∈ rows, strWidth (r.getD i "") ≤ ws.getD i 0) ∧
        (ws.getD i 0 = strWidth (cols.getD i "") ∨
          ∃ r ∈ rows, ws.getD i 0 = strWidth (r.getD i "")) ∧
        (padRight (ws.getD i 0) (cols.getD i "")).length = (ws.getD i 0).toNat ∧
        ∀ r ∈ rows, (padRight (ws.getD i 0) (r.getD i "")).length = (ws.getD i 0).toNat) ∧
      printRows cols rows =
        some ([sepLine ws ++ "\n" ++ dataLine ws cols ++ "\n" ++ sepLine ws] ++
          rows.map (dataLine ws) ++ [sepLine ws]) ∧
      (∀ p ∈ borderBars ws, (sepLine ws).data[p]? = some '|' ∧
        (dataLine ws cols).data[p]? = some '|' ∧
        ∀ r ∈ rows, (dataLine ws r).data[p]? = some '|') ∧
      (∀ c ∈ (sepLine ws).data, c = '-' ∨ c = '|') := by
  obtain ⟨ws, h1, h2, h3⟩ := foldlM_widen rows (cols.map strWidth)
    (fun r hr => by simpa using hrows r hr)
  have hlen : ws.length = cols.length := by simpa using h2
  have hget : ∀ i, i < cols.length → (cols.map strWidth).getD i 0 = strWidth (cols.getD i "") := by
    intro i hi
    simp [List.getD_eq_getElem?_getD, hi]
  have hmax : ∀ i, i < cols.length →
      strWidth (cols.getD i "") ≤ ws.getD i 0 ∧
      (∀ r ∈ rows, strWidth (r.getD i "") ≤ ws.getD i 0) ∧
      (ws.getD i 0 = strWidth (cols.getD i "") ∨
        ∃ r ∈ rows, ws.getD i 0 = strWidth (r.getD i "")) := by
    intro i hi
    have hf := foldl_intMax (fun r : List String => strWidth (r.getD i "")) rows
      (strWidth (cols.getD i ""))
    rw [h3 i (by simpa using hi), hget i hi]
    exact hf
  have hfc : fits ws cols = true :=
    fits_of_bound ws cols (by omega) (fun i hi => (hmax i (by omega)).1)
  have hfr : ∀ r ∈ rows, fits ws r = true := fun r hr =>
    fits_of_bound ws r (by have := hrows r hr; omega) (fun i hi => (hmax i (by omega)).2.1 r hr)
  have hpad : ∀ (w : Int) (cell : String), strWidth cell ≤ w →
      (padRight w cell).length = w.toNat := by
    intro w cell h
    apply padRight_length
    unfold strWidth at h
    omega
  refine ⟨ws, h1, hlen, ?_, ?_, ?_, ?_⟩
  · intro i hi
    obtain ⟨a, b, c⟩ := hmax i hi
    exact ⟨a, b, c, hpad _ _ a, fun r hr => hpad _ _ (b r hr)⟩
  · have hh := headerLoop_eq cols ws "| " "|-" hlen hfc
    have hm := mapM_rowLoop ws rows hfr
    simp only [printRows, tableWidths] at h1 ⊢
    rw [h1]
    simp only [Option.bind_eq_bind, Option.some_bind, hh, hm]
    rfl
  · intro p hp
    simp only [borderBars, List.mem_cons] at hp
    rcases hp with rfl | hp
    · exact ⟨rfl, rfl, fun _ _ => rfl⟩
    · refine ⟨bars_dashes ws ['|', '-'] p hp, bars_fields ws cols ['|', ' '] hfc p hp, ?_⟩
      intro r hr
      exact bars_fields ws r ['|', ' '] (hfr r hr) p hp
  · intro c hc
    simp only [sepLine, List.mem_cons] at hc
    rcases hc with h | h | h
    · exact Or.inr h
    · exact Or.inl h
    · exact dashesOf_chars ws c h

theorem printRows_table_witness :
    (∀ r ∈ [["1", "Bob"], ["22", "A"]], ["Id", "Name"].length ≤ r.length) ∧
    tableWidths ["Id", "Name"] [["1", "Bob"], ["22", "A"]] = some [2, 4] ∧
    printRows ["Id", "Name"] [["1", "Bob"], ["22", "A"]] =
      some ["|-----|-------|\n| Id  | Name  | \n|-----|-------|", "| 1   | Bob   | ",
        "| 22  | A     | ", "|-----|-------|"] ∧
    ∃ ws : List Int, tableWidths ["Id", "Name"] [["1", "Bob"], ["22", "A"]] = some ws ∧
      printRows ["Id", "Name"] [["1", "Bob"], ["22", "A"]] =
        some ([sepLine ws ++ "\n" ++ dataLine ws ["Id", "Name"] ++ "\n" ++ sepLine ws] ++
          [["1", "Bob"], ["22", "A"]].map (dataLine ws) ++ [sepLine ws]) :=
  ⟨by decide, by decide, by decide,
    (printRows_table ["Id", "Name"] [["1", "Bob"], ["22", "A"]] (by decide)).elim
      (fun ws h => ⟨ws, h.1, h.2.2.2.1⟩)⟩

end Peanut
